import Mathlib

/-!
# lms-go-be: enrollment and quiz rules of `internal/service`

A shallow embedding of the integer-keyed application tree (`internal/models`,
`internal/repository`, `internal/service`).

Conventions of the embedding

* Every table is the list of its live rows, in insertion order.  A repository
  query is the corresponding list operation (`WHERE` is a filter, `First` is
  `find?`, `Count` is `countP`, `UPDATE ... WHERE` is a `map`).
* The store is in memory: the only errors a repository call returns are
  `record not found` and, for the unique index on `certificate_number`, a
  duplicate key.  Every service operation returns its result together with
  the store it leaves behind, so that writes made before an error stay visible.
* Go `uint` identifiers are `Nat`; Go `int`/`int64` values are `Int`, 64 bits
  wide.  Arithmetic on values that come from the caller or from stored rows
  (the coin reward `passing_score * 2`, the sum of stored percentages) wraps
  around as in Go (`wrapInt64`); arithmetic on counts (a count of questions
  times one hundred, a count of rows plus one) stays far below `2^63` and is
  not wrapped.  Go's `/` on `int` is `Int.tdiv`.
* The services are given twice: as written, with repository writes that
  succeed, and with chosen repository writes made to fail (`Faults`,
  `Faulty.*`), for the statements about errors that the source discards.
* Go `float64` values are binary64 numbers `± mantissa * 2 ^ exponent`; each
  operation is computed exactly and rounded to 53 bits, to nearest, ties to
  even.  Quotients and products of `int` values stay in the normal range, so
  the exponent is not bounded.
* `time.Now()` is the explicit argument `now`, in Unix seconds.
* Columns that no modelled rule reads (texts, ordering numbers, audit
  timestamps, preloaded relations) are left out of the records.
-/
namespace LmsGoBe

/-! ## Machine integers -/

/-- The value of an integer expression in Go's 64-bit `int` / `int64`: the
mathematical result wrapped around modulo `2^64` into `-2^63 .. 2^63 - 1`. -/
def wrapInt64 (x : Int) : Int := (x + 2 ^ 63) % 2 ^ 64 - 2 ^ 63

/-! ## Binary64 arithmetic (Go `float64`) -/

/-- A binary64 number `± mantissa * 2 ^ exponent`. -/
structure Binary64 where
  negative : Bool
  mantissa : Nat
  exponent : Int
  deriving DecidableEq, Repr

/-- The fraction `n / d` rounded to the nearest integer, ties to the even one. -/
def roundHalfEven (n d : Nat) : Nat :=
  let q := n / d
  let r := n % d
  if 2 * r < d then q
  else if 2 * r > d then q + 1
  else if q % 2 = 0 then q else q + 1

/-- The fraction `n / d * 2 ^ (-e)` as a pair numerator, denominator. -/
def scaleByPowerOfTwo (n d : Nat) (e : Int) : Nat × Nat :=
  if e ≥ 0 then (n, d * 2 ^ e.toNat) else (n * 2 ^ (-e).toNat, d)

/-- The exponent of the highest power of two not above `n` (0 for `n = 0`),
by halving at most `fuel` times. -/
def floorLog2Aux : Nat → Nat → Nat
  | 0, _ => 0
  | fuel + 1, n => if n < 2 then 0 else floorLog2Aux fuel (n / 2) + 1

/-- The exponent of the highest power of two not above `n` (0 for `n = 0`). -/
def floorLog2 (n : Nat) : Nat := floorLog2Aux n n

/-- The positive fraction `n / d` rounded to 53 significant bits, to nearest,
ties to even: the exponent `e` is chosen with `2^52 <= n / d * 2^(-e) < 2^53`
and the scaled fraction is rounded to an integer mantissa. -/
def roundToBinary64 (negative : Bool) (n d : Nat) : Binary64 :=
  if n = 0 then { negative := negative, mantissa := 0, exponent := 0 }
  else
    let e0 : Int := (floorLog2 n : Int) - (floorLog2 d : Int) - 52
    let scaled0 := scaleByPowerOfTwo n d e0
    let e : Int := if scaled0.1 / scaled0.2 < 2 ^ 52 then e0 - 1 else e0
    let scaled := scaleByPowerOfTwo n d e
    { negative := negative, mantissa := roundHalfEven scaled.1 scaled.2, exponent := e }

/-- The conversion `float64(i)` of a Go `int`. -/
def Binary64.ofInt (i : Int) : Binary64 :=
  roundToBinary64 (decide (i < 0)) i.natAbs 1

/-- The quotient `a / b` of binary64 numbers, `b` not zero: the exact quotient
`(a.mantissa / b.mantissa) * 2 ^ (a.exponent - b.exponent)`, rounded. -/
def Binary64.div (a b : Binary64) : Binary64 :=
  let r := roundToBinary64 (a.negative != b.negative) a.mantissa b.mantissa
  { r with exponent := r.exponent + (a.exponent - b.exponent) }

/-- The product `a * b` of binary64 numbers: the exact product
`(a.mantissa * b.mantissa) * 2 ^ (a.exponent + b.exponent)`, rounded. -/
def Binary64.mul (a b : Binary64) : Binary64 :=
  let r := roundToBinary64 (a.negative != b.negative) (a.mantissa * b.mantissa) 1
  { r with exponent := r.exponent + (a.exponent + b.exponent) }

/-- The value of a binary64 number with its fraction discarded (truncation
toward zero), as an unbounded integer. -/
def Binary64.truncate (x : Binary64) : Int :=
  let magnitude : Nat :=
    if x.exponent ≥ 0 then x.mantissa * 2 ^ x.exponent.toNat
    else x.mantissa / 2 ^ (-x.exponent).toNat
  if x.negative then -(magnitude : Int) else (magnitude : Int)

/-- The conversions `int(x)` and `int64(x)` of a `float64`: the fraction is
discarded.  For a value outside `-2^63 .. 2^63 - 1` the Go specification leaves
the result to the implementation; the value here is the one of amd64, the
smallest `int64`. -/
def Binary64.toInt (x : Binary64) : Int :=
  if -2 ^ 63 ≤ x.truncate ∧ x.truncate < 2 ^ 63 then x.truncate else -2 ^ 63

/-- The mantissa of a binary64 number with its sign. -/
def Binary64.signedMantissa (x : Binary64) : Int :=
  if x.negative then -(x.mantissa : Int) else (x.mantissa : Int)

/-- The comparison `a <= b` of binary64 numbers, on the mantissas brought to
the smaller of the two exponents. -/
def Binary64.le (a b : Binary64) : Bool :=
  let e := min a.exponent b.exponent
  decide (a.signedMantissa * 2 ^ (a.exponent - e).toNat
    ≤ b.signedMantissa * 2 ^ (b.exponent - e).toNat)

/-- The binary64 number zero. -/
def Binary64.zero : Binary64 := { negative := false, mantissa := 0, exponent := 0 }

/-! ## Data model (`internal/models/models.go`) -/
/-- Errors returned by the modelled operations; `Error.message` gives the Go text. -/
inductive Error where
  /-- The value `gorm.ErrRecordNotFound`. -/
  | recordNotFound
  /-- Returned by `QuizService.StartAttempt`. -/
  | attemptLimit
  /-- Returned by `EnrollmentService.EnrollUser` for an existing enrollment. -/
  | alreadyEnrolled
  /-- Returned by `EnrollmentService.EnrollUser` when the course lookup fails. -/
  | courseNotFound
  /-- Returned by `EnrollmentService.EnrollUser` when the capacity is reached. -/
  | courseFull
  /-- Returned by `GamificationService.AwardCoins` for a non-positive amount. -/
  | invalidAmount
  /-- Returned by `EnrollmentService.UpdateProgress` outside 0..100. -/
  | invalidRange
  /-- The database error for a second row with the same unique key. -/
  | duplicateKey
  /-- Returned by `GamificationService.SpendCoins` when the balance is too low. -/
  | insufficientCoins
  /-- An error of the storage layer in a repository write that is made to fail. -/
  | storageError
  /-- Returned by `RedeemCoins` of the UUID-keyed tree when the balance is too low. -/
  | insufficientRedemption
  deriving DecidableEq, Repr

/-- The text carried by each error in the source. -/
def Error.message : Error → String
  | .recordNotFound => "record not found"
  | .attemptLimit => "maximum quiz attempts exceeded"
  | .alreadyEnrolled => "user is already enrolled in this course"
  | .courseNotFound => "course not found"
  | .courseFull => "course is full, cannot enroll"
  | .invalidAmount => "coin amount must be positive"
  | .invalidRange => "progress must be between 0 and 100"
  | .duplicateKey => "duplicate key value violates unique constraint"
  | .insufficientCoins => "insufficient coins"
  | .storageError => "storage error"
  | .insufficientRedemption => "insufficient coins for redemption"

/-- Record `models.User`, restricted to the gamification columns. -/
structure User where
  ID : Nat
  GMFCCoins : Int := 0
  CurrentBadgeLevel : String := "bronze"
  TotalLearningHours : Binary64 := Binary64.zero
  CurrentStreak : Int := 0
  deriving DecidableEq, Repr

/-- Record `models.Course`. -/
structure Course where
  ID : Nat
  Title : String := ""
  PassingScore : Int := 70
  MaxEnrollments : Int := 0
  EnrollmentCount : Int := 0
  CompletionCount : Int := 0
  CoinsReward : Int := 100
  deriving DecidableEq, Repr

/-- Record `models.QuestionOption`. -/
structure QuestionOption where
  ID : Nat
  IsCorrect : Bool := false
  deriving DecidableEq, Repr

/-- Record `models.Question` with its preloaded options. -/
structure Question where
  ID : Nat
  QuestionType : String := "mcq"
  Options : List QuestionOption := []
  deriving DecidableEq, Repr

/-- Record `models.Quiz` with its preloaded questions. -/
structure Quiz where
  ID : Nat
  Title : String := ""
  PassingScore : Int := 70
  Attempts : Int := 3
  Questions : List Question := []
  deriving DecidableEq, Repr

/-- Record `models.Enrollment`. -/
structure Enrollment where
  ID : Nat := 0
  UserID : Nat
  CourseID : Nat
  EnrolledAt : Nat := 0
  CompletedAt : Option Nat := none
  LastAccessedAt : Option Nat := none
  CompletionStatus : String := "not_started"
  OverallProgress : Int := 0
  FinalScore : Int := 0
  IsPassed : Bool := false
  deriving DecidableEq, Repr

/-- Record `models.QuizAttempt`. -/
structure QuizAttempt where
  ID : Nat := 0
  QuizID : Nat
  UserID : Nat
  AttemptNumber : Int
  StartedAt : Nat := 0
  SubmittedAt : Option Nat := none
  Score : Int := 0
  MaxScore : Int := 0
  Percentage : Int := 0
  IsPassed : Bool := false
  TimeSpentSeconds : Int := 0
  deriving DecidableEq, Repr

/-- Record `models.CoinTransaction`. -/
structure CoinTransaction where
  UserID : Nat
  Amount : Int
  TransactionType : String
  Reason : String
  ReferenceType : String := ""
  ReferenceID : Option Nat := none
  deriving DecidableEq, Repr

/-- Record `models.UserProgress`. -/
structure UserProgress where
  ID : Nat := 0
  UserID : Nat
  CourseID : Nat
  LessonID : Nat
  WatchedDuration : Int := 0
  TotalDuration : Int := 0
  IsCompleted : Bool := false
  CompletedAt : Option Nat := none
  LastAccessedAt : Option Nat := none
  ProgressPercentage : Int := 0
  deriving DecidableEq, Repr

/-- Record `models.Certificate`; `CertificateNumber` carries a unique index. -/
structure Certificate where
  UserID : Nat
  CourseID : Nat
  CertificateNumber : String
  IssuedAt : Nat := 0
  Score : Int := 0
  deriving DecidableEq, Repr

/-- A value held in a decoded `map[string]interface{}`; its dynamic type decides
the outcome of a type assertion.  The contents of arrays and objects are not read. -/
inductive JsonValue where
  /-- The nil interface: JSON `null`. -/
  | null
  /-- A Go `bool`. -/
  | bool (b : Bool)
  /-- A Go `float64`: every JSON number. -/
  | number (x : Binary64)
  /-- A Go `string`. -/
  | string (text : String)
  /-- A Go `[]interface{}`. -/
  | array
  /-- A Go `map[string]interface{}`. -/
  | object
  deriving DecidableEq, Repr

/-- The variable `criteria` after `json.Unmarshal([]byte(badge.Criteria), &criteria)`:
`none` is the nil map (the text is not a JSON object), `some fields` the decoded
object with one entry per key. -/
abbrev Criteria := Option (List (String × JsonValue))

/-- Record `models.Badge`; `Criteria` holds the decoded JSON text. -/
structure Badge where
  ID : Nat
  Name : String := ""
  Level : String := "bronze"
  Criteria : Criteria := none
  deriving DecidableEq, Repr

/-- Record `models.BadgeProgress`. -/
structure BadgeProgress where
  ID : Nat := 0
  UserID : Nat
  BadgeID : Nat
  Progress : Int := 0
  IsEarned : Bool := false
  EarnedAt : Option Nat := none
  deriving DecidableEq, Repr

/-- The database: one list of rows per table, and the last primary key handed
out by the auto-increment sequence of the tables whose keys are read back. -/
structure Store where
  users : List User := []
  courses : List Course := []
  quizzes : List Quiz := []
  enrollments : List Enrollment := []
  quizAttempts : List QuizAttempt := []
  coinTransactions : List CoinTransaction := []
  enrollmentSeq : Nat := 0
  quizAttemptSeq : Nat := 0
  userProgresses : List UserProgress := []
  certificates : List Certificate := []
  userProgressSeq : Nat := 0
  badges : List Badge := []
  badgeProgresses : List BadgeProgress := []
  badgeProgressSeq : Nat := 0
  deriving DecidableEq, Repr

/-- The request field `SubmitQuizRequest.Answers`, a Go `map[uint]string`:
question id to submitted answer, `none` where the map has no entry. -/
abbrev Answers := Nat → Option String

/-! ## Repositories (`internal/repository`) -/
/-- Method `QuizRepository.GetByID`. -/
def QuizRepository.GetByID (s : Store) (id : Nat) : Except Error Quiz :=
  match s.quizzes.find? (fun q => q.ID == id) with
  | some quiz => .ok quiz
  | none => .error .recordNotFound

/-- Method `QuizAttemptRepository.Create`: the row gets the next primary key
and `started_at` is stamped (`autoCreateTime`). -/
def QuizAttemptRepository.Create (s : Store) (now : Nat) (attempt : QuizAttempt) :
    QuizAttempt × Store :=
  let row := { attempt with ID := s.quizAttemptSeq + 1, StartedAt := now }
  (row, { s with quizAttempts := s.quizAttempts ++ [row], quizAttemptSeq := s.quizAttemptSeq + 1 })

/-- Method `QuizAttemptRepository.GetByID`. -/
def QuizAttemptRepository.GetByID (s : Store) (id : Nat) : Except Error QuizAttempt :=
  match s.quizAttempts.find? (fun a => a.ID == id) with
  | some attempt => .ok attempt
  | none => .error .recordNotFound

/-- Method `QuizAttemptRepository.Update` (`db.Save`) for a row that was read
from the table: every column of the row with that primary key is overwritten. -/
def QuizAttemptRepository.Update (s : Store) (attempt : QuizAttempt) : Store :=
  { s with quizAttempts := s.quizAttempts.map (fun a => if a.ID == attempt.ID then attempt else a) }

/-- Method `QuizAttemptRepository.GetQuizAttemptCount`. -/
def QuizAttemptRepository.GetQuizAttemptCount (s : Store) (userID quizID : Nat) : Int :=
  (s.quizAttempts.countP (fun a => a.UserID == userID && a.QuizID == quizID) : Nat)

/-- Method `UserRepository.UpdateCoins`: `gmfc_coins = gmfc_coins + amount` on the
rows with that id. -/
def UserRepository.UpdateCoins (s : Store) (userID : Nat) (amount : Int) : Store :=
  let credit := fun (u : User) =>
    if u.ID == userID then { u with GMFCCoins := u.GMFCCoins + amount } else u
  { s with users := s.users.map credit }

/-- Method `CoinTransactionRepository.Create`. -/
def CoinTransactionRepository.Create (s : Store) (t : CoinTransaction) : Store :=
  { s with coinTransactions := s.coinTransactions ++ [t] }

/-- Method `EnrollmentRepository.IsEnrolled`. -/
def EnrollmentRepository.IsEnrolled (s : Store) (userID courseID : Nat) : Bool :=
  decide (s.enrollments.countP (fun e => e.UserID == userID && e.CourseID == courseID) > 0)

/-- Method `EnrollmentRepository.Create`: the row gets the next primary key and
`enrolled_at` is stamped (`autoCreateTime`). -/
def EnrollmentRepository.Create (s : Store) (now : Nat) (enrollment : Enrollment) :
    Enrollment × Store :=
  let row := { enrollment with ID := s.enrollmentSeq + 1, EnrolledAt := now }
  (row, { s with enrollments := s.enrollments ++ [row], enrollmentSeq := s.enrollmentSeq + 1 })

/-- Method `CourseRepository.GetByID`. -/
def CourseRepository.GetByID (s : Store) (id : Nat) : Except Error Course :=
  match s.courses.find? (fun c => c.ID == id) with
  | some course => .ok course
  | none => .error .recordNotFound

/-- Method `CourseRepository.UpdateEnrollmentCount`:
`enrollment_count = enrollment_count + increment` on the rows with that id. -/
def CourseRepository.UpdateEnrollmentCount (s : Store) (courseID : Nat) (increment : Int) : Store :=
  let bump := fun (c : Course) =>
    if c.ID == courseID then { c with EnrollmentCount := c.EnrollmentCount + increment } else c
  { s with courses := s.courses.map bump }

/-! ## Gamification (`internal/service/progress_gamification_service.go`) -/
/-- Method `GamificationService.AwardCoins`. -/
def GamificationService.AwardCoins (s : Store) (userID : Nat) (amount : Int)
    (reason referenceType : String) (referenceID : Option Nat) : Except Error Unit × Store :=
  if amount ≤ 0 then (.error .invalidAmount, s)
  else
    let s1 := UserRepository.UpdateCoins s userID amount
    let s2 := CoinTransactionRepository.Create s1
      { UserID := userID, Amount := amount, TransactionType := "earned", Reason := reason,
        ReferenceType := referenceType, ReferenceID := referenceID }
    (.ok (), s2)

/-! ## Quiz service (`internal/service/quiz_dashboard_service.go`) -/
/-- The loop of `isCorrectAnswer` over the options of a question;
`fmt.Sprintf("%d", option.ID)` is the decimal numeral `Nat.repr option.ID`. -/
def isCorrectAnswerLoop : List QuestionOption → String → Bool
  | [], _ => false
  | option :: rest, answer =>
    if Nat.repr option.ID == answer && option.IsCorrect then true
    else isCorrectAnswerLoop rest answer

/-- Function `isCorrectAnswer`. -/
def isCorrectAnswer (question : Question) (answer : String) : Bool :=
  isCorrectAnswerLoop question.Options answer

/-- The scoring loop of `QuizService.SubmitAttempt`, started with `score`. -/
def scoreLoop (answers : Answers) : List Question → Int → Int
  | [], score => score
  | question :: rest, score =>
    match answers question.ID with
    | some userAnswer =>
      if isCorrectAnswer question userAnswer then scoreLoop answers rest (score + 1)
      else scoreLoop answers rest score
    | none => scoreLoop answers rest score

/-- Method `QuizService.StartAttempt`. -/
def QuizService.StartAttempt (s : Store) (now : Nat) (userID quizID : Nat) :
    Except Error QuizAttempt × Store :=
  match QuizRepository.GetByID s quizID with
  | .error err => (.error err, s)
  | .ok quiz =>
    let attemptCount := QuizAttemptRepository.GetQuizAttemptCount s userID quizID
    if attemptCount ≥ quiz.Attempts then (.error .attemptLimit, s)
    else
      let created := QuizAttemptRepository.Create s now
        { QuizID := quizID, UserID := userID, AttemptNumber := attemptCount + 1 }
      (.ok created.1, created.2)

/-- Method `QuizService.SubmitAttempt`. -/
def QuizService.SubmitAttempt (s : Store) (now : Nat) (userID quizID quizAttemptID : Nat)
    (answers : Answers) (timeSpent : Int) : Except Error QuizAttempt × Store :=
  match QuizAttemptRepository.GetByID s quizAttemptID with
  | .error err => (.error err, s)
  | .ok attempt =>
    match QuizRepository.GetByID s quizID with
    | .error err => (.error err, s)
    | .ok quiz =>
      let score := scoreLoop answers quiz.Questions 0
      let maxScore : Int := (quiz.Questions.length : Nat)
      let percentage : Int := if maxScore > 0 then (score * 100).tdiv maxScore else 0
      let isPassed : Bool := decide (percentage ≥ quiz.PassingScore)
      let attempt := { attempt with
        SubmittedAt := some now, Score := score, MaxScore := maxScore,
        Percentage := percentage, IsPassed := isPassed, TimeSpentSeconds := timeSpent }
      let s1 := QuizAttemptRepository.Update s attempt
      if isPassed then
        let coinReward := wrapInt64 (quiz.PassingScore * 2)
        let awarded := GamificationService.AwardCoins s1 userID coinReward
          ("Quiz Passed: " ++ quiz.Title) "quiz" (some quiz.ID)
        (.ok attempt, awarded.2)
      else (.ok attempt, s1)

/-! ## Enrollment service (`internal/service/enrollment_service.go`) -/
/-- Method `EnrollmentService.EnrollUser`. -/
def EnrollmentService.EnrollUser (s : Store) (now : Nat) (userID courseID : Nat) :
    Except Error Enrollment × Store :=
  if EnrollmentRepository.IsEnrolled s userID courseID then (.error .alreadyEnrolled, s)
  else
    match CourseRepository.GetByID s courseID with
    | .error _ => (.error .courseNotFound, s)
    | .ok course =>
      if course.MaxEnrollments > 0 ∧ course.EnrollmentCount ≥ course.MaxEnrollments then
        (.error .courseFull, s)
      else
        let created := EnrollmentRepository.Create s now
          { UserID := userID, CourseID := courseID, CompletionStatus := "not_started",
            OverallProgress := 0 }
        let s2 := CourseRepository.UpdateEnrollmentCount created.2 courseID 1
        (.ok created.1, s2)

/-! ## Grading in the words of the specification -/
/-- The grading rule in the words of the specification: the answers map has an
entry for the question, and its value is the decimal id of an option of the
question that is flagged correct. -/
def answeredCorrectly (answers : Answers) (q : Question) : Bool :=
  match answers q.ID with
  | none => false
  | some v => q.Options.any (fun o => o.IsCorrect && v == Nat.repr o.ID)

/-- The attempt record that `QuizService.SubmitAttempt` writes for `quiz`. -/
def gradedAttempt (attempt : QuizAttempt) (quiz : Quiz) (now : Nat) (answers : Answers)
    (timeSpent : Int) : QuizAttempt :=
  let score := scoreLoop answers quiz.Questions 0
  let maxScore : Int := (quiz.Questions.length : Nat)
  let percentage : Int := if maxScore > 0 then (score * 100).tdiv maxScore else 0
  { attempt with
    SubmittedAt := some now, Score := score, MaxScore := maxScore, Percentage := percentage,
    IsPassed := decide (percentage ≥ quiz.PassingScore), TimeSpentSeconds := timeSpent }

/-! ## Worked example: a ten-question quiz -/
/-- Question `i` of the example quiz: option `10*i+1` is right, option `10*i+2` is wrong. -/
def demoQuestion (i : Nat) : Question :=
  { ID := i, Options := [{ ID := 10 * i + 1, IsCorrect := true }, { ID := 10 * i + 2 }] }

/-- A quiz with ten questions, passing score 70 and three allowed attempts. -/
def demoQuiz : Quiz :=
  { ID := 1, Title := "Safety basics", PassingScore := 70, Attempts := 3,
    Questions := (List.range 10).map (fun i => demoQuestion (i + 1)) }

/-- Answers that name the right option for questions 1 to 8 and the wrong one for 9 and 10. -/
def demoAnswers : Answers := fun qid =>
  if qid = 0 ∨ 10 < qid then none
  else if qid ≤ 8 then some (Nat.repr (10 * qid + 1))
  else some (Nat.repr (10 * qid + 2))

/-- An attempt of user 7 on the example quiz that has not been submitted. -/
def demoAttempt : QuizAttempt :=
  { ID := 1, QuizID := 1, UserID := 7, AttemptNumber := 1, StartedAt := 100 }

/-- The example attempt once graded at time 200 with `demoAnswers`. -/
def demoGraded : QuizAttempt :=
  { ID := 1, QuizID := 1, UserID := 7, AttemptNumber := 1, StartedAt := 100,
    SubmittedAt := some 200, Score := 8, MaxScore := 10, Percentage := 80, IsPassed := true,
    TimeSpentSeconds := 30 }

/-- A store holding the example quiz, user 7 with 50 coins and the open attempt. -/
def demoStore : Store :=
  { users := [{ ID := 7, GMFCCoins := 50 }], quizzes := [demoQuiz],
    quizAttempts := [demoAttempt], quizAttemptSeq := 1 }

/-! ## Sequences of `QuizService.StartAttempt` calls -/
/-- One `StartAttempt` request: the time of the call, the user and the quiz. -/
structure StartCall where
  now : Nat
  userID : Nat
  quizID : Nat
  deriving DecidableEq, Repr

/-- Runs `QuizService.StartAttempt` for each request in turn, each call on the
store left by the previous one; returns the results in order and the final store. -/
def runStartAttempts : Store → List StartCall → List (Except Error QuizAttempt) × Store
  | s, [] => ([], s)
  | s, c :: rest =>
    let r := QuizService.StartAttempt s c.now c.userID c.quizID
    let rs := runStartAttempts r.2 rest
    (r.1 :: rs.1, rs.2)

/-- The attempt numbers stored for a (user, quiz) pair, in insertion order. -/
def attemptNumbers (s : Store) (userID quizID : Nat) : List Int :=
  (s.quizAttempts.filter (fun a => a.UserID == userID && a.QuizID == quizID)).map
    (fun a => a.AttemptNumber)

/-- The number of requests of the pair (user, quiz) that succeeded. -/
def successfulStarts (calls : List StartCall) (results : List (Except Error QuizAttempt))
    (userID quizID : Nat) : Nat :=
  (calls.zip results).countP
    (fun cr => cr.1.userID == userID && cr.1.quizID == quizID && cr.2.isOk)

/-- The row inserted by a successful `StartAttempt`. -/
def startedAttempt (s : Store) (now userID quizID : Nat) : QuizAttempt :=
  { ID := s.quizAttemptSeq + 1, QuizID := quizID, UserID := userID,
    AttemptNumber := QuizAttemptRepository.GetQuizAttemptCount s userID quizID + 1,
    StartedAt := now }

/-- The store left by a successful `StartAttempt`. -/
def startedStore (s : Store) (now userID quizID : Nat) : Store :=
  { s with
    quizAttempts := s.quizAttempts ++ [startedAttempt s now userID quizID],
    quizAttemptSeq := s.quizAttemptSeq + 1 }

/-- A quiz whose allowed-attempts column holds 0. -/
def zeroAttemptsQuiz : Quiz := { ID := 2, Title := "Open practice", Attempts := 0 }

/-- A store holding only `zeroAttemptsQuiz`, with no attempt by anybody. -/
def zeroAttemptsStore : Store := { quizzes := [zeroAttemptsQuiz] }

/-- The numbers `1, 2, ..., n`. -/
def oneTo (n : Nat) : List Int := List.map (fun i : Nat => (i : Int) + 1) (List.range n)

/-- The coin rows of a store after `amount` was credited to `userID`. -/
def creditedUsers (s : Store) (userID : Nat) (amount : Int) : List User :=
  (UserRepository.UpdateCoins s userID amount).users

/-! ## Sequences of `EnrollmentService.EnrollUser` calls -/
/-- One `EnrollUser` request: the time of the call, the user and the course. -/
structure EnrollCall where
  now : Nat
  userID : Nat
  courseID : Nat
  deriving DecidableEq, Repr

/-- Runs `EnrollmentService.EnrollUser` for each request in turn, each call on
the store left by the previous one; returns the results in order and the final store. -/
def runEnrollUsers : Store → List EnrollCall → List (Except Error Enrollment) × Store
  | s, [] => ([], s)
  | s, c :: rest =>
    let r := EnrollmentService.EnrollUser s c.now c.userID c.courseID
    let rs := runEnrollUsers r.2 rest
    (r.1 :: rs.1, rs.2)

/-- The number of enrollment rows of a (user, course) pair. -/
def enrollmentsOf (s : Store) (userID courseID : Nat) : Nat :=
  s.enrollments.countP (fun e => e.UserID == userID && e.CourseID == courseID)

/-- The row inserted by a successful `EnrollUser`. -/
def enrolledRow (s : Store) (now userID courseID : Nat) : Enrollment :=
  { ID := s.enrollmentSeq + 1, UserID := userID, CourseID := courseID, EnrolledAt := now,
    CompletionStatus := "not_started", OverallProgress := 0 }

/-- The course row after its enrollment counter was incremented by one. -/
def countedCourse (courseID : Nat) (c : Course) : Course :=
  if c.ID == courseID then { c with EnrollmentCount := c.EnrollmentCount + 1 } else c

/-- The store left by a successful `EnrollUser`. -/
def enrolledStore (s : Store) (now userID courseID : Nat) : Store :=
  { s with
    enrollments := s.enrollments ++ [enrolledRow s now userID courseID],
    enrollmentSeq := s.enrollmentSeq + 1,
    courses := s.courses.map (countedCourse courseID) }

/-- The capacity test of `EnrollUser`. -/
def courseIsFull (course : Course) : Prop :=
  course.MaxEnrollments > 0 ∧ course.EnrollmentCount ≥ course.MaxEnrollments

/-! ## The UUID-keyed tree (`services/course_service.go`) -/

namespace UuidTree
/-- Record `models.Enrollment` of the UUID-keyed tree (`models/models.go`). -/
structure Enrollment where
  ID : String
  UserID : String
  CourseID : String
  Status : String := "enrolled"
  Progress : Int := 0
  EnrolledAt : Nat := 0
  deriving DecidableEq, Repr

/-- Method `EnrollmentRepository.GetUserCourseEnrollment` (`repositories`), with
`none` for the error `record not found`. -/
def EnrollmentRepository.GetUserCourseEnrollment (rows : List Enrollment)
    (userID courseID : String) : Option Enrollment :=
  rows.find? (fun e => e.UserID == userID && e.CourseID == courseID)

/-- Method `EnrollmentService.EnrollUser` of the UUID-keyed tree; `uuid` is the
value drawn by `uuid.New()` in the `BeforeCreate` hook. -/
def EnrollmentService.EnrollUser (rows : List Enrollment) (now : Nat) (uuid : String)
    (userID courseID : String) : Except Error Enrollment × List Enrollment :=
  match EnrollmentRepository.GetUserCourseEnrollment rows userID courseID with
  | some _ => (.error .alreadyEnrolled, rows)
  | none =>
    let enrollment : Enrollment :=
      { ID := uuid, UserID := userID, CourseID := courseID, Status := "enrolled", Progress := 0,
        EnrolledAt := now }
    (.ok enrollment, rows ++ [enrollment])

/-- One `EnrollUser` request of the UUID-keyed tree. -/
structure EnrollCall where
  now : Nat
  uuid : String
  userID : String
  courseID : String
  deriving DecidableEq, Repr

/-- Runs `EnrollUser` for each request in turn and returns the final table. -/
def runEnrollUsers : List Enrollment → List EnrollCall → List Enrollment
  | rows, [] => rows
  | rows, c :: rest =>
    runEnrollUsers (EnrollmentService.EnrollUser rows c.now c.uuid c.userID c.courseID).2 rest

/-- The number of enrollment rows of a (user, course) pair. -/
def enrollmentsOf (rows : List Enrollment) (userID courseID : String) : Nat :=
  rows.countP (fun e => e.UserID == userID && e.CourseID == courseID)

end UuidTree

/-! ## Worked example: two courses -/

/-- A course with room for a single learner and nobody enrolled yet. -/
def demoCourse : Course := { ID := 5, Title := "Fire safety", MaxEnrollments := 1 }

/-- A store with `demoCourse` and a course without enrollment limit, and no enrollment. -/
def courseStore : Store := { courses := [demoCourse, { ID := 6, Title := "First aid" }] }

/-! ## Enrollment life cycle (`enrollment_repository.go`, `enrollment_service.go`) -/

/-- Method `UserRepository.GetByID`. -/
def UserRepository.GetByID (s : Store) (id : Nat) : Except Error User :=
  match s.users.find? (fun u => u.ID == id) with
  | some user => .ok user
  | none => .error .recordNotFound

/-- Method `EnrollmentRepository.GetByUserAndCourse`. -/
def EnrollmentRepository.GetByUserAndCourse (s : Store) (userID courseID : Nat) :
    Except Error Enrollment :=
  match s.enrollments.find? (fun e => e.UserID == userID && e.CourseID == courseID) with
  | some enrollment => .ok enrollment
  | none => .error .recordNotFound

/-- Method `EnrollmentRepository.MarkAsStarted`: an `UPDATE` of the rows of the pair. -/
def EnrollmentRepository.MarkAsStarted (s : Store) (now userID courseID : Nat) : Store :=
  let started := fun (e : Enrollment) =>
    if e.UserID == userID && e.CourseID == courseID then
      { e with CompletionStatus := "in_progress", LastAccessedAt := some now }
    else e
  { s with enrollments := s.enrollments.map started }

/-- Method `EnrollmentRepository.MarkAsCompleted`: an `UPDATE` of the rows of the pair. -/
def EnrollmentRepository.MarkAsCompleted (s : Store) (now userID courseID : Nat)
    (finalScore : Int) : Store :=
  let completed := fun (e : Enrollment) =>
    if e.UserID == userID && e.CourseID == courseID then
      { e with CompletionStatus := "completed", CompletedAt := some now, FinalScore := finalScore,
               IsPassed := decide (finalScore ≥ 70), OverallProgress := 100 }
    else e
  { s with enrollments := s.enrollments.map completed }

/-- Method `EnrollmentRepository.UpdateProgress`: an `UPDATE` of one column of the
rows of the pair. -/
def EnrollmentRepository.UpdateProgress (s : Store) (userID courseID : Nat) (progress : Int) :
    Store :=
  let updated := fun (e : Enrollment) =>
    if e.UserID == userID && e.CourseID == courseID then { e with OverallProgress := progress }
    else e
  { s with enrollments := s.enrollments.map updated }

/-- Method `CourseRepository.UpdateCompletionCount`:
`completion_count = completion_count + increment` on the rows with that id. -/
def CourseRepository.UpdateCompletionCount (s : Store) (courseID : Nat) (increment : Int) : Store :=
  let bump := fun (c : Course) =>
    if c.ID == courseID then { c with CompletionCount := c.CompletionCount + increment } else c
  { s with courses := s.courses.map bump }

/-- Method `CertificateRepository.Create`: the insert is refused when the
certificate number is already in the table (unique index); `issued_at` is
stamped (`autoCreateTime`). -/
def CertificateRepository.Create (s : Store) (now : Nat) (certificate : Certificate) :
    Except Error Certificate × Store :=
  if s.certificates.any (fun c => c.CertificateNumber == certificate.CertificateNumber) then
    (.error .duplicateKey, s)
  else
    let row := { certificate with IssuedAt := now }
    (.ok row, { s with certificates := s.certificates ++ [row] })

/-- The certificate number built in `CompleteCourse`:
`fmt.Sprintf("CERT-%d-%d-%d", userID, courseID, time.Now().Unix())`. -/
def certificateNumber (userID courseID now : Nat) : String :=
  "CERT-" ++ Nat.repr userID ++ "-" ++ Nat.repr courseID ++ "-" ++ Nat.repr now

/-- Method `EnrollmentService.StartCourse`. -/
def EnrollmentService.StartCourse (s : Store) (now userID courseID : Nat) :
    Except Error Unit × Store :=
  (.ok (), EnrollmentRepository.MarkAsStarted s now userID courseID)

/-- The coin, ledger and certificate writes of `CompleteCourse` for a passing score;
the results of the three repository calls are discarded as in the source. -/
def awardCompletion (s : Store) (now userID courseID : Nat) (finalScore : Int)
    (course : Course) : Store :=
  let coinAmount := course.CoinsReward
  let s1 := UserRepository.UpdateCoins s userID coinAmount
  let s2 := CoinTransactionRepository.Create s1
    { UserID := userID, Amount := coinAmount, TransactionType := "earned",
      Reason := "Course Completion: " ++ course.Title, ReferenceID := some course.ID,
      ReferenceType := "course" }
  (CertificateRepository.Create s2 now
    { UserID := userID, CourseID := courseID,
      CertificateNumber := certificateNumber userID courseID now, Score := finalScore }).2

/-- Method `EnrollmentService.CompleteCourse`. -/
def EnrollmentService.CompleteCourse (s : Store) (now userID courseID : Nat) (finalScore : Int) :
    Except Error Enrollment × Store :=
  let s1 := EnrollmentRepository.MarkAsCompleted s now userID courseID finalScore
  match EnrollmentRepository.GetByUserAndCourse s1 userID courseID with
  | .error err => (.error err, s1)
  | .ok enrollment =>
    match CourseRepository.GetByID s1 courseID with
    | .error err => (.error err, s1)
    | .ok course =>
      let s2 := if finalScore ≥ course.PassingScore
        then awardCompletion s1 now userID courseID finalScore course else s1
      (.ok enrollment, CourseRepository.UpdateCompletionCount s2 courseID 1)

/-- Method `EnrollmentService.UpdateProgress`. -/
def EnrollmentService.UpdateProgress (s : Store) (userID courseID : Nat) (progress : Int) :
    Except Error Unit × Store :=
  if progress < 0 ∨ progress > 100 then (.error .invalidRange, s)
  else (.ok (), EnrollmentRepository.UpdateProgress s userID courseID progress)

/-! ## Lesson progress (`utils/response.go`, `progress_gamification_service.go`) -/

/-- Function `utils.CalculateProgressPercentage`:
`int((float64(watched) / float64(total)) * 100)`, and 0 for `total == 0`. -/
def CalculateProgressPercentage (watched total : Int) : Int :=
  if total = 0 then 0
  else
    (Binary64.mul (Binary64.div (Binary64.ofInt watched) (Binary64.ofInt total))
      (Binary64.ofInt 100)).toInt

/-- Method `UserProgressRepository.GetByUserLessonCourse`. -/
def UserProgressRepository.GetByUserLessonCourse (s : Store) (userID lessonID courseID : Nat) :
    Except Error UserProgress :=
  match s.userProgresses.find?
      (fun p => p.UserID == userID && p.LessonID == lessonID && p.CourseID == courseID) with
  | some progress => .ok progress
  | none => .error .recordNotFound

/-- Method `UserProgressRepository.Create`: the row gets the next primary key. -/
def UserProgressRepository.Create (s : Store) (progress : UserProgress) : UserProgress × Store :=
  let row := { progress with ID := s.userProgressSeq + 1 }
  (row, { s with userProgresses := s.userProgresses ++ [row],
                 userProgressSeq := s.userProgressSeq + 1 })

/-- Method `UserProgressRepository.Update` (`db.Save`) for a row of the table:
every column of the row with that primary key is overwritten. -/
def UserProgressRepository.Update (s : Store) (progress : UserProgress) : Store :=
  { s with userProgresses :=
             s.userProgresses.map (fun p => if p.ID == progress.ID then progress else p) }

/-- Method `UserProgressRepository.GetUserCourseProgress`: the rows of the user
in the course, ordered by lesson id. -/
def UserProgressRepository.GetUserCourseProgress (s : Store) (userID courseID : Nat) :
    List UserProgress :=
  (s.userProgresses.filter (fun p => p.UserID == userID && p.CourseID == courseID)).mergeSort
    (fun a b => decide (a.LessonID ≤ b.LessonID))

/-- Method `ProgressService.TrackProgress`. -/
def ProgressService.TrackProgress (s : Store) (now userID courseID lessonID : Nat)
    (watchedSeconds totalSeconds : Int) : Except Error UserProgress × Store :=
  let got : UserProgress × Store :=
    match UserProgressRepository.GetByUserLessonCourse s userID lessonID courseID with
    | .ok progress => (progress, s)
    | .error _ =>
      UserProgressRepository.Create s
        { UserID := userID, CourseID := courseID, LessonID := lessonID,
          TotalDuration := totalSeconds }
  let progress : UserProgress := { got.1 with
    WatchedDuration := watchedSeconds, TotalDuration := totalSeconds,
    ProgressPercentage := CalculateProgressPercentage watchedSeconds totalSeconds,
    LastAccessedAt := some now }
  let progress : UserProgress :=
    if progress.ProgressPercentage ≥ 90 then
      { progress with IsCompleted := true, CompletedAt := some now }
    else progress
  (.ok progress, UserProgressRepository.Update got.2 progress)

/-- The summing loop of `CalculateCourseProgress`, started with `totalProgress`;
the sum of the stored percentages is a Go `int` and wraps around. -/
def totalProgressLoop : List UserProgress → Int → Int
  | [], totalProgress => totalProgress
  | p :: rest, totalProgress =>
    totalProgressLoop rest (wrapInt64 (totalProgress + p.ProgressPercentage))

/-- Method `ProgressService.CalculateCourseProgress`. -/
def ProgressService.CalculateCourseProgress (s : Store) (userID courseID : Nat) : Int :=
  let progresses := UserProgressRepository.GetUserCourseProgress s userID courseID
  if progresses.length = 0 then 0
  else (totalProgressLoop progresses 0).tdiv (progresses.length : Nat)

/-! ## Worked example: completing courses -/

/-- A course that is passed from 80 points and pays 150 coins. -/
def strictCourse : Course :=
  { ID := 9, Title := "Ladder safety", PassingScore := 80, CoinsReward := 150 }

/-- A course that is passed from 60 points and pays 40 coins. -/
def lenientCourse : Course :=
  { ID := 10, Title := "Desk ergonomics", PassingScore := 60, CoinsReward := 40 }

/-- A course with the default passing score 70 that pays 150 coins. -/
def rewardCourse : Course :=
  { ID := 11, Title := "Fire drill", PassingScore := 70, CoinsReward := 150 }

/-- A store in which user 7, holding 50 coins, is enrolled in the three example
courses and has completed none of them. -/
def completionStore : Store :=
  { users := [{ ID := 7, GMFCCoins := 50 }],
    courses := [strictCourse, lenientCourse, rewardCourse],
    enrollments := [{ ID := 1, UserID := 7, CourseID := 9 }, { ID := 2, UserID := 7, CourseID := 10 },
                    { ID := 3, UserID := 7, CourseID := 11 }],
    enrollmentSeq := 3 }

/-- The enrollment row written by `MarkAsCompleted`. -/
def completedEnrollment (e : Enrollment) (now : Nat) (finalScore : Int) : Enrollment :=
  { e with CompletionStatus := "completed", CompletedAt := some now, FinalScore := finalScore,
           IsPassed := decide (finalScore ≥ 70), OverallProgress := 100 }

/-- The number of certificates of a (user, course) pair. -/
def certificatesOf (s : Store) (userID courseID : Nat) : Nat :=
  s.certificates.countP (fun c => c.UserID == userID && c.CourseID == courseID)

/-- The ledger row written by `CompleteCourse` for a passing score. -/
def completionTransaction (userID : Nat) (course : Course) : CoinTransaction :=
  { UserID := userID, Amount := course.CoinsReward, TransactionType := "earned",
    Reason := "Course Completion: " ++ course.Title, ReferenceID := some course.ID,
    ReferenceType := "course" }

/-- The certificate written by `CompleteCourse` for a passing score. -/
def completionCertificate (now userID courseID : Nat) (finalScore : Int) : Certificate :=
  { UserID := userID, CourseID := courseID,
    CertificateNumber := certificateNumber userID courseID now, IssuedAt := now,
    Score := finalScore }

/-- The certificate number of a call is not yet in the certificate table. -/
def certificateNumberFree (s : Store) (now userID courseID : Nat) : Prop :=
  ∀ c ∈ s.certificates, c.CertificateNumber ≠ certificateNumber userID courseID now

/-! ## Sequences of `EnrollmentService.CompleteCourse` calls -/

/-- One `CompleteCourse` request: the time of the call, the user, the course and
the final score. -/
structure CompleteCall where
  now : Nat
  userID : Nat
  courseID : Nat
  finalScore : Int
  deriving DecidableEq, Repr

/-- Runs `EnrollmentService.CompleteCourse` for each request in turn, each call
on the store left by the previous one, and returns the final store. -/
def runCompleteCourses : Store → List CompleteCall → Store
  | s, [] => s
  | s, c :: rest =>
    runCompleteCourses
      (EnrollmentService.CompleteCourse s c.now c.userID c.courseID c.finalScore).2 rest

/-- The certificate numbers in the store, in insertion order. -/
def certificateNumbers (s : Store) : List String :=
  s.certificates.map (fun c => c.CertificateNumber)

/-! ## Sequences of enrollment operations -/

/-- One call of the enrollment manager. -/
inductive EnrollmentOp where
  /-- A call `EnrollUser(user, course)` at time `now`. -/
  | enroll (now userID courseID : Nat)
  /-- A call `StartCourse(user, course)` at time `now`. -/
  | start (now userID courseID : Nat)
  /-- A call `UpdateProgress(user, course, progress)`. -/
  | progress (userID courseID : Nat) (value : Int)
  /-- A call `CompleteCourse(user, course, finalScore)` at time `now`. -/
  | complete (now userID courseID : Nat) (finalScore : Int)
  deriving DecidableEq, Repr

/-- The store left by one call of the enrollment manager. -/
def applyEnrollmentOp (s : Store) : EnrollmentOp → Store
  | .enroll now userID courseID => (EnrollmentService.EnrollUser s now userID courseID).2
  | .start now userID courseID => (EnrollmentService.StartCourse s now userID courseID).2
  | .progress userID courseID value => (EnrollmentService.UpdateProgress s userID courseID value).2
  | .complete now userID courseID finalScore =>
    (EnrollmentService.CompleteCourse s now userID courseID finalScore).2

/-- Runs the calls in turn, each on the store left by the previous one. -/
def runEnrollmentOps : Store → List EnrollmentOp → Store
  | s, [] => s
  | s, op :: rest => runEnrollmentOps (applyEnrollmentOp s op) rest

/-- The predicate of the specification on one enrollment: progress is 100
exactly for status `completed`, and `completed_at` is set exactly for status
`completed`. -/
def completionConsistent (e : Enrollment) : Prop :=
  (e.OverallProgress = 100 ↔ e.CompletionStatus = "completed")
  ∧ (e.CompletedAt.isSome = true ↔ e.CompletionStatus = "completed")

/-- What the enrollment operations do keep true of every enrollment: progress
within 0..100, one of the three statuses, and `completed_at` set for status
`completed`. -/
def enrollmentWellFormed (e : Enrollment) : Prop :=
  0 ≤ e.OverallProgress ∧ e.OverallProgress ≤ 100
  ∧ (e.CompletionStatus = "not_started" ∨ e.CompletionStatus = "in_progress"
      ∨ e.CompletionStatus = "completed")
  ∧ (e.CompletionStatus = "completed" → e.CompletedAt.isSome = true)

/-- The enrollment row written by `MarkAsStarted`. -/
def startedEnrollment (e : Enrollment) (now : Nat) : Enrollment :=
  { e with CompletionStatus := "in_progress", LastAccessedAt := some now }

/-- The example store after user 7 completed the course with reward 150 with 85
points at second 1000. -/
def completedStore : Store :=
  (EnrollmentService.CompleteCourse completionStore 1000 7 11 85).2

/-! ## Lesson progress: helper definitions -/

/-- The record fetched or created at the start of `TrackProgress`, with the
store after that step. -/
def fetchedProgress (s : Store) (userID courseID lessonID : Nat) (totalSeconds : Int) :
    UserProgress × Store :=
  match UserProgressRepository.GetByUserLessonCourse s userID lessonID courseID with
  | .ok progress => (progress, s)
  | .error _ =>
    UserProgressRepository.Create s
      { UserID := userID, CourseID := courseID, LessonID := lessonID,
        TotalDuration := totalSeconds }

/-- The record as `TrackProgress` fills it in before saving. -/
def trackedProgress (base : UserProgress) (now : Nat) (watchedSeconds totalSeconds : Int) :
    UserProgress :=
  let progress : UserProgress := { base with
    WatchedDuration := watchedSeconds, TotalDuration := totalSeconds,
    ProgressPercentage := CalculateProgressPercentage watchedSeconds totalSeconds,
    LastAccessedAt := some now }
  if progress.ProgressPercentage ≥ 90 then
    { progress with IsCompleted := true, CompletedAt := some now }
  else progress

/-- The progress percentages of the lesson-progress rows of a user in a course. -/
def coursePercentages (s : Store) (userID courseID : Nat) : List Int :=
  (s.userProgresses.filter (fun p => p.UserID == userID && p.CourseID == courseID)).map
    (fun p => p.ProgressPercentage)

/-- A store in which user 7 has watched three lessons of course 5 to 50, 95 and
30 percent; only the second one counts as completed. -/
def progressStore : Store :=
  { userProgresses :=
      [{ ID := 1, UserID := 7, CourseID := 5, LessonID := 3, ProgressPercentage := 50 },
       { ID := 2, UserID := 7, CourseID := 5, LessonID := 1, ProgressPercentage := 95,
         IsCompleted := true, CompletedAt := some 10 },
       { ID := 3, UserID := 7, CourseID := 5, LessonID := 2, ProgressPercentage := 30 },
       { ID := 4, UserID := 8, CourseID := 5, LessonID := 1, ProgressPercentage := 100 }],
    userProgressSeq := 4 }

/-! ## Coins and badges (`progress_gamification_service.go`, `gamification_repository.go`) -/

/-- Method `GamificationService.SpendCoins`. -/
def GamificationService.SpendCoins (s : Store) (userID : Nat) (amount : Int) (reason : String) :
    Except Error Unit × Store :=
  if amount ≤ 0 then (.error .invalidAmount, s)
  else
    match UserRepository.GetByID s userID with
    | .error err => (.error err, s)
    | .ok user =>
      if user.GMFCCoins < amount then (.error .insufficientCoins, s)
      else
        let s1 := UserRepository.UpdateCoins s userID (-amount)
        let s2 := CoinTransactionRepository.Create s1
          { UserID := userID, Amount := -amount, TransactionType := "spent", Reason := reason }
        (.ok (), s2)

/-- The outcome of a Go call that can end in a run-time panic. -/
inductive Outcome (α : Type) where
  /-- The call returns a value. -/
  | returned (value : α)
  /-- The call panics with this message. -/
  | panicked (message : String)
  deriving DecidableEq, Repr

/-- The expression `criteria[key]`: the entry, or the nil interface when the map
is nil or has no such key. -/
def criteriaValue (criteria : Criteria) (key : String) : JsonValue :=
  match criteria with
  | none => .null
  | some fields => (fields.lookup key).getD .null

/-- Function `shouldEarnBadge`.  The assertion `criteria["type"].(string)` is of
the two-value form; the assertions `.(float64)` on `"value"` and `"hours"` are
of the one-value form, which panics on any other dynamic type. -/
def shouldEarnBadge (user : User) (criteria : Criteria) : Outcome Bool :=
  match criteriaValue criteria "type" with
  | .string badgeType =>
    if badgeType = "coins_earned" then
      match criteriaValue criteria "value" with
      | .number value => .returned (decide (user.GMFCCoins ≥ value.toInt))
      | _ => .panicked "interface conversion: interface {} is not float64"
    else if badgeType = "learning_hours" then
      match criteriaValue criteria "hours" with
      | .number value => .returned (Binary64.le value user.TotalLearningHours)
      | _ => .panicked "interface conversion: interface {} is not float64"
    else .returned false
  | _ => .returned false

/-- Method `BadgeProgressRepository.GetUserBadgeProgress`. -/
def BadgeProgressRepository.GetUserBadgeProgress (s : Store) (userID badgeID : Nat) :
    Except Error BadgeProgress :=
  match s.badgeProgresses.find? (fun p => p.UserID == userID && p.BadgeID == badgeID) with
  | some progress => .ok progress
  | none => .error .recordNotFound

/-- Method `BadgeProgressRepository.Create`: the row gets the next primary key. -/
def BadgeProgressRepository.Create (s : Store) (progress : BadgeProgress) : Store :=
  let row := { progress with ID := s.badgeProgressSeq + 1 }
  { s with badgeProgresses := s.badgeProgresses ++ [row],
           badgeProgressSeq := s.badgeProgressSeq + 1 }

/-- Method `BadgeProgressRepository.MarkBadgeEarned`: an `UPDATE` of the rows of
the (user, badge) pair. -/
def BadgeProgressRepository.MarkBadgeEarned (s : Store) (now userID badgeID : Nat) : Store :=
  let earned := fun (p : BadgeProgress) =>
    if p.UserID == userID && p.BadgeID == badgeID then
      { p with IsEarned := true, EarnedAt := some now, Progress := 100 }
    else p
  { s with badgeProgresses := s.badgeProgresses.map earned }

/-- Method `UserRepository.UpdateBadgeLevel`: an `UPDATE` of the rows with that id. -/
def UserRepository.UpdateBadgeLevel (s : Store) (userID : Nat) (level : String) : Store :=
  let levelled := fun (u : User) =>
    if u.ID == userID then { u with CurrentBadgeLevel := level } else u
  { s with users := s.users.map levelled }

/-- The three writes of `CheckAndAwardBadges` for a badge whose criteria are met:
the progress row is created when there is none, the rows of the pair are marked
earned, and the badge level of the user is overwritten. -/
def awardBadge (s : Store) (now userID : Nat) (badge : Badge) : Store :=
  let s1 :=
    match BadgeProgressRepository.GetUserBadgeProgress s userID badge.ID with
    | .ok _ => s
    | .error _ => BadgeProgressRepository.Create s { UserID := userID, BadgeID := badge.ID }
  let s2 := BadgeProgressRepository.MarkBadgeEarned s1 now userID badge.ID
  UserRepository.UpdateBadgeLevel s2 userID badge.Level

/-- The user already has an earned progress row for the badge: the test
`progress != nil && progress.IsEarned`. -/
def badgeAlreadyEarned (s : Store) (userID badgeID : Nat) : Bool :=
  match BadgeProgressRepository.GetUserBadgeProgress s userID badgeID with
  | .ok progress => progress.IsEarned
  | .error _ => false

/-- The loop of `CheckAndAwardBadges` over the badges read by `GetAll`; `user` is
the record read at the start of the call. -/
def checkBadgesLoop (now : Nat) (user : User) (userID : Nat) :
    Store → List Badge → Outcome Unit × Store
  | s, [] => (.returned (), s)
  | s, badge :: rest =>
    if badgeAlreadyEarned s userID badge.ID then checkBadgesLoop now user userID s rest
    else
      match shouldEarnBadge user badge.Criteria with
      | .panicked message => (.panicked message, s)
      | .returned true => checkBadgesLoop now user userID (awardBadge s now userID badge) rest
      | .returned false => checkBadgesLoop now user userID s rest

/-- Method `GamificationService.CheckAndAwardBadges`. -/
def GamificationService.CheckAndAwardBadges (s : Store) (now userID : Nat) :
    Outcome (Except Error Unit) × Store :=
  match UserRepository.GetByID s userID with
  | .error err => (.returned (.error err), s)
  | .ok user =>
    match checkBadgesLoop now user userID s s.badges with
    | (.returned _, s1) => (.returned (.ok ()), s1)
    | (.panicked message, s1) => (.panicked message, s1)

/-! ## Sequences of coin operations -/

/-- One call of the coin ledger. -/
inductive CoinOp where
  /-- A call `AwardCoins(user, amount, reason, referenceType, referenceID)`. -/
  | award (userID : Nat) (amount : Int) (reason referenceType : String)
      (referenceID : Option Nat)
  /-- A call `SpendCoins(user, amount, reason)`. -/
  | spend (userID : Nat) (amount : Int) (reason : String)
  deriving DecidableEq, Repr

/-- The store left by one call of the coin ledger, successful or not. -/
def applyCoinOp (s : Store) : CoinOp → Store
  | .award userID amount reason referenceType referenceID =>
    (GamificationService.AwardCoins s userID amount reason referenceType referenceID).2
  | .spend userID amount reason => (GamificationService.SpendCoins s userID amount reason).2

/-- Runs the calls in turn, each on the store left by the previous one. -/
def runCoinOps : Store → List CoinOp → Store
  | s, [] => s
  | s, op :: rest => runCoinOps (applyCoinOp s op) rest

/-- The sum of the amounts of the ledger rows of a user. -/
def ledgerSum (s : Store) (userID : Nat) : Int :=
  ((s.coinTransactions.filter (fun t => t.UserID == userID)).map (fun t => t.Amount)).sum

/-- Every cached balance equals the ledger sum of its user. -/
def balancesMatchLedger (s : Store) : Prop :=
  ∀ user ∈ s.users, user.GMFCCoins = ledgerSum s user.ID

/-- A store in which user 7 holds the 50 coins of one ledger row and user 8 none. -/
def ledgerStore : Store :=
  { users := [{ ID := 7, GMFCCoins := 50 }, { ID := 8 }],
    coinTransactions := [{ UserID := 7, Amount := 50, TransactionType := "earned",
                           Reason := "Welcome" }] }

/-- The ledger row written by `SpendCoins`. -/
def spendTransaction (userID : Nat) (amount : Int) (reason : String) : CoinTransaction :=
  { UserID := userID, Amount := -amount, TransactionType := "spent", Reason := reason }

/-! ## Badge levels and example badges -/

/-- The decoded criteria `{"type": "coins_earned", "value": n}`. -/
def coinsCriteria (n : Int) : Criteria :=
  some [("type", .string "coins_earned"), ("value", .number (Binary64.ofInt n))]

/-- The decoded criteria `{"type": "learning_streak", "days": n}` of the seeded
streak badge. -/
def streakCriteria (n : Int) : Criteria :=
  some [("type", .string "learning_streak"), ("days", .number (Binary64.ofInt n))]

/-- A store with one gold user holding 100 coins and a streak of 30 days, a
bronze badge for 10 coins and a platinum badge for a streak of 30 days. -/
def badgeStore : Store :=
  { users := [{ ID := 7, GMFCCoins := 100, CurrentBadgeLevel := "gold", CurrentStreak := 30 }],
    badges := [{ ID := 1, Name := "Coin Collector", Level := "bronze",
                 Criteria := coinsCriteria 10 },
               { ID := 2, Name := "Dedication", Level := "platinum",
                 Criteria := streakCriteria 30 }] }

/-! ## Example stores for the coin award of `SubmitAttempt` -/

/-- The ledger row written when a quiz is passed. -/
def quizTransaction (userID : Nat) (quiz : Quiz) : CoinTransaction :=
  { UserID := userID, Amount := wrapInt64 (quiz.PassingScore * 2), TransactionType := "earned",
    Reason := "Quiz Passed: " ++ quiz.Title, ReferenceType := "quiz",
    ReferenceID := some quiz.ID }

/-- The example store with the passing score of the quiz set to 0. -/
def zeroPassStore : Store :=
  { demoStore with quizzes := [{ demoQuiz with PassingScore := 0 }] }

namespace UuidTree

/-- Record `models.User` of the UUID-keyed tree, restricted to the gamification
columns. -/
structure User where
  ID : String
  GMFCCoins : Int := 0
  BadgeLevel : String := "Bronze"
  deriving DecidableEq, Repr

/-- Record `models.CoinHistory`. -/
structure CoinHistory where
  ID : String := ""
  UserID : String
  Amount : Int
  Reason : String
  ReferenceID : String := ""
  CreatedAt : Nat := 0
  deriving DecidableEq, Repr

/-- The tables read and written by `RedeemCoins`. -/
structure CoinStore where
  users : List User := []
  coinHistories : List CoinHistory := []
  deriving DecidableEq, Repr

/-- Method `UserRepository.GetByID` (`repositories/user_repository.go`). -/
def UserRepository.GetByID (s : CoinStore) (id : String) : Except Error User :=
  match s.users.find? (fun u => u.ID == id) with
  | some user => .ok user
  | none => .error .recordNotFound

/-- Method `UserRepository.UpdateCoins`: `gmfc_coins = gmfc_coins + coins` on the
rows with that id; the source notes that `coins` can be negative. -/
def UserRepository.UpdateCoins (s : CoinStore) (userID : String) (coins : Int) : CoinStore :=
  let credit := fun (u : User) =>
    if u.ID == userID then { u with GMFCCoins := u.GMFCCoins + coins } else u
  { s with users := s.users.map credit }

/-- Method `CoinHistoryRepository.Create`; `uuid` is the value drawn by
`uuid.New()` in the `BeforeCreate` hook for a row without id. -/
def CoinHistoryRepository.Create (s : CoinStore) (uuid : String) (history : CoinHistory) :
    CoinStore :=
  let row := if history.ID = "" then { history with ID := uuid } else history
  { s with coinHistories := s.coinHistories ++ [row] }

/-- Method `GamificationService.RedeemCoins`. -/
def GamificationService.RedeemCoins (s : CoinStore) (now : Nat) (uuid : String)
    (userID : String) (coinsToRedeem : Int) (reason : String) : Except Error Unit × CoinStore :=
  match UserRepository.GetByID s userID with
  | .error err => (.error err, s)
  | .ok user =>
    if user.GMFCCoins < coinsToRedeem then (.error .insufficientRedemption, s)
    else
      let s1 := UserRepository.UpdateCoins s userID (-coinsToRedeem)
      let s2 := CoinHistoryRepository.Create s1 uuid
        { UserID := userID, Amount := -coinsToRedeem, Reason := reason, CreatedAt := now }
      (.ok (), s2)

/-- A store of the UUID-keyed tree: user `u-1` holds 50 coins. -/
def redeemStore : CoinStore := { users := [{ ID := "u-1", GMFCCoins := 50 }] }

end UuidTree

/-! ## Failing repository writes

No service of the repository opens a database transaction: every repository
call is one statement, committed on its own.  The definitions below repeat the
services with the repository writes whose error the source either returns or
discards (`_ = repo...`) made to fail on demand. -/

/-- The repository writes that are made to fail in a call: the increment of the
enrollment counter, `UserRepository.UpdateCoins`, `CoinTransactionRepository.Create`,
`CertificateRepository.Create` and the increment of the completion counter. -/
structure Faults where
  enrollmentCount : Bool := false
  updateCoins : Bool := false
  ledgerCreate : Bool := false
  certificateCreate : Bool := false
  completionCount : Bool := false
  deriving DecidableEq, Repr

/-- A repository write that can be made to fail: a failing write returns a
storage error and leaves the tables as they are. -/
def faultyWrite (fails : Bool) (s : Store) (write : Store → Store) : Except Error Unit × Store :=
  if fails then (.error .storageError, s) else (.ok (), write s)

/-- Method `GamificationService.AwardCoins` with failing writes: the error of
either write is returned. -/
def Faulty.GamificationService.AwardCoins (f : Faults) (s : Store) (userID : Nat)
    (amount : Int) (reason referenceType : String) (referenceID : Option Nat) :
    Except Error Unit × Store :=
  if amount ≤ 0 then (.error .invalidAmount, s)
  else
    match faultyWrite f.updateCoins s (fun s0 => UserRepository.UpdateCoins s0 userID amount) with
    | (.error err, s1) => (.error err, s1)
    | (.ok _, s1) =>
      faultyWrite f.ledgerCreate s1 (fun s0 => CoinTransactionRepository.Create s0
        { UserID := userID, Amount := amount, TransactionType := "earned", Reason := reason,
          ReferenceType := referenceType, ReferenceID := referenceID })

/-- Method `GamificationService.SpendCoins` with failing writes: the error of
either write is returned. -/
def Faulty.GamificationService.SpendCoins (f : Faults) (s : Store) (userID : Nat)
    (amount : Int) (reason : String) : Except Error Unit × Store :=
  if amount ≤ 0 then (.error .invalidAmount, s)
  else
    match UserRepository.GetByID s userID with
    | .error err => (.error err, s)
    | .ok user =>
      if user.GMFCCoins < amount then (.error .insufficientCoins, s)
      else
        match faultyWrite f.updateCoins s
            (fun s0 => UserRepository.UpdateCoins s0 userID (-amount)) with
        | (.error err, s1) => (.error err, s1)
        | (.ok _, s1) =>
          faultyWrite f.ledgerCreate s1 (fun s0 => CoinTransactionRepository.Create s0
            { UserID := userID, Amount := -amount, TransactionType := "spent",
              Reason := reason })

/-- Method `EnrollmentService.EnrollUser` with failing writes: the result of the
counter increment is discarded (`_ = s.courseRepo.UpdateEnrollmentCount(...)`). -/
def Faulty.EnrollmentService.EnrollUser (f : Faults) (s : Store) (now : Nat)
    (userID courseID : Nat) : Except Error Enrollment × Store :=
  if EnrollmentRepository.IsEnrolled s userID courseID then (.error .alreadyEnrolled, s)
  else
    match CourseRepository.GetByID s courseID with
    | .error _ => (.error .courseNotFound, s)
    | .ok course =>
      if course.MaxEnrollments > 0 ∧ course.EnrollmentCount ≥ course.MaxEnrollments then
        (.error .courseFull, s)
      else
        let created := EnrollmentRepository.Create s now
          { UserID := userID, CourseID := courseID, CompletionStatus := "not_started",
            OverallProgress := 0 }
        let counted := faultyWrite f.enrollmentCount created.2
          (fun s0 => CourseRepository.UpdateEnrollmentCount s0 courseID 1)
        (.ok created.1, counted.2)

/-- The coin, ledger and certificate writes of `CompleteCourse` with failing
writes; the three results are discarded as in the source. -/
def Faulty.awardCompletion (f : Faults) (s : Store) (now userID courseID : Nat)
    (finalScore : Int) (course : Course) : Store :=
  let coinAmount := course.CoinsReward
  let s1 := (faultyWrite f.updateCoins s
    (fun s0 => UserRepository.UpdateCoins s0 userID coinAmount)).2
  let s2 := (faultyWrite f.ledgerCreate s1 (fun s0 => CoinTransactionRepository.Create s0
    { UserID := userID, Amount := coinAmount, TransactionType := "earned",
      Reason := "Course Completion: " ++ course.Title, ReferenceID := some course.ID,
      ReferenceType := "course" })).2
  if f.certificateCreate then s2
  else
    (CertificateRepository.Create s2 now
      { UserID := userID, CourseID := courseID,
        CertificateNumber := certificateNumber userID courseID now, Score := finalScore }).2

/-- Method `EnrollmentService.CompleteCourse` with failing writes: the result of
the counter increment is discarded. -/
def Faulty.EnrollmentService.CompleteCourse (f : Faults) (s : Store) (now userID courseID : Nat)
    (finalScore : Int) : Except Error Enrollment × Store :=
  let s1 := EnrollmentRepository.MarkAsCompleted s now userID courseID finalScore
  match EnrollmentRepository.GetByUserAndCourse s1 userID courseID with
  | .error err => (.error err, s1)
  | .ok enrollment =>
    match CourseRepository.GetByID s1 courseID with
    | .error err => (.error err, s1)
    | .ok course =>
      let s2 := if finalScore ≥ course.PassingScore
        then Faulty.awardCompletion f s1 now userID courseID finalScore course else s1
      let counted := faultyWrite f.completionCount s2
        (fun s0 => CourseRepository.UpdateCompletionCount s0 courseID 1)
      (.ok enrollment, counted.2)

/-- Method `QuizService.SubmitAttempt` with failing writes: the error returned by
`AwardCoins` is discarded (`_ = s.gamificationSvc.AwardCoins(...)`). -/
def Faulty.QuizService.SubmitAttempt (f : Faults) (s : Store) (now : Nat)
    (userID quizID quizAttemptID : Nat) (answers : Answers) (timeSpent : Int) :
    Except Error QuizAttempt × Store :=
  match QuizAttemptRepository.GetByID s quizAttemptID with
  | .error err => (.error err, s)
  | .ok attempt =>
    match QuizRepository.GetByID s quizID with
    | .error err => (.error err, s)
    | .ok quiz =>
      let score := scoreLoop answers quiz.Questions 0
      let maxScore : Int := (quiz.Questions.length : Nat)
      let percentage : Int := if maxScore > 0 then (score * 100).tdiv maxScore else 0
      let isPassed : Bool := decide (percentage ≥ quiz.PassingScore)
      let attempt := { attempt with
        SubmittedAt := some now, Score := score, MaxScore := maxScore,
        Percentage := percentage, IsPassed := isPassed, TimeSpentSeconds := timeSpent }
      let s1 := QuizAttemptRepository.Update s attempt
      if isPassed then
        let coinReward := wrapInt64 (quiz.PassingScore * 2)
        let awarded := Faulty.GamificationService.AwardCoins f s1 userID coinReward
          ("Quiz Passed: " ++ quiz.Title) "quiz" (some quiz.ID)
        (.ok attempt, awarded.2)
      else (.ok attempt, s1)

/-- A store in which user 7 is enrolled in course 5, which is not in the course
table. -/
def orphanStore : Store :=
  { users := [{ ID := 7, GMFCCoins := 50 }],
    enrollments := [{ ID := 1, UserID := 7, CourseID := 5, CompletionStatus := "in_progress",
                      OverallProgress := 40 }],
    enrollmentSeq := 1 }

/-! ## Sequences of calls with failing writes -/

/-- The store left by one call of the coin ledger in which the writes named by
`f` fail. -/
def applyFaultyCoinOp (s : Store) (f : Faults) : CoinOp → Store
  | .award userID amount reason referenceType referenceID =>
    (Faulty.GamificationService.AwardCoins f s userID amount reason referenceType
      referenceID).2
  | .spend userID amount reason =>
    (Faulty.GamificationService.SpendCoins f s userID amount reason).2

/-- Runs the calls in turn, each with its own failing writes, each on the store
left by the previous one. -/
def runFaultyCoinOps : Store → List (Faults × CoinOp) → Store
  | s, [] => s
  | s, call :: rest => runFaultyCoinOps (applyFaultyCoinOp s call.1 call.2) rest

/-- Runs `EnrollmentService.CompleteCourse` for each request in turn, each with
its own failing writes, each call on the store left by the previous one. -/
def runFaultyCompleteCourses : Store → List (Faults × CompleteCall) → Store
  | s, [] => s
  | s, call :: rest =>
    runFaultyCompleteCourses
      (Faulty.EnrollmentService.CompleteCourse call.1 s call.2.now call.2.userID
        call.2.courseID call.2.finalScore).2 rest

/-- A store in which user 7 has three lesson-progress rows in course 5, with the
percentages -50, 45 and 0. -/
def negativeProgressStore : Store :=
  { userProgresses :=
      [{ ID := 1, UserID := 7, CourseID := 5, LessonID := 1, ProgressPercentage := -50 },
       { ID := 2, UserID := 7, CourseID := 5, LessonID := 2, ProgressPercentage := 45 },
       { ID := 3, UserID := 7, CourseID := 5, LessonID := 3, ProgressPercentage := 0 }],
    userProgressSeq := 3 }

/-- A store in which the balance of user 7 and the only ledger row are both -5. -/
def debtStore : Store :=
  { users := [{ ID := 7, GMFCCoins := -5 }],
    coinTransactions := [{ UserID := 7, Amount := -5, TransactionType := "spent",
                           Reason := "Correction" }] }

/-! # Theorems -/

/-! ## Grading -/

theorem isCorrectAnswerLoop_eq_any (opts : List QuestionOption) (answer : String) :
    isCorrectAnswerLoop opts answer
      = opts.any (fun o => Nat.repr o.ID == answer && o.IsCorrect) := by
  induction opts with
  | nil => rfl
  | cons o rest ih =>
    simp only [isCorrectAnswerLoop, List.any_cons, ih]
    cases h : (Nat.repr o.ID == answer && o.IsCorrect) <;> simp

theorem isCorrectAnswer_iff (q : Question) (answer : String) :
    isCorrectAnswer q answer = true
      ↔ ∃ o ∈ q.Options, o.IsCorrect = true ∧ answer = Nat.repr o.ID := by
  unfold isCorrectAnswer
  rw [isCorrectAnswerLoop_eq_any]
  simp only [List.any_eq_true, Bool.and_eq_true, beq_iff_eq]
  constructor
  · rintro ⟨o, ho, h1, h2⟩
    exact ⟨o, ho, h2, h1.symm⟩
  · rintro ⟨o, ho, h1, h2⟩
    exact ⟨o, ho, h2.symm, h1⟩

theorem answeredCorrectly_iff (answers : Answers) (q : Question) :
    answeredCorrectly answers q = true
      ↔ ∃ v, answers q.ID = some v ∧ ∃ o ∈ q.Options, o.IsCorrect = true ∧ v = Nat.repr o.ID := by
  unfold answeredCorrectly
  cases h : answers q.ID with
  | none => simp
  | some v => simp [List.any_eq_true]

theorem answeredCorrectly_eq (answers : Answers) (q : Question) :
    answeredCorrectly answers q
      = (match answers q.ID with
        | some v => isCorrectAnswer q v
        | none => false) := by
  cases h : answers q.ID with
  | none => simp [answeredCorrectly, h]
  | some v =>
    rw [Bool.eq_iff_iff, answeredCorrectly_iff, h]
    simp only [isCorrectAnswer_iff]
    constructor
    · rintro ⟨w, hw, hrest⟩
      cases hw
      exact hrest
    · intro hrest
      exact ⟨v, rfl, hrest⟩

theorem scoreLoop_eq_countP (answers : Answers) (qs : List Question) (score : Int) :
    scoreLoop answers qs score = score + (qs.countP (answeredCorrectly answers) : Nat) := by
  induction qs generalizing score with
  | nil => simp [scoreLoop]
  | cons q rest ih =>
    have hq := answeredCorrectly_eq answers q
    rw [scoreLoop, List.countP_cons]
    cases h : answers q.ID with
    | none =>
      rw [h] at hq
      simp only [hq, ih]
      simp
    | some v =>
      rw [h] at hq
      simp only at hq
      simp only
      cases hc : isCorrectAnswer q v with
      | true =>
        rw [hc] at hq
        simp only [hq, ih, if_true]
        push_cast
        ring
      | false =>
        rw [hc] at hq
        simp only [hq, ih]
        simp

theorem submitAttempt_result (s : Store) (now userID quizID attemptID : Nat)
    (answers : Answers) (timeSpent : Int) (attempt : QuizAttempt) (quiz : Quiz)
    (ha : QuizAttemptRepository.GetByID s attemptID = .ok attempt)
    (hq : QuizRepository.GetByID s quizID = .ok quiz) :
    (QuizService.SubmitAttempt s now userID quizID attemptID answers timeSpent).1
      = .ok (gradedAttempt attempt quiz now answers timeSpent) := by
  unfold QuizService.SubmitAttempt
  simp only [ha, hq, gradedAttempt]
  split_ifs <;> rfl


/-! ## `QuizService.SubmitAttempt` -/

theorem quizAttempt_find_id (l : List QuizAttempt) (id : Nat) (a : QuizAttempt)
    (h : l.find? (fun x => x.ID == id) = some a) : a.ID = id := by
  have := List.find?_some h
  simpa using this

theorem quizAttempt_find_map (l : List QuizAttempt) (id : Nat) (a b : QuizAttempt)
    (h : l.find? (fun x => x.ID == id) = some a) (hb : b.ID = id) :
    (l.map (fun x => if x.ID == b.ID then b else x)).find? (fun x => x.ID == id) = some b := by
  induction l with
  | nil => simp at h
  | cons x rest ih =>
    by_cases hx : x.ID = id
    · simp [hx, hb]
    · have hne : ¬ x.ID = b.ID := by rw [hb]; exact hx
      rw [List.find?_cons_of_neg _ (by simpa using hx)] at h
      simp only [List.map_cons, beq_iff_eq, hne, if_false]
      rw [List.find?_cons_of_neg _ (by simpa using hx)]
      simpa using ih h

theorem getByID_attempt_id (s : Store) (id : Nat) (a : QuizAttempt)
    (h : QuizAttemptRepository.GetByID s id = .ok a) : a.ID = id := by
  unfold QuizAttemptRepository.GetByID at h
  split at h
  · next att hfind =>
    cases h
    exact quizAttempt_find_id _ _ _ hfind
  · cases h

theorem awardCoins_quizAttempts (s : Store) (userID : Nat) (amount : Int)
    (reason referenceType : String) (referenceID : Option Nat) :
    (GamificationService.AwardCoins s userID amount reason referenceType referenceID).2.quizAttempts
      = s.quizAttempts := by
  unfold GamificationService.AwardCoins
  split_ifs <;> rfl

theorem submitAttempt_stored (s : Store) (now userID quizID attemptID : Nat)
    (answers : Answers) (timeSpent : Int) (attempt : QuizAttempt) (quiz : Quiz)
    (ha : QuizAttemptRepository.GetByID s attemptID = .ok attempt)
    (hq : QuizRepository.GetByID s quizID = .ok quiz) :
    QuizAttemptRepository.GetByID
        (QuizService.SubmitAttempt s now userID quizID attemptID answers timeSpent).2 attemptID
      = .ok (gradedAttempt attempt quiz now answers timeSpent) := by
  have hid := getByID_attempt_id s attemptID attempt ha
  have hfind : s.quizAttempts.find? (fun x => x.ID == attemptID) = some attempt := by
    unfold QuizAttemptRepository.GetByID at ha
    split at ha
    · next att hf => cases ha; exact hf
    · cases ha
  have hrows : (QuizService.SubmitAttempt s now userID quizID attemptID answers timeSpent).2.quizAttempts
      = s.quizAttempts.map (fun x =>
          if x.ID == (gradedAttempt attempt quiz now answers timeSpent).ID
          then gradedAttempt attempt quiz now answers timeSpent else x) := by
    unfold QuizService.SubmitAttempt
    simp only [ha, hq]
    split_ifs <;> simp [awardCoins_quizAttempts, QuizAttemptRepository.Update, gradedAttempt, *]
  unfold QuizAttemptRepository.GetByID
  rw [hrows, quizAttempt_find_map _ attemptID attempt _ hfind (by simpa [gradedAttempt] using hid)]

theorem gradedAttempt_score (attempt : QuizAttempt) (quiz : Quiz) (now : Nat) (answers : Answers)
    (timeSpent : Int) :
    (gradedAttempt attempt quiz now answers timeSpent).Score
      = (quiz.Questions.countP (answeredCorrectly answers) : Nat) := by
  simp [gradedAttempt, scoreLoop_eq_countP]

theorem gradedAttempt_percentage (attempt : QuizAttempt) (quiz : Quiz) (now : Nat)
    (answers : Answers) (timeSpent : Int) :
    (gradedAttempt attempt quiz now answers timeSpent).Percentage
      = if quiz.Questions = [] then 0
        else ((quiz.Questions.countP (answeredCorrectly answers) : Nat) * 100 : Int)
          / (quiz.Questions.length : Nat) := by
  have hs := scoreLoop_eq_countP answers quiz.Questions 0
  simp only [gradedAttempt, hs, zero_add]
  by_cases hnil : quiz.Questions = []
  · simp [hnil]
  · have hpos : 0 < quiz.Questions.length := List.length_pos.mpr hnil
    have hpos2 : ((quiz.Questions.length : Nat) : Int) > 0 := by exact_mod_cast hpos
    rw [if_pos hpos2, if_neg hnil]
    exact Int.tdiv_eq_ediv (by positivity) (by positivity)

/-- C1: whenever the attempt and the quiz are found, `QuizService.SubmitAttempt`
returns (and stores) an attempt whose `max_score` is the number of questions,
whose `score` lies between 0 and `max_score`, whose `percentage` is
`floor(score*100/max_score)` when `max_score > 0` and 0 when the quiz has no
questions, and therefore lies between 0 and 100. -/
theorem submitAttempt_percentage_bound (s : Store) (now userID quizID attemptID : Nat)
    (answers : Answers) (timeSpent : Int) (attempt : QuizAttempt) (quiz : Quiz)
    (ha : QuizAttemptRepository.GetByID s attemptID = .ok attempt)
    (hq : QuizRepository.GetByID s quizID = .ok quiz) :
    ∃ a : QuizAttempt,
      (QuizService.SubmitAttempt s now userID quizID attemptID answers timeSpent).1 = .ok a
      ∧ QuizAttemptRepository.GetByID
          (QuizService.SubmitAttempt s now userID quizID attemptID answers timeSpent).2 attemptID
        = .ok a
      ∧ a.MaxScore = (quiz.Questions.length : Nat)
      ∧ 0 ≤ a.Score ∧ a.Score ≤ a.MaxScore
      ∧ (0 < a.MaxScore → a.Percentage = ⌊((a.Score : ℚ) * 100) / (a.MaxScore : ℚ)⌋)
      ∧ (quiz.Questions = [] → a.Percentage = 0)
      ∧ 0 ≤ a.Percentage ∧ a.Percentage ≤ 100 := by
  refine ⟨gradedAttempt attempt quiz now answers timeSpent,
    submitAttempt_result s now userID quizID attemptID answers timeSpent attempt quiz ha hq,
    submitAttempt_stored s now userID quizID attemptID answers timeSpent attempt quiz ha hq, ?_⟩
  have hscore := gradedAttempt_score attempt quiz now answers timeSpent
  have hpct := gradedAttempt_percentage attempt quiz now answers timeSpent
  have hmax : (gradedAttempt attempt quiz now answers timeSpent).MaxScore
      = (quiz.Questions.length : Nat) := rfl
  have hle : quiz.Questions.countP (answeredCorrectly answers) ≤ quiz.Questions.length :=
    List.countP_le_length _
  have hleZ : ((quiz.Questions.countP (answeredCorrectly answers) : Nat) : Int)
      ≤ (quiz.Questions.length : Nat) := by exact_mod_cast hle
  refine ⟨hmax, ?_, ?_, ?_, ?_, ?_, ?_⟩
  · rw [hscore]; positivity
  · rw [hscore, hmax]; exact hleZ
  · intro hpos
    rw [hmax] at hpos
    have hne : quiz.Questions ≠ [] := by
      intro h
      simp [h] at hpos
    rw [hpct, if_neg hne, hscore, hmax]
    have := Rat.floor_intCast_div_natCast
      ((quiz.Questions.countP (answeredCorrectly answers) : Nat) * 100 : Int) quiz.Questions.length
    rw [← this]
    push_cast
    rfl
  · intro hnil
    rw [hpct, if_pos hnil]
  · rw [hpct]
    split_ifs
    · exact le_refl 0
    · exact Int.ediv_nonneg (by positivity) (by positivity)
  · rw [hpct]
    split_ifs with hnil
    · norm_num
    · have hpos : (0 : Int) < (quiz.Questions.length : Nat) := by
        exact_mod_cast List.length_pos.mpr hnil
      apply Int.ediv_le_of_le_mul hpos
      nlinarith

/-- C1, evaluated on the example store: the two lookups succeed and the graded
attempt scores 8 of 10, that is 80 percent. -/
theorem submitAttempt_percentage_bound_witness :
    QuizAttemptRepository.GetByID demoStore 1 = .ok demoAttempt
    ∧ QuizRepository.GetByID demoStore 1 = .ok demoQuiz
    ∧ ∃ a : QuizAttempt,
        (QuizService.SubmitAttempt demoStore 200 7 1 1 demoAnswers 30).1 = .ok a
        ∧ a.MaxScore = 10 ∧ a.Score = 8 ∧ a.Percentage = 80 ∧ a.Percentage ≤ 100 := by
  refine ⟨rfl, rfl, ?_⟩
  obtain ⟨a, hres, -, -, -, -, -, -, -, h100⟩ :=
    submitAttempt_percentage_bound demoStore 200 7 1 1 demoAnswers 30 demoAttempt demoQuiz rfl rfl
  have hval : (QuizService.SubmitAttempt demoStore 200 7 1 1 demoAnswers 30).1
      = .ok demoGraded := by rfl
  rw [hval] at hres
  cases hres
  exact ⟨_, hval, rfl, rfl, rfl, h100⟩

/-- C2: the attempt returned by `QuizService.SubmitAttempt` has `is_passed = true`
exactly when its percentage is at least the quiz's passing score; with passing
score 70 and ten questions of which exactly eight are answered correctly, the
percentage is 80 and the attempt is passed. -/
theorem submitAttempt_isPassed_iff (s : Store) (now userID quizID attemptID : Nat)
    (answers : Answers) (timeSpent : Int) (attempt : QuizAttempt) (quiz : Quiz)
    (ha : QuizAttemptRepository.GetByID s attemptID = .ok attempt)
    (hq : QuizRepository.GetByID s quizID = .ok quiz) :
    ∃ a : QuizAttempt,
      (QuizService.SubmitAttempt s now userID quizID attemptID answers timeSpent).1 = .ok a
      ∧ (a.IsPassed = true ↔ a.Percentage ≥ quiz.PassingScore)
      ∧ (quiz.PassingScore = 70 → quiz.Questions.length = 10 →
          quiz.Questions.countP (answeredCorrectly answers) = 8 →
          a.Score = 8 ∧ a.Percentage = 80 ∧ a.IsPassed = true) := by
  refine ⟨gradedAttempt attempt quiz now answers timeSpent,
    submitAttempt_result s now userID quizID attemptID answers timeSpent attempt quiz ha hq, ?_, ?_⟩
  · simp [gradedAttempt]
  · intro hp hlen hcount
    have hscore := gradedAttempt_score attempt quiz now answers timeSpent
    have hpct := gradedAttempt_percentage attempt quiz now answers timeSpent
    have hne : quiz.Questions ≠ [] := by
      intro h
      simp [h] at hlen
    rw [if_neg hne, hcount, hlen] at hpct
    rw [hcount] at hscore
    have h80 : (gradedAttempt attempt quiz now answers timeSpent).Percentage = 80 := by
      rw [hpct]; norm_num
    refine ⟨by simpa using hscore, h80, ?_⟩
    have hpass : (gradedAttempt attempt quiz now answers timeSpent).IsPassed
        = decide ((gradedAttempt attempt quiz now answers timeSpent).Percentage
            ≥ quiz.PassingScore) := rfl
    rw [hpass, h80, hp]
    decide

/-- C2, evaluated on the example store: eight of the ten questions are answered
correctly, the percentage is 80 and the attempt is passed. -/
theorem submitAttempt_isPassed_iff_witness :
    QuizAttemptRepository.GetByID demoStore 1 = .ok demoAttempt
    ∧ QuizRepository.GetByID demoStore 1 = .ok demoQuiz
    ∧ ∃ a : QuizAttempt,
        (QuizService.SubmitAttempt demoStore 200 7 1 1 demoAnswers 30).1 = .ok a
        ∧ a.Score = 8 ∧ a.Percentage = 80 ∧ a.IsPassed = true := by
  refine ⟨rfl, rfl, ?_⟩
  obtain ⟨a, hres, -, hscen⟩ :=
    submitAttempt_isPassed_iff demoStore 200 7 1 1 demoAnswers 30 demoAttempt demoQuiz rfl rfl
  exact ⟨a, hres, hscen rfl rfl (by rfl)⟩

/-- C3: the score written by `QuizService.SubmitAttempt` is the number of
questions of the quiz for which the answers map has an entry under the
question's id whose value is the decimal id of an option of that question
flagged correct; a question without an answer entry, with an answer that names
no correct option of the question, or without options contributes nothing. -/
theorem submitAttempt_score_counts_correct (s : Store) (now userID quizID attemptID : Nat)
    (answers : Answers) (timeSpent : Int) (attempt : QuizAttempt) (quiz : Quiz)
    (ha : QuizAttemptRepository.GetByID s attemptID = .ok attempt)
    (hq : QuizRepository.GetByID s quizID = .ok quiz) :
    (∃ a : QuizAttempt,
      (QuizService.SubmitAttempt s now userID quizID attemptID answers timeSpent).1 = .ok a
      ∧ a.Score = ((quiz.Questions.filter (answeredCorrectly answers)).length : Nat))
    ∧ (∀ q : Question, answeredCorrectly answers q = true ↔
        ∃ v, answers q.ID = some v ∧ ∃ o ∈ q.Options, o.IsCorrect = true ∧ v = Nat.repr o.ID)
    ∧ (∀ (q : Question) (v : String), isCorrectAnswer q v = true ↔
        ∃ o ∈ q.Options, o.IsCorrect = true ∧ v = Nat.repr o.ID)
    ∧ (∀ q : Question, answers q.ID = none → answeredCorrectly answers q = false)
    ∧ (∀ (q : Question) (v : String), answers q.ID = some v →
        (∀ o ∈ q.Options, v = Nat.repr o.ID → o.IsCorrect = false) →
        answeredCorrectly answers q = false)
    ∧ (∀ q : Question, q.Options = [] → answeredCorrectly answers q = false) := by
  refine ⟨⟨gradedAttempt attempt quiz now answers timeSpent,
    submitAttempt_result s now userID quizID attemptID answers timeSpent attempt quiz ha hq, ?_⟩,
    answeredCorrectly_iff answers, isCorrectAnswer_iff, ?_, ?_, ?_⟩
  · rw [gradedAttempt_score, List.countP_eq_length_filter]
  · intro q hnone
    simp [answeredCorrectly, hnone]
  · intro q v hv hwrong
    rw [← Bool.not_eq_true, answeredCorrectly_iff]
    rintro ⟨w, hw, o, ho, hcorrect, hrepr⟩
    rw [hv] at hw
    cases hw
    rw [hwrong o ho hrepr] at hcorrect
    cases hcorrect
  · intro q hempty
    rw [← Bool.not_eq_true, answeredCorrectly_iff]
    rintro ⟨w, -, o, ho, -⟩
    rw [hempty] at ho
    cases ho

/-- C3, evaluated on the example store: exactly questions 1 to 8 are answered
correctly and the score is 8. -/
theorem submitAttempt_score_counts_correct_witness :
    QuizAttemptRepository.GetByID demoStore 1 = .ok demoAttempt
    ∧ QuizRepository.GetByID demoStore 1 = .ok demoQuiz
    ∧ (demoQuiz.Questions.filter (answeredCorrectly demoAnswers)).map (fun q => q.ID)
        = [1, 2, 3, 4, 5, 6, 7, 8]
    ∧ ∃ a : QuizAttempt,
        (QuizService.SubmitAttempt demoStore 200 7 1 1 demoAnswers 30).1 = .ok a ∧ a.Score = 8 := by
  refine ⟨rfl, rfl, by rfl, ?_⟩
  obtain ⟨⟨a, hres, hscore⟩, -⟩ :=
    submitAttempt_score_counts_correct demoStore 200 7 1 1 demoAnswers 30 demoAttempt demoQuiz
      rfl rfl
  refine ⟨a, hres, ?_⟩
  rw [hscore]
  rfl

/-! ## `QuizService.StartAttempt` -/

theorem startAttempt_of_quiz (s : Store) (now userID quizID : Nat) (quiz : Quiz)
    (hq : QuizRepository.GetByID s quizID = .ok quiz) :
    QuizService.StartAttempt s now userID quizID
      = if QuizAttemptRepository.GetQuizAttemptCount s userID quizID ≥ quiz.Attempts
        then (.error .attemptLimit, s)
        else (.ok (startedAttempt s now userID quizID), startedStore s now userID quizID) := by
  unfold QuizService.StartAttempt
  simp only [hq]
  split_ifs <;> rfl

theorem startAttempt_no_quiz (s : Store) (now userID quizID : Nat) (err : Error)
    (hq : QuizRepository.GetByID s quizID = .error err) :
    QuizService.StartAttempt s now userID quizID = (.error err, s) := by
  unfold QuizService.StartAttempt
  simp only [hq]

theorem startedStore_getQuiz (s : Store) (now userID quizID id : Nat) :
    QuizRepository.GetByID (startedStore s now userID quizID) id = QuizRepository.GetByID s id :=
  rfl

theorem startedStore_count (s : Store) (now userID quizID u q : Nat) :
    QuizAttemptRepository.GetQuizAttemptCount (startedStore s now userID quizID) u q
      = QuizAttemptRepository.GetQuizAttemptCount s u q
        + (if userID = u ∧ quizID = q then 1 else 0) := by
  unfold QuizAttemptRepository.GetQuizAttemptCount startedStore startedAttempt
  simp only [List.countP_append, List.countP_cons, List.countP_nil, beq_iff_eq,
    Bool.and_eq_true, zero_add]
  split_ifs <;> simp

/-- Either `StartAttempt` fails and leaves the store as it was, or it succeeds
and leaves `startedStore`. -/
theorem startAttempt_cases (s : Store) (now userID quizID : Nat) :
    (∃ err, QuizService.StartAttempt s now userID quizID = (.error err, s))
    ∨ QuizService.StartAttempt s now userID quizID
        = (.ok (startedAttempt s now userID quizID), startedStore s now userID quizID) := by
  cases hq : QuizRepository.GetByID s quizID with
  | error err => exact Or.inl ⟨err, startAttempt_no_quiz s now userID quizID err hq⟩
  | ok quiz =>
    rw [startAttempt_of_quiz s now userID quizID quiz hq]
    split_ifs
    · exact Or.inl ⟨_, rfl⟩
    · exact Or.inr rfl

/-- C4: for a quiz with `m > 0` allowed attempts and a user with `c` prior
attempts, `QuizService.StartAttempt` fails with the attempt-limit error exactly
when `c >= m`, and otherwise stores and returns a new attempt numbered `c + 1`;
with `m = 3` and no prior attempt, three calls succeed (numbered 1, 2, 3) and the
fourth fails with the attempt-limit error. -/
theorem startAttempt_limit (s : Store) (now userID quizID : Nat) (quiz : Quiz)
    (hq : QuizRepository.GetByID s quizID = .ok quiz) (hm : 0 < quiz.Attempts) :
    ((QuizService.StartAttempt s now userID quizID).1 = .error .attemptLimit
        ↔ QuizAttemptRepository.GetQuizAttemptCount s userID quizID ≥ quiz.Attempts)
    ∧ (QuizAttemptRepository.GetQuizAttemptCount s userID quizID ≥ quiz.Attempts →
        (QuizService.StartAttempt s now userID quizID).2 = s)
    ∧ (QuizAttemptRepository.GetQuizAttemptCount s userID quizID < quiz.Attempts →
        ∃ a : QuizAttempt,
          (QuizService.StartAttempt s now userID quizID).1 = .ok a
          ∧ (QuizService.StartAttempt s now userID quizID).2.quizAttempts = s.quizAttempts ++ [a]
          ∧ a.AttemptNumber = QuizAttemptRepository.GetQuizAttemptCount s userID quizID + 1
          ∧ a.UserID = userID ∧ a.QuizID = quizID ∧ a.StartedAt = now ∧ a.SubmittedAt = none)
    ∧ (QuizAttemptRepository.GetQuizAttemptCount s userID quizID = 0 →
        (QuizService.StartAttempt s now userID quizID).1.isOk = true)
    ∧ (quiz.Attempts = 3 → QuizAttemptRepository.GetQuizAttemptCount s userID quizID = 0 →
        ∀ t2 t3 t4 : Nat, ∃ a1 a2 a3 : QuizAttempt,
          (runStartAttempts s
              [⟨now, userID, quizID⟩, ⟨t2, userID, quizID⟩, ⟨t3, userID, quizID⟩,
                ⟨t4, userID, quizID⟩]).1
            = [.ok a1, .ok a2, .ok a3, .error .attemptLimit]
          ∧ a1.AttemptNumber = 1 ∧ a2.AttemptNumber = 2 ∧ a3.AttemptNumber = 3) := by
  have hstep := startAttempt_of_quiz s now userID quizID quiz hq
  refine ⟨?_, ?_, ?_, ?_, ?_⟩
  · rw [hstep]
    split_ifs with h
    · simp [h]
    · simp [h]
  · intro h
    rw [hstep, if_pos h]
  · intro h
    have hn : ¬ QuizAttemptRepository.GetQuizAttemptCount s userID quizID ≥ quiz.Attempts :=
      not_le.mpr h
    rw [hstep, if_neg hn]
    exact ⟨startedAttempt s now userID quizID, rfl, rfl, rfl, rfl, rfl, rfl, rfl⟩
  · intro h0
    have hn : ¬ QuizAttemptRepository.GetQuizAttemptCount s userID quizID ≥ quiz.Attempts := by
      rw [h0]; exact not_le.mpr hm
    rw [hstep, if_neg hn]
    rfl
  · intro h3 h0 t2 t3 t4
    have e1 : QuizService.StartAttempt s now userID quizID
        = (.ok (startedAttempt s now userID quizID), startedStore s now userID quizID) := by
      rw [hstep, if_neg (by rw [h0, h3]; decide)]
    have hq1 := (startedStore_getQuiz s now userID quizID quizID).trans hq
    have c1 : QuizAttemptRepository.GetQuizAttemptCount (startedStore s now userID quizID)
        userID quizID = 1 := by
      rw [startedStore_count, h0]; simp
    have e2 := startAttempt_of_quiz _ t2 userID quizID quiz hq1
    rw [if_neg (by rw [c1, h3]; decide)] at e2
    have hq2 := (startedStore_getQuiz (startedStore s now userID quizID) t2 userID quizID
      quizID).trans hq1
    have c2 : QuizAttemptRepository.GetQuizAttemptCount
        (startedStore (startedStore s now userID quizID) t2 userID quizID) userID quizID = 2 := by
      rw [startedStore_count, c1]; simp
    have e3 := startAttempt_of_quiz _ t3 userID quizID quiz hq2
    rw [if_neg (by rw [c2, h3]; decide)] at e3
    have hq3 := (startedStore_getQuiz
      (startedStore (startedStore s now userID quizID) t2 userID quizID) t3 userID quizID
      quizID).trans hq2
    have c3 : QuizAttemptRepository.GetQuizAttemptCount
        (startedStore (startedStore (startedStore s now userID quizID) t2 userID quizID)
          t3 userID quizID) userID quizID = 3 := by
      rw [startedStore_count, c2]; simp
    have e4 := startAttempt_of_quiz _ t4 userID quizID quiz hq3
    rw [if_pos (by rw [c3, h3])] at e4
    refine ⟨startedAttempt s now userID quizID,
      startedAttempt (startedStore s now userID quizID) t2 userID quizID,
      startedAttempt (startedStore (startedStore s now userID quizID) t2 userID quizID)
        t3 userID quizID, ?_, ?_, ?_, ?_⟩
    · simp only [runStartAttempts, e1, e2, e3, e4]
    · simp [startedAttempt, h0]
    · simp [startedAttempt, c1]
    · simp [startedAttempt, c2]

/-- C4, evaluated on the example store for user 8, who has no attempt yet: of
four calls the first three succeed and the fourth is rejected. -/
theorem startAttempt_limit_witness :
    QuizRepository.GetByID demoStore 1 = .ok demoQuiz
    ∧ (0 : Int) < demoQuiz.Attempts
    ∧ (runStartAttempts demoStore [⟨10, 8, 1⟩, ⟨11, 8, 1⟩, ⟨12, 8, 1⟩, ⟨13, 8, 1⟩]).1.map
        (fun r => r.isOk) = [true, true, true, false] := by
  refine ⟨rfl, by decide, ?_⟩
  obtain ⟨-, -, -, -, hscen⟩ := startAttempt_limit demoStore 10 8 1 demoQuiz rfl (by decide)
  obtain ⟨a1, a2, a3, hrun, -⟩ := hscen rfl rfl 11 12 13
  rw [hrun]
  rfl

/-- C5 fails on the code: for a quiz with 0 allowed attempts and a user without
any prior attempt, `QuizService.StartAttempt` returns the attempt-limit error. -/
theorem startAttempt_zero_limit_counterexample :
    QuizRepository.GetByID zeroAttemptsStore 2 = .ok zeroAttemptsQuiz
    ∧ zeroAttemptsQuiz.Attempts = 0
    ∧ QuizAttemptRepository.GetQuizAttemptCount zeroAttemptsStore 7 2 = 0
    ∧ QuizService.StartAttempt zeroAttemptsStore 10 7 2 = (.error .attemptLimit, zeroAttemptsStore) :=
  ⟨rfl, rfl, rfl, rfl⟩

/-- C5 as amended: the limit check `prior count >= allowed attempts` applies to
every value of the allowed-attempts column; for a quiz whose value is 0 (or
less) `QuizService.StartAttempt` always fails with the attempt-limit error and
stores nothing, whatever the user's prior attempt count. -/
theorem startAttempt_zero_limit_rejects (s : Store) (now userID quizID : Nat) (quiz : Quiz)
    (hq : QuizRepository.GetByID s quizID = .ok quiz) :
    ((QuizService.StartAttempt s now userID quizID).1 = .error .attemptLimit
        ↔ QuizAttemptRepository.GetQuizAttemptCount s userID quizID ≥ quiz.Attempts)
    ∧ (quiz.Attempts ≤ 0 →
        QuizService.StartAttempt s now userID quizID = (.error .attemptLimit, s)) := by
  have hstep := startAttempt_of_quiz s now userID quizID quiz hq
  constructor
  · rw [hstep]
    split_ifs with h
    · simp [h]
    · simp [h]
  · intro h0
    have hc : (0 : Int) ≤ QuizAttemptRepository.GetQuizAttemptCount s userID quizID := by
      unfold QuizAttemptRepository.GetQuizAttemptCount
      positivity
    rw [hstep, if_pos (le_trans h0 hc)]

/-- C5 as amended, evaluated on the store whose quiz allows 0 attempts. -/
theorem startAttempt_zero_limit_rejects_witness :
    QuizRepository.GetByID zeroAttemptsStore 2 = .ok zeroAttemptsQuiz
    ∧ QuizService.StartAttempt zeroAttemptsStore 10 7 2 = (.error .attemptLimit, zeroAttemptsStore) :=
  ⟨rfl, (startAttempt_zero_limit_rejects zeroAttemptsStore 10 7 2 zeroAttemptsQuiz rfl).2
    (by decide)⟩

/-! ### Attempt numbering -/

theorem attemptNumbers_length (s : Store) (userID quizID : Nat) :
    ((attemptNumbers s userID quizID).length : Int)
      = QuizAttemptRepository.GetQuizAttemptCount s userID quizID := by
  unfold attemptNumbers QuizAttemptRepository.GetQuizAttemptCount
  rw [List.length_map, List.countP_eq_length_filter]

theorem attemptNumbers_started (s : Store) (now userID quizID u q : Nat) :
    attemptNumbers (startedStore s now userID quizID) u q
      = attemptNumbers s u q
        ++ (if userID = u ∧ quizID = q then [((attemptNumbers s u q).length : Int) + 1] else []) := by
  by_cases h : userID = u ∧ quizID = q
  · obtain ⟨hu, hq⟩ := h
    subst hu hq
    rw [attemptNumbers_length]
    simp [attemptNumbers, startedStore, startedAttempt, List.filter_append]
  · have hb : (userID == u && quizID == q) = false := by
      rw [← Bool.not_eq_true]
      simpa using h
    simp [attemptNumbers, startedStore, startedAttempt, List.filter_append, List.filter_cons, hb, h]

theorem oneTo_succ (n : Nat) : oneTo (n + 1) = oneTo n ++ [(n : Int) + 1] := by
  simp [oneTo, List.range_succ]

theorem runStartAttempts_numbers (calls : List StartCall) :
    ∀ s : Store,
      (∀ u q, attemptNumbers s u q = oneTo (attemptNumbers s u q).length) →
      ∀ u q, attemptNumbers (runStartAttempts s calls).2 u q
        = oneTo ((attemptNumbers s u q).length
            + successfulStarts calls (runStartAttempts s calls).1 u q) := by
  induction calls with
  | nil =>
    intro s hinv u q
    simpa [runStartAttempts, successfulStarts] using hinv u q
  | cons c rest ih =>
    intro s hinv u q
    rcases startAttempt_cases s c.now c.userID c.quizID with ⟨err, he⟩ | hok
    · have := ih s hinv u q
      simp only [runStartAttempts, he, successfulStarts, List.zip_cons_cons, List.countP_cons]
      simpa [successfulStarts, Except.isOk, Except.toBool] using this
    · have hinv1 : ∀ u q, attemptNumbers (startedStore s c.now c.userID c.quizID) u q
          = oneTo (attemptNumbers (startedStore s c.now c.userID c.quizID) u q).length := by
        intro u q
        rw [attemptNumbers_started]
        split_ifs with h
        · rw [List.length_append, List.length_singleton, oneTo_succ, ← hinv u q]
        · simpa using hinv u q
      have := ih (startedStore s c.now c.userID c.quizID) hinv1 u q
      simp only [runStartAttempts, hok, successfulStarts, List.zip_cons_cons, List.countP_cons]
      rw [this, attemptNumbers_started]
      congr 1
      by_cases h : c.userID = u ∧ c.quizID = q
      · simp [successfulStarts, Except.isOk, Except.toBool, h]
        omega
      · have hb : (c.userID == u && c.quizID == q) = false := by
          rw [← Bool.not_eq_true]
          simpa using h
        simp [successfulStarts, Except.isOk, Except.toBool, h, hb]

theorem runStartAttempts_length (calls : List StartCall) :
    ∀ s : Store, (runStartAttempts s calls).1.length = calls.length := by
  induction calls with
  | nil => intro s; rfl
  | cons c rest ih => intro s; simp [runStartAttempts, ih]

/-- C6: starting from a store without attempts and applying any sequence of
`QuizService.StartAttempt` calls one after another (calls for different users
and quizzes interleaved), the attempt numbers stored for every (user, quiz)
pair are exactly 1, 2, ..., n in this order, where n is the number of
successful calls for the pair: no gap and no duplicate. -/
theorem startAttempt_numbering (s : Store) (hempty : s.quizAttempts = [])
    (calls : List StartCall) (userID quizID : Nat) :
    (runStartAttempts s calls).1.length = calls.length
    ∧ attemptNumbers (runStartAttempts s calls).2 userID quizID
        = List.map (fun i : Nat => (i : Int) + 1)
            (List.range (successfulStarts calls (runStartAttempts s calls).1 userID quizID))
    ∧ (attemptNumbers (runStartAttempts s calls).2 userID quizID).Nodup := by
  have h0 : ∀ u q, attemptNumbers s u q = [] := by
    intro u q
    simp [attemptNumbers, hempty]
  have hinv : ∀ u q, attemptNumbers s u q = oneTo (attemptNumbers s u q).length := by
    intro u q
    rw [h0 u q]
    rfl
  have hmain := runStartAttempts_numbers calls s hinv userID quizID
  rw [h0 userID quizID, List.length_nil, Nat.zero_add] at hmain
  refine ⟨runStartAttempts_length calls s, hmain, ?_⟩
  rw [hmain]
  have hinj : Function.Injective (fun i : Nat => (i : Int) + 1) := by
    intro a b hab
    simpa using hab
  exact List.Nodup.map hinj (List.nodup_range _)

/-- C6, evaluated on interleaved calls of users 7 and 8 on the example quiz:
user 7 ends with attempts 1, 2, 3 (the fourth call is rejected), user 8 with 1, 2. -/
theorem startAttempt_numbering_witness :
    attemptNumbers (runStartAttempts { quizzes := [demoQuiz] }
        [⟨1, 7, 1⟩, ⟨2, 8, 1⟩, ⟨3, 7, 1⟩, ⟨4, 7, 1⟩, ⟨5, 7, 1⟩, ⟨6, 8, 1⟩]).2 7 1 = [1, 2, 3]
    ∧ attemptNumbers (runStartAttempts { quizzes := [demoQuiz] }
        [⟨1, 7, 1⟩, ⟨2, 8, 1⟩, ⟨3, 7, 1⟩, ⟨4, 7, 1⟩, ⟨5, 7, 1⟩, ⟨6, 8, 1⟩]).2 8 1 = [1, 2] := by
  constructor
  · rw [(startAttempt_numbering { quizzes := [demoQuiz] } rfl
      [⟨1, 7, 1⟩, ⟨2, 8, 1⟩, ⟨3, 7, 1⟩, ⟨4, 7, 1⟩, ⟨5, 7, 1⟩, ⟨6, 8, 1⟩] 7 1).2.1]
    rfl
  · rfl

/-! ### Submitting an attempt twice -/

theorem isEnrolled_iff (s : Store) (userID courseID : Nat) :
    EnrollmentRepository.IsEnrolled s userID courseID = true ↔ 0 < enrollmentsOf s userID courseID := by
  simp [EnrollmentRepository.IsEnrolled, enrollmentsOf]

theorem enrollUser_enrolled (s : Store) (now userID courseID : Nat)
    (h : EnrollmentRepository.IsEnrolled s userID courseID = true) :
    EnrollmentService.EnrollUser s now userID courseID = (.error .alreadyEnrolled, s) := by
  unfold EnrollmentService.EnrollUser
  rw [if_pos h]

theorem enrollUser_no_course (s : Store) (now userID courseID : Nat) (err : Error)
    (h : EnrollmentRepository.IsEnrolled s userID courseID = false)
    (hc : CourseRepository.GetByID s courseID = .error err) :
    EnrollmentService.EnrollUser s now userID courseID = (.error .courseNotFound, s) := by
  unfold EnrollmentService.EnrollUser
  simp only [h, hc]
  rfl

theorem enrollUser_of_course (s : Store) (now userID courseID : Nat) (course : Course)
    (h : EnrollmentRepository.IsEnrolled s userID courseID = false)
    (hc : CourseRepository.GetByID s courseID = .ok course) :
    EnrollmentService.EnrollUser s now userID courseID
      = if course.MaxEnrollments > 0 ∧ course.EnrollmentCount ≥ course.MaxEnrollments
        then (.error .courseFull, s)
        else (.ok (enrolledRow s now userID courseID), enrolledStore s now userID courseID) := by
  unfold EnrollmentService.EnrollUser
  simp only [h, hc]
  split_ifs <;> first | rfl | contradiction

/-- Either `EnrollUser` fails and leaves the store as it was, or the pair had no
enrollment, the course exists and is not full, and the call leaves `enrolledStore`. -/
theorem enrollUser_cases (s : Store) (now userID courseID : Nat) :
    (∃ err, EnrollmentService.EnrollUser s now userID courseID = (.error err, s))
    ∨ (enrollmentsOf s userID courseID = 0
        ∧ (∃ course, CourseRepository.GetByID s courseID = .ok course ∧ ¬ courseIsFull course)
        ∧ EnrollmentService.EnrollUser s now userID courseID
          = (.ok (enrolledRow s now userID courseID), enrolledStore s now userID courseID)) := by
  cases h : EnrollmentRepository.IsEnrolled s userID courseID with
  | true => exact Or.inl ⟨_, enrollUser_enrolled s now userID courseID h⟩
  | false =>
    have h0 : enrollmentsOf s userID courseID = 0 := by
      have := (isEnrolled_iff s userID courseID).not
      rw [h] at this
      simpa using this
    cases hc : CourseRepository.GetByID s courseID with
    | error err => exact Or.inl ⟨_, enrollUser_no_course s now userID courseID err h hc⟩
    | ok course =>
      rw [enrollUser_of_course s now userID courseID course h hc]
      split_ifs with hfull
      · exact Or.inl ⟨_, rfl⟩
      · exact Or.inr ⟨h0, ⟨course, rfl, hfull⟩, rfl⟩

theorem enrolledStore_count (s : Store) (now userID courseID u c : Nat) :
    enrollmentsOf (enrolledStore s now userID courseID) u c
      = enrollmentsOf s u c + (if userID = u ∧ courseID = c then 1 else 0) := by
  unfold enrollmentsOf enrolledStore enrolledRow
  simp only [List.countP_append, List.countP_cons, List.countP_nil, beq_iff_eq,
    Bool.and_eq_true, zero_add]

theorem countedCourse_id (courseID : Nat) (c : Course) : (countedCourse courseID c).ID = c.ID := by
  unfold countedCourse
  split_ifs <;> rfl

theorem enrolledStore_getCourse (s : Store) (now userID courseID id : Nat) :
    CourseRepository.GetByID (enrolledStore s now userID courseID) id
      = (CourseRepository.GetByID s id).map (countedCourse courseID) := by
  unfold CourseRepository.GetByID enrolledStore
  simp only [List.find?_map]
  have hfun : ((fun c : Course => c.ID == id) ∘ countedCourse courseID)
      = (fun c : Course => c.ID == id) := by
    funext c
    simp [countedCourse_id]
  rw [hfun]
  cases s.courses.find? (fun c => c.ID == id) <;> rfl

namespace UuidTree

theorem uuid_enrollUser_enrolled (rows : List Enrollment) (now : Nat) (uuid userID courseID : String)
    (h : 0 < enrollmentsOf rows userID courseID) :
    EnrollmentService.EnrollUser rows now uuid userID courseID = (.error .alreadyEnrolled, rows) := by
  unfold EnrollmentService.EnrollUser EnrollmentRepository.GetUserCourseEnrollment
  cases hf : rows.find? (fun e => e.UserID == userID && e.CourseID == courseID) with
  | some e => rfl
  | none =>
    exfalso
    rw [List.find?_eq_none] at hf
    have h0 : enrollmentsOf rows userID courseID = 0 := by
      unfold enrollmentsOf
      rw [List.countP_eq_zero]
      exact hf
    omega

theorem uuid_enrollUser_unique (rows : List Enrollment) (now : Nat) (uuid userID courseID : String)
    (hinv : ∀ u c, enrollmentsOf rows u c ≤ 1) :
    ∀ u c, enrollmentsOf (EnrollmentService.EnrollUser rows now uuid userID courseID).2 u c ≤ 1 := by
  intro u c
  unfold EnrollmentService.EnrollUser EnrollmentRepository.GetUserCourseEnrollment
  cases hf : rows.find? (fun e => e.UserID == userID && e.CourseID == courseID) with
  | some e => exact hinv u c
  | none =>
    rw [List.find?_eq_none] at hf
    have h0 : enrollmentsOf rows userID courseID = 0 := by
      unfold enrollmentsOf
      rw [List.countP_eq_zero]
      exact hf
    have hu := hinv u c
    simp only [enrollmentsOf, List.countP_append, List.countP_cons, List.countP_nil,
      zero_add] at hu h0 ⊢
    by_cases hp : userID = u ∧ courseID = c
    · obtain ⟨h1, h2⟩ := hp
      subst h1 h2
      simp [h0]
    · have hb : (userID == u && courseID == c) = false := by
        rw [← Bool.not_eq_true]
        simpa using hp
      simp only [hb]
      simpa using hu

theorem uuid_runEnrollUsers_unique (calls : List EnrollCall) :
    ∀ rows : List Enrollment, (∀ u c, enrollmentsOf rows u c ≤ 1) →
      ∀ u c, enrollmentsOf (runEnrollUsers rows calls) u c ≤ 1 := by
  induction calls with
  | nil => intro rows hinv; exact hinv
  | cons call rest ih =>
    intro rows hinv
    exact ih _ (uuid_enrollUser_unique rows call.now call.uuid call.userID call.courseID hinv)

end UuidTree

theorem enrollUser_unique (s : Store) (now userID courseID : Nat)
    (hinv : ∀ u c, enrollmentsOf s u c ≤ 1) :
    ∀ u c, enrollmentsOf (EnrollmentService.EnrollUser s now userID courseID).2 u c ≤ 1 := by
  intro u c
  rcases enrollUser_cases s now userID courseID with ⟨err, he⟩ | ⟨h0, -, hok⟩
  · rw [he]; exact hinv u c
  · rw [hok, enrolledStore_count]
    split_ifs with hp
    · obtain ⟨h1, h2⟩ := hp
      subst h1 h2
      omega
    · simpa using hinv u c

theorem runEnrollUsers_unique (calls : List EnrollCall) :
    ∀ s : Store, (∀ u c, enrollmentsOf s u c ≤ 1) →
      ∀ u c, enrollmentsOf (runEnrollUsers s calls).2 u c ≤ 1 := by
  induction calls with
  | nil => intro s hinv; exact hinv
  | cons call rest ih =>
    intro s hinv
    exact ih _ (enrollUser_unique s call.now call.userID call.courseID hinv)

/-- C8: starting from a store with at most one enrollment per (user, course)
pair, after any sequence of `EnrollmentService.EnrollUser` calls there is still
at most one enrollment row per pair; and a call for a pair that already has an
enrollment fails with the already-enrolled error and leaves the whole store (the
enrollment rows and every course counter) as it was.  The same holds for
`EnrollUser` of the UUID-keyed tree. -/
theorem enrollUser_uniqueness (s : Store) (calls : List EnrollCall)
    (hinv : ∀ u c, enrollmentsOf s u c ≤ 1) :
    (∀ u c, enrollmentsOf (runEnrollUsers s calls).2 u c ≤ 1)
    ∧ (∀ (s1 : Store) (now u c : Nat), 0 < enrollmentsOf s1 u c →
        EnrollmentService.EnrollUser s1 now u c = (.error .alreadyEnrolled, s1))
    ∧ (∀ (rows : List UuidTree.Enrollment) (ucalls : List UuidTree.EnrollCall),
        (∀ u c, UuidTree.enrollmentsOf rows u c ≤ 1) →
        ∀ u c, UuidTree.enrollmentsOf (UuidTree.runEnrollUsers rows ucalls) u c ≤ 1)
    ∧ (∀ (rows : List UuidTree.Enrollment) (now : Nat) (uuid u c : String),
        0 < UuidTree.enrollmentsOf rows u c →
        UuidTree.EnrollmentService.EnrollUser rows now uuid u c = (.error .alreadyEnrolled, rows)) :=
  ⟨runEnrollUsers_unique calls s hinv,
    fun s1 now u c h => enrollUser_enrolled s1 now u c ((isEnrolled_iff s1 u c).mpr h),
    fun rows ucalls h => UuidTree.uuid_runEnrollUsers_unique ucalls rows h,
    fun rows now uuid u c h => UuidTree.uuid_enrollUser_enrolled rows now uuid u c h⟩

/-- C8, evaluated on the example courses: user 7 enrolls in course 6, tries
again and is rejected, then user 8 enrolls; every pair has at most one row. -/
theorem enrollUser_uniqueness_witness :
    (∀ u c, enrollmentsOf courseStore u c ≤ 1)
    ∧ (runEnrollUsers courseStore [⟨1, 7, 6⟩, ⟨2, 7, 6⟩, ⟨3, 8, 6⟩]).1.map (fun r => r.isOk)
        = [true, false, true]
    ∧ enrollmentsOf (runEnrollUsers courseStore [⟨1, 7, 6⟩, ⟨2, 7, 6⟩, ⟨3, 8, 6⟩]).2 7 6 ≤ 1
    ∧ EnrollmentService.EnrollUser (runEnrollUsers courseStore [⟨1, 7, 6⟩]).2 2 7 6
        = (.error .alreadyEnrolled, (runEnrollUsers courseStore [⟨1, 7, 6⟩]).2) := by
  have hinv : ∀ u c, enrollmentsOf courseStore u c ≤ 1 := by
    intro u c
    simp [enrollmentsOf, courseStore]
  have h := enrollUser_uniqueness courseStore [⟨1, 7, 6⟩, ⟨2, 7, 6⟩, ⟨3, 8, 6⟩] hinv
  exact ⟨hinv, by rfl, h.1 7 6, h.2.1 _ 2 7 6 (by decide)⟩

/-- C9: for a user not yet enrolled in an existing course,
`EnrollmentService.EnrollUser` fails with the course-full error exactly when
`max_enrollments > 0` and `enrollment_count >= max_enrollments`, and otherwise
succeeds; `max_enrollments = 0` never rejects.  With `max_enrollments = 1` and a
counter that is not negative, once user A has enrolled successfully the call of
any other user B fails with the course-full error. -/
theorem enrollUser_courseFull_iff (s : Store) (now userID courseID : Nat) (course : Course)
    (hnot : enrollmentsOf s userID courseID = 0)
    (hc : CourseRepository.GetByID s courseID = .ok course) :
    ((EnrollmentService.EnrollUser s now userID courseID).1 = .error .courseFull
        ↔ course.MaxEnrollments > 0 ∧ course.EnrollmentCount ≥ course.MaxEnrollments)
    ∧ (¬ (course.MaxEnrollments > 0 ∧ course.EnrollmentCount ≥ course.MaxEnrollments) →
        (EnrollmentService.EnrollUser s now userID courseID).1.isOk = true)
    ∧ (course.MaxEnrollments = 0 →
        (EnrollmentService.EnrollUser s now userID courseID).1.isOk = true)
    ∧ (course.MaxEnrollments = 1 → 0 ≤ course.EnrollmentCount →
        (EnrollmentService.EnrollUser s now userID courseID).1.isOk = true →
        ∀ userB later : Nat, userB ≠ userID → enrollmentsOf s userB courseID = 0 →
          EnrollmentService.EnrollUser (EnrollmentService.EnrollUser s now userID courseID).2
              later userB courseID
            = (.error .courseFull, (EnrollmentService.EnrollUser s now userID courseID).2)) := by
  have hfalse : EnrollmentRepository.IsEnrolled s userID courseID = false := by
    rw [← Bool.not_eq_true, isEnrolled_iff]
    omega
  have hstep := enrollUser_of_course s now userID courseID course hfalse hc
  refine ⟨?_, ?_, ?_, ?_⟩
  · rw [hstep]
    split_ifs with h
    · simp [h]
    · simp [h]
  · intro h
    rw [hstep, if_neg h]
    rfl
  · intro h0
    rw [hstep, if_neg (by rw [h0]; simp)]
    rfl
  · intro h1 hnonneg hok userB later hne hB
    have hroom : ¬ (course.MaxEnrollments > 0 ∧ course.EnrollmentCount ≥ course.MaxEnrollments) := by
      intro hfull
      rw [hstep, if_pos hfull] at hok
      cases hok
    rw [hstep, if_neg hroom]
    have hcount : course.EnrollmentCount = 0 := by
      rw [h1] at hroom
      have : ¬ course.EnrollmentCount ≥ 1 := fun h => hroom ⟨by decide, h⟩
      omega
    have hBfalse : EnrollmentRepository.IsEnrolled (enrolledStore s now userID courseID)
        userB courseID = false := by
      rw [← Bool.not_eq_true, isEnrolled_iff, enrolledStore_count, hB]
      have hAB : ¬ userID = userB := fun h => hne h.symm
      simp [hAB]
    have hfind : course.ID = courseID := by
      unfold CourseRepository.GetByID at hc
      split at hc
      · next c hf =>
        cases hc
        simpa using List.find?_some hf
      · cases hc
    have hcB : CourseRepository.GetByID (enrolledStore s now userID courseID) courseID
        = .ok { course with EnrollmentCount := course.EnrollmentCount + 1 } := by
      rw [enrolledStore_getCourse, hc]
      simp [Except.map, countedCourse, hfind]
    rw [enrollUser_of_course _ later userB courseID _ hBfalse hcB]
    rw [if_pos]
    simp only [h1, hcount]
    decide

/-- C9, evaluated on the example course with room for one learner: user 7
enrolls, then user 8 is rejected because the course is full. -/
theorem enrollUser_courseFull_iff_witness :
    enrollmentsOf courseStore 7 5 = 0
    ∧ CourseRepository.GetByID courseStore 5 = .ok demoCourse
    ∧ (EnrollmentService.EnrollUser courseStore 1 7 5).1.isOk = true
    ∧ (EnrollmentService.EnrollUser (EnrollmentService.EnrollUser courseStore 1 7 5).2 2 8 5).1
        = .error .courseFull := by
  have h := enrollUser_courseFull_iff courseStore 1 7 5 demoCourse rfl rfl
  refine ⟨rfl, rfl, rfl, ?_⟩
  rw [h.2.2.2 rfl (by decide) rfl 8 2 (by decide) rfl]

/-- The writes of a successful `EnrollmentService.EnrollUser` whose counter
increment succeeds: one new enrollment row, the counter of the course one
higher, every other course row and every other table unchanged. -/
theorem enrollUser_written (s : Store) (now userID courseID : Nat) (e : Enrollment)
    (hok : (EnrollmentService.EnrollUser s now userID courseID).1 = .ok e) :
    (EnrollmentService.EnrollUser s now userID courseID).2.enrollments = s.enrollments ++ [e]
    ∧ e.UserID = userID ∧ e.CourseID = courseID
    ∧ e.CompletionStatus = "not_started" ∧ e.OverallProgress = 0
    ∧ enrollmentsOf s userID courseID = 0
    ∧ enrollmentsOf (EnrollmentService.EnrollUser s now userID courseID).2 userID courseID = 1
    ∧ (∃ course : Course,
        CourseRepository.GetByID s courseID = .ok course
        ∧ CourseRepository.GetByID (EnrollmentService.EnrollUser s now userID courseID).2 courseID
          = .ok { course with EnrollmentCount := course.EnrollmentCount + 1 })
    ∧ (EnrollmentService.EnrollUser s now userID courseID).2.courses
        = s.courses.map (fun c =>
            if c.ID = courseID then { c with EnrollmentCount := c.EnrollmentCount + 1 } else c)
    ∧ (∀ id : Nat, id ≠ courseID →
        CourseRepository.GetByID (EnrollmentService.EnrollUser s now userID courseID).2 id
          = CourseRepository.GetByID s id)
    ∧ (EnrollmentService.EnrollUser s now userID courseID).2.users = s.users
    ∧ (EnrollmentService.EnrollUser s now userID courseID).2.quizzes = s.quizzes
    ∧ (EnrollmentService.EnrollUser s now userID courseID).2.quizAttempts = s.quizAttempts
    ∧ (EnrollmentService.EnrollUser s now userID courseID).2.coinTransactions
        = s.coinTransactions := by
  rcases enrollUser_cases s now userID courseID with ⟨err, he⟩ | ⟨h0, ⟨course, hc, -⟩, hrun⟩
  · rw [he] at hok
    cases hok
  · rw [hrun] at hok ⊢
    cases hok
    have hid : course.ID = courseID := by
      unfold CourseRepository.GetByID at hc
      split at hc
      · next c hf =>
        cases hc
        simpa using List.find?_some hf
      · cases hc
    refine ⟨rfl, rfl, rfl, rfl, rfl, h0, ?_, ⟨course, hc, ?_⟩, ?_, ?_, rfl, rfl, rfl, rfl⟩
    · rw [enrolledStore_count, h0]
      simp
    · rw [enrolledStore_getCourse, hc]
      simp [Except.map, countedCourse, hid]
    · simp only [enrolledStore]
      apply List.map_congr_left
      intro c _
      simp [countedCourse]
    · intro id hne
      rw [enrolledStore_getCourse]
      cases hg : CourseRepository.GetByID s id with
      | error err => rfl
      | ok other =>
        have hoid : other.ID = id := by
          unfold CourseRepository.GetByID at hg
          split at hg
          · next c hf =>
            cases hg
            simpa using List.find?_some hf
          · cases hg
        have hne2 : ¬ other.ID = courseID := by rw [hoid]; exact hne
        simp [Except.map, countedCourse, hne2]

/-! ## `EnrollmentService.CompleteCourse` -/

theorem enrollment_find_map (l : List Enrollment) (userID courseID : Nat)
    (g : Enrollment → Enrollment)
    (hu : ∀ e, (g e).UserID = e.UserID) (hc : ∀ e, (g e).CourseID = e.CourseID) :
    (l.map g).find? (fun e => e.UserID == userID && e.CourseID == courseID)
      = (l.find? (fun e => e.UserID == userID && e.CourseID == courseID)).map g := by
  rw [List.find?_map]
  have hfun : ((fun e : Enrollment => e.UserID == userID && e.CourseID == courseID) ∘ g)
      = (fun e : Enrollment => e.UserID == userID && e.CourseID == courseID) := by
    funext e
    simp [hu, hc]
  rw [hfun]

theorem getByUserAndCourse_pair (s : Store) (userID courseID : Nat) (e : Enrollment)
    (h : EnrollmentRepository.GetByUserAndCourse s userID courseID = .ok e) :
    e.UserID = userID ∧ e.CourseID = courseID := by
  unfold EnrollmentRepository.GetByUserAndCourse at h
  split at h
  · next x hf =>
    cases h
    simpa using List.find?_some hf
  · cases h

theorem markAsCompleted_get (s : Store) (now userID courseID : Nat) (finalScore : Int)
    (e : Enrollment) (h : EnrollmentRepository.GetByUserAndCourse s userID courseID = .ok e) :
    EnrollmentRepository.GetByUserAndCourse
        (EnrollmentRepository.MarkAsCompleted s now userID courseID finalScore) userID courseID
      = .ok (completedEnrollment e now finalScore) := by
  have hp := getByUserAndCourse_pair s userID courseID e h
  unfold EnrollmentRepository.GetByUserAndCourse at h ⊢
  unfold EnrollmentRepository.MarkAsCompleted
  simp only
  rw [enrollment_find_map]
  · split at h
    · next x hf =>
      cases h
      rw [hf]
      simp [completedEnrollment, hp.1, hp.2]
    · cases h
  · intro x; split_ifs <;> rfl
  · intro x; split_ifs <;> rfl

theorem markAsCompleted_none (s : Store) (now userID courseID : Nat) (finalScore : Int)
    (err : Error) (h : EnrollmentRepository.GetByUserAndCourse s userID courseID = .error err) :
    EnrollmentRepository.MarkAsCompleted s now userID courseID finalScore = s
    ∧ err = .recordNotFound := by
  unfold EnrollmentRepository.GetByUserAndCourse at h
  split at h
  · cases h
  · next hf =>
    cases h
    refine ⟨?_, rfl⟩
    rw [List.find?_eq_none] at hf
    unfold EnrollmentRepository.MarkAsCompleted
    have hmap : s.enrollments.map (fun e : Enrollment =>
        if (e.UserID == userID && e.CourseID == courseID) = true then
          { e with CompletionStatus := "completed", CompletedAt := some now,
                   FinalScore := finalScore, IsPassed := decide (finalScore ≥ 70),
                   OverallProgress := 100 }
        else e) = s.enrollments := by
      conv_rhs => rw [← List.map_id s.enrollments]
      apply List.map_congr_left
      intro e he
      rw [if_neg (hf e he)]
      rfl
    simp only [hmap]

theorem completeCourse_eq (s : Store) (now userID courseID : Nat) (finalScore : Int)
    (e : Enrollment) (course : Course)
    (he : EnrollmentRepository.GetByUserAndCourse s userID courseID = .ok e)
    (hc : CourseRepository.GetByID s courseID = .ok course) :
    EnrollmentService.CompleteCourse s now userID courseID finalScore
      = (.ok (completedEnrollment e now finalScore),
         CourseRepository.UpdateCompletionCount
           (if finalScore ≥ course.PassingScore then
              awardCompletion (EnrollmentRepository.MarkAsCompleted s now userID courseID finalScore)
                now userID courseID finalScore course
            else EnrollmentRepository.MarkAsCompleted s now userID courseID finalScore)
           courseID 1) := by
  have hc1 : CourseRepository.GetByID
      (EnrollmentRepository.MarkAsCompleted s now userID courseID finalScore) courseID
      = .ok course := hc
  unfold EnrollmentService.CompleteCourse
  simp only [markAsCompleted_get s now userID courseID finalScore e he, hc1]

theorem completeCourse_not_enrolled (s : Store) (now userID courseID : Nat) (finalScore : Int)
    (err : Error) (he : EnrollmentRepository.GetByUserAndCourse s userID courseID = .error err) :
    EnrollmentService.CompleteCourse s now userID courseID finalScore
      = (.error .recordNotFound, s) := by
  obtain ⟨hs, herr⟩ := markAsCompleted_none s now userID courseID finalScore err he
  unfold EnrollmentService.CompleteCourse
  simp only [hs, he, herr]

theorem awardCompletion_users (s : Store) (now userID courseID : Nat) (finalScore : Int)
    (course : Course) :
    (awardCompletion s now userID courseID finalScore course).users
      = creditedUsers s userID course.CoinsReward := by
  unfold awardCompletion CertificateRepository.Create creditedUsers
  simp only
  split_ifs <;> rfl

theorem awardCompletion_ledger (s : Store) (now userID courseID : Nat) (finalScore : Int)
    (course : Course) :
    (awardCompletion s now userID courseID finalScore course).coinTransactions
      = s.coinTransactions ++ [completionTransaction userID course] := by
  unfold awardCompletion CertificateRepository.Create
  simp only
  split_ifs <;> rfl

theorem awardCompletion_certificates (s : Store) (now userID courseID : Nat) (finalScore : Int)
    (course : Course) :
    (awardCompletion s now userID courseID finalScore course).certificates
      = if s.certificates.any
            (fun c => c.CertificateNumber == certificateNumber userID courseID now)
        then s.certificates
        else s.certificates ++ [completionCertificate now userID courseID finalScore] := by
  unfold awardCompletion CertificateRepository.Create
  simp only
  have hcerts : (CoinTransactionRepository.Create
      (UserRepository.UpdateCoins s userID course.CoinsReward)
      { UserID := userID, Amount := course.CoinsReward, TransactionType := "earned",
        Reason := "Course Completion: " ++ course.Title, ReferenceID := some course.ID,
        ReferenceType := "course" }).certificates = s.certificates := rfl
  rw [hcerts]
  split_ifs <;> rfl

theorem certificateNumberFree_iff (s : Store) (now userID courseID : Nat) :
    certificateNumberFree s now userID courseID
      ↔ s.certificates.any
          (fun c => c.CertificateNumber == certificateNumber userID courseID now) = false := by
  unfold certificateNumberFree
  rw [← Bool.not_eq_true, List.any_eq_true]
  simp

theorem awardCompletion_courses (s : Store) (now userID courseID : Nat) (finalScore : Int)
    (course : Course) :
    (awardCompletion s now userID courseID finalScore course).courses = s.courses := by
  unfold awardCompletion CertificateRepository.Create
  simp only
  split_ifs <;> rfl

theorem awardCompletion_enrollments (s : Store) (now userID courseID : Nat) (finalScore : Int)
    (course : Course) :
    (awardCompletion s now userID courseID finalScore course).enrollments = s.enrollments := by
  unfold awardCompletion CertificateRepository.Create
  simp only
  split_ifs <;> rfl

theorem getCourse_id (s : Store) (id : Nat) (course : Course)
    (h : CourseRepository.GetByID s id = .ok course) : course.ID = id := by
  unfold CourseRepository.GetByID at h
  split at h
  · next c hf =>
    cases h
    simpa using List.find?_some hf
  · cases h

theorem updateCompletionCount_get (s : Store) (courseID : Nat) (course : Course)
    (h : CourseRepository.GetByID s courseID = .ok course) :
    CourseRepository.GetByID (CourseRepository.UpdateCompletionCount s courseID 1) courseID
      = .ok { course with CompletionCount := course.CompletionCount + 1 } := by
  have hid := getCourse_id s courseID course h
  unfold CourseRepository.GetByID at h ⊢
  unfold CourseRepository.UpdateCompletionCount
  simp only [List.find?_map]
  have hfun : ((fun c : Course => c.ID == courseID) ∘ (fun c : Course =>
      if (c.ID == courseID) = true then { c with CompletionCount := c.CompletionCount + 1 }
      else c)) = (fun c : Course => c.ID == courseID) := by
    funext c
    simp only [Function.comp]
    split_ifs <;> rfl
  rw [hfun]
  split at h
  · next c hf =>
    cases h
    rw [hf]
    simp [hid]
  · cases h

theorem creditedUsers_get (s : Store) (userID : Nat) (amount : Int) (s1 : Store)
    (hs : s1.users = creditedUsers s userID amount) (user : User)
    (h : UserRepository.GetByID s userID = .ok user) :
    UserRepository.GetByID s1 userID
      = .ok { user with GMFCCoins := user.GMFCCoins + amount } := by
  have hid : user.ID = userID := by
    unfold UserRepository.GetByID at h
    split at h
    · next c hf =>
      cases h
      simpa using List.find?_some hf
    · cases h
  unfold UserRepository.GetByID at h ⊢
  rw [hs]
  unfold creditedUsers UserRepository.UpdateCoins
  simp only [List.find?_map]
  have hfun : ((fun u : User => u.ID == userID) ∘ (fun u : User =>
      if (u.ID == userID) = true then { u with GMFCCoins := u.GMFCCoins + amount } else u))
      = (fun u : User => u.ID == userID) := by
    funext u
    simp only [Function.comp]
    split_ifs <;> rfl
  rw [hfun]
  split at h
  · next c hf =>
    cases h
    rw [hf]
    simp [hid]
  · cases h

/-- C11 fails on the code for a course whose passing score is not 70: user 7
completes the course with passing score 80 with 75 points and the enrollment is
stored as passed although 75 < 80 (and no coins are paid); the same user
completes the course with passing score 60 with 65 points and the enrollment is
stored as not passed although 65 >= 60 (and the 40 coins are paid). Status,
final score and progress are set as claimed. -/
theorem completeCourse_isPassed_hardcoded :
    (EnrollmentService.CompleteCourse completionStore 1000 7 9 75).1
      = .ok { ID := 1, UserID := 7, CourseID := 9, CompletionStatus := "completed",
              CompletedAt := some 1000, FinalScore := 75, OverallProgress := 100,
              IsPassed := true }
    ∧ ¬ ((75 : Int) ≥ strictCourse.PassingScore)
    ∧ (EnrollmentService.CompleteCourse completionStore 1000 7 9 75).2.users
        = [{ ID := 7, GMFCCoins := 50 }]
    ∧ (EnrollmentService.CompleteCourse completionStore 1000 7 10 65).1
        = .ok { ID := 2, UserID := 7, CourseID := 10, CompletionStatus := "completed",
                CompletedAt := some 1000, FinalScore := 65, OverallProgress := 100,
                IsPassed := false }
    ∧ (65 : Int) ≥ lenientCourse.PassingScore
    ∧ (EnrollmentService.CompleteCourse completionStore 1000 7 10 65).2.users
        = [{ ID := 7, GMFCCoins := 90 }] :=
  ⟨by rfl, by decide, by rfl, by rfl, by decide, by rfl⟩

theorem completeCourse_store (s : Store) (now userID courseID : Nat) (finalScore : Int)
    (e : Enrollment) (course : Course)
    (he : EnrollmentRepository.GetByUserAndCourse s userID courseID = .ok e)
    (hc : CourseRepository.GetByID s courseID = .ok course) :
    (EnrollmentService.CompleteCourse s now userID courseID finalScore).2.users
        = (if finalScore ≥ course.PassingScore then creditedUsers s userID course.CoinsReward
           else s.users)
    ∧ (EnrollmentService.CompleteCourse s now userID courseID finalScore).2.coinTransactions
        = (if finalScore ≥ course.PassingScore
           then s.coinTransactions ++ [completionTransaction userID course]
           else s.coinTransactions)
    ∧ (EnrollmentService.CompleteCourse s now userID courseID finalScore).2.certificates
        = (if finalScore ≥ course.PassingScore
              ∧ s.certificates.any
                  (fun c => c.CertificateNumber == certificateNumber userID courseID now) = false
           then s.certificates ++ [completionCertificate now userID courseID finalScore]
           else s.certificates)
    ∧ CourseRepository.GetByID
        (EnrollmentService.CompleteCourse s now userID courseID finalScore).2 courseID
        = .ok { course with CompletionCount := course.CompletionCount + 1 }
    ∧ (EnrollmentService.CompleteCourse s now userID courseID finalScore).2.enrollments
        = (EnrollmentRepository.MarkAsCompleted s now userID courseID finalScore).enrollments := by
  rw [completeCourse_eq s now userID courseID finalScore e course he hc]
  by_cases hp : finalScore ≥ course.PassingScore
  · rw [if_pos hp, if_pos hp, if_pos hp]
    refine ⟨?_, ?_, ?_, ?_, ?_⟩
    · exact awardCompletion_users _ now userID courseID finalScore course
    · exact awardCompletion_ledger _ now userID courseID finalScore course
    · have h := awardCompletion_certificates
        (EnrollmentRepository.MarkAsCompleted s now userID courseID finalScore)
        now userID courseID finalScore course
      have hsame : (EnrollmentRepository.MarkAsCompleted s now userID courseID
          finalScore).certificates = s.certificates := rfl
      rw [hsame] at h
      show (awardCompletion _ now userID courseID finalScore course).certificates = _
      rw [h]
      cases hany : s.certificates.any
        (fun c => c.CertificateNumber == certificateNumber userID courseID now)
      · rw [if_neg (by simp), if_pos ⟨hp, rfl⟩]
      · rw [if_pos rfl, if_neg (by simp)]
    · apply updateCompletionCount_get
      unfold CourseRepository.GetByID
      rw [awardCompletion_courses]
      exact hc
    · exact awardCompletion_enrollments _ now userID courseID finalScore course
  · rw [if_neg hp, if_neg hp, if_neg hp, if_neg (fun h => hp h.1)]
    exact ⟨rfl, rfl, rfl, updateCompletionCount_get _ courseID course hc, rfl⟩

/-! ### Repeated completion -/

theorem completeCourse_no_course (s : Store) (now userID courseID : Nat) (finalScore : Int)
    (e : Enrollment) (err : Error)
    (he : EnrollmentRepository.GetByUserAndCourse s userID courseID = .ok e)
    (hc : CourseRepository.GetByID s courseID = .error err) :
    EnrollmentService.CompleteCourse s now userID courseID finalScore
      = (.error err, EnrollmentRepository.MarkAsCompleted s now userID courseID finalScore) := by
  have hc1 : CourseRepository.GetByID
      (EnrollmentRepository.MarkAsCompleted s now userID courseID finalScore) courseID
      = .error err := hc
  unfold EnrollmentService.CompleteCourse
  simp only [markAsCompleted_get s now userID courseID finalScore e he, hc1]

theorem completeCourse_certificates_cases (s : Store) (now userID courseID : Nat)
    (finalScore : Int) :
    (EnrollmentService.CompleteCourse s now userID courseID finalScore).2.certificates
        = s.certificates
    ∨ (certificateNumberFree s now userID courseID
        ∧ (EnrollmentService.CompleteCourse s now userID courseID finalScore).2.certificates
          = s.certificates ++ [completionCertificate now userID courseID finalScore]) := by
  cases he : EnrollmentRepository.GetByUserAndCourse s userID courseID with
  | error err =>
    rw [completeCourse_not_enrolled s now userID courseID finalScore err he]
    exact Or.inl rfl
  | ok e =>
    cases hc : CourseRepository.GetByID s courseID with
    | error err =>
      rw [completeCourse_no_course s now userID courseID finalScore e err he hc]
      exact Or.inl rfl
    | ok course =>
      obtain ⟨-, -, hcerts, -, -⟩ :=
        completeCourse_store s now userID courseID finalScore e course he hc
      rw [hcerts]
      split_ifs with h
      · exact Or.inr ⟨(certificateNumberFree_iff s now userID courseID).mpr h.2, rfl⟩
      · exact Or.inl rfl

theorem completeCourse_numbers_nodup (s : Store) (now userID courseID : Nat) (finalScore : Int)
    (h : (certificateNumbers s).Nodup) :
    (certificateNumbers
      (EnrollmentService.CompleteCourse s now userID courseID finalScore).2).Nodup := by
  rcases completeCourse_certificates_cases s now userID courseID finalScore with hsame | ⟨hfree, happ⟩
  · unfold certificateNumbers at h ⊢
    rw [hsame]
    exact h
  · unfold certificateNumbers at h ⊢
    rw [happ, List.map_append, List.nodup_append]
    refine ⟨h, by simp, ?_⟩
    intro a ha hb
    simp only [List.map_cons, List.map_nil, List.mem_singleton] at hb
    rw [List.mem_map] at ha
    obtain ⟨c, hc, hca⟩ := ha
    rw [hb] at hca
    exact hfree c hc hca

theorem runCompleteCourses_numbers_nodup (calls : List CompleteCall) :
    ∀ s : Store, (certificateNumbers s).Nodup →
      (certificateNumbers (runCompleteCourses s calls)).Nodup := by
  induction calls with
  | nil => intro s h; exact h
  | cons c rest ih =>
    intro s h
    exact ih _ (completeCourse_numbers_nodup s c.now c.userID c.courseID c.finalScore h)

/-- C13 fails on the code: user 7 completes the course with reward 150 twice
with 85 points, at seconds 1000 and 2000. The pair then holds two certificates
and the reward was credited twice (50 coins before, 350 after). -/
theorem completeCourse_repeated_counterexample :
    certificatesOf completionStore 7 11 = 0
    ∧ UserRepository.GetByID completionStore 7 = .ok { ID := 7, GMFCCoins := 50 }
    ∧ rewardCourse.CoinsReward = 150
    ∧ certificatesOf
        (runCompleteCourses completionStore [⟨1000, 7, 11, 85⟩, ⟨2000, 7, 11, 85⟩]) 7 11 = 2
    ∧ UserRepository.GetByID
        (runCompleteCourses completionStore [⟨1000, 7, 11, 85⟩, ⟨2000, 7, 11, 85⟩]) 7
        = .ok { ID := 7, GMFCCoins := 350 }
    ∧ (runCompleteCourses completionStore
        [⟨1000, 7, 11, 85⟩, ⟨2000, 7, 11, 85⟩]).coinTransactions.length = 2 :=
  ⟨by rfl, by rfl, by rfl, by rfl, by rfl, by rfl⟩

/-! ## `EnrollmentService.UpdateProgress` and `EnrollmentService.StartCourse` -/

theorem updateProgress_valid (s : Store) (userID courseID : Nat) (progress : Int)
    (h : 0 ≤ progress ∧ progress ≤ 100) :
    EnrollmentService.UpdateProgress s userID courseID progress
      = (.ok (), EnrollmentRepository.UpdateProgress s userID courseID progress) := by
  unfold EnrollmentService.UpdateProgress
  rw [if_neg]
  omega

theorem updateProgress_invalid (s : Store) (userID courseID : Nat) (progress : Int)
    (h : progress < 0 ∨ progress > 100) :
    EnrollmentService.UpdateProgress s userID courseID progress = (.error .invalidRange, s) := by
  unfold EnrollmentService.UpdateProgress
  rw [if_pos h]

/-- C14: `EnrollmentService.UpdateProgress` fails with the invalid-range error
exactly when `progress < 0` or `progress > 100`, and then leaves the store as it
was; for `0 <= progress <= 100` it succeeds, sets `overall_progress` of the
enrollment rows of (user, course) to `progress`, and changes no other column, no
other enrollment and no other table. -/
theorem updateProgress_range (s : Store) (userID courseID : Nat) (progress : Int) :
    ((EnrollmentService.UpdateProgress s userID courseID progress).1 = .error .invalidRange
        ↔ progress < 0 ∨ progress > 100)
    ∧ (progress < 0 ∨ progress > 100 →
        (EnrollmentService.UpdateProgress s userID courseID progress).2 = s)
    ∧ (0 ≤ progress ∧ progress ≤ 100 →
        (EnrollmentService.UpdateProgress s userID courseID progress).1 = .ok ()
        ∧ (EnrollmentService.UpdateProgress s userID courseID progress).2.enrollments
          = s.enrollments.map (fun e =>
              if e.UserID = userID ∧ e.CourseID = courseID
              then { e with OverallProgress := progress } else e)
        ∧ { (EnrollmentService.UpdateProgress s userID courseID progress).2 with
            enrollments := s.enrollments } = s) := by
  refine ⟨?_, ?_, ?_⟩
  · constructor
    · intro h
      by_contra hn
      rw [updateProgress_valid s userID courseID progress (by omega)] at h
      cases h
    · intro h
      rw [updateProgress_invalid s userID courseID progress h]
  · intro h
    rw [updateProgress_invalid s userID courseID progress h]
  · intro h
    rw [updateProgress_valid s userID courseID progress h]
    refine ⟨rfl, ?_, rfl⟩
    unfold EnrollmentRepository.UpdateProgress
    simp only
    apply List.map_congr_left
    intro e _
    simp

/-- C14, evaluated on the example store: progress 40 on course 9 is accepted and
touches only that enrollment; progress 101 is rejected. -/
theorem updateProgress_range_witness :
    (EnrollmentService.UpdateProgress completionStore 7 9 40).2.enrollments
      = [{ ID := 1, UserID := 7, CourseID := 9, OverallProgress := 40 },
         { ID := 2, UserID := 7, CourseID := 10 }, { ID := 3, UserID := 7, CourseID := 11 }]
    ∧ EnrollmentService.UpdateProgress completionStore 7 9 101
        = (.error .invalidRange, completionStore) := by
  have h := updateProgress_range completionStore 7 9 40
  have h2 := updateProgress_range completionStore 7 9 101
  refine ⟨?_, ?_⟩
  · rw [(h.2.2 (by decide)).2.1]
    rfl
  · exact Prod.ext (h2.1.mpr (by decide)) (h2.2.1 (by decide))

/-- C15 fails on the code: the enrollment of user 7 in course 11 is completed
(status `completed`, completed at second 1000, progress 100); a `StartCourse`
call at second 2000 succeeds and leaves it with status `in_progress`. -/
theorem startCourse_completed_counterexample :
    EnrollmentRepository.GetByUserAndCourse completedStore 7 11
      = .ok { ID := 3, UserID := 7, CourseID := 11, CompletionStatus := "completed",
              CompletedAt := some 1000, FinalScore := 85, IsPassed := true,
              OverallProgress := 100 }
    ∧ (EnrollmentService.StartCourse completedStore 2000 7 11).1 = .ok ()
    ∧ EnrollmentRepository.GetByUserAndCourse
        (EnrollmentService.StartCourse completedStore 2000 7 11).2 7 11
      = .ok { ID := 3, UserID := 7, CourseID := 11, CompletionStatus := "in_progress",
              CompletedAt := some 1000, LastAccessedAt := some 2000, FinalScore := 85,
              IsPassed := true, OverallProgress := 100 } :=
  ⟨by rfl, by rfl, by rfl⟩

/-- C15 as amended: `EnrollmentService.UpdateProgress` never changes the
completion status of any enrollment, so a completed enrollment stays completed
under it; `EnrollmentService.StartCourse` always succeeds and sets the status of
every enrollment of (user, course) to `in_progress` and `last_accessed_at` to
the time of the call, whatever the status was, a completed enrollment included,
and leaves every other enrollment as it was. -/
theorem startCourse_updateProgress_status (s : Store) (now userID courseID : Nat)
    (progress : Int) :
    (EnrollmentService.UpdateProgress s userID courseID progress).2.enrollments.map
        (fun e => e.CompletionStatus)
      = s.enrollments.map (fun e => e.CompletionStatus)
    ∧ (EnrollmentService.StartCourse s now userID courseID).1 = .ok ()
    ∧ (EnrollmentService.StartCourse s now userID courseID).2.enrollments
      = s.enrollments.map (fun e =>
          if e.UserID = userID ∧ e.CourseID = courseID then startedEnrollment e now else e)
    ∧ (∀ e ∈ s.enrollments, e.UserID = userID → e.CourseID = courseID →
        e.CompletionStatus = "completed" →
        startedEnrollment e now ∈ (EnrollmentService.StartCourse s now userID courseID).2.enrollments
        ∧ (startedEnrollment e now).CompletionStatus = "in_progress") := by
  have hstart : (EnrollmentService.StartCourse s now userID courseID).2.enrollments
      = s.enrollments.map (fun e =>
          if e.UserID = userID ∧ e.CourseID = courseID then startedEnrollment e now else e) := by
    unfold EnrollmentService.StartCourse EnrollmentRepository.MarkAsStarted
    simp only
    apply List.map_congr_left
    intro e _
    simp [startedEnrollment]
  refine ⟨?_, rfl, hstart, ?_⟩
  · by_cases h : progress < 0 ∨ progress > 100
    · rw [updateProgress_invalid s userID courseID progress h]
    · rw [updateProgress_valid s userID courseID progress (by omega)]
      unfold EnrollmentRepository.UpdateProgress
      simp only [List.map_map]
      apply List.map_congr_left
      intro e _
      simp only [Function.comp]
      split_ifs <;> rfl
  · intro e he hu hc _
    refine ⟨?_, rfl⟩
    rw [hstart, List.mem_map]
    exact ⟨e, he, by rw [if_pos ⟨hu, hc⟩]⟩

/-- C15 as amended, evaluated on the completed example enrollment. -/
theorem startCourse_updateProgress_status_witness :
    (EnrollmentService.UpdateProgress completedStore 7 11 50).2.enrollments.map
        (fun e => e.CompletionStatus) = ["not_started", "not_started", "completed"]
    ∧ (EnrollmentService.StartCourse completedStore 2000 7 11).2.enrollments.map
        (fun e => e.CompletionStatus) = ["not_started", "not_started", "in_progress"] := by
  have h := startCourse_updateProgress_status completedStore 2000 7 11 50
  refine ⟨?_, ?_⟩
  · rw [h.1]; rfl
  · rw [h.2.2.1]; rfl

/-! ### Consistency of status, progress and completion time -/

theorem completeCourse_enrollments (s : Store) (now userID courseID : Nat) (finalScore : Int) :
    (EnrollmentService.CompleteCourse s now userID courseID finalScore).2.enrollments
      = (EnrollmentRepository.MarkAsCompleted s now userID courseID finalScore).enrollments := by
  cases he : EnrollmentRepository.GetByUserAndCourse s userID courseID with
  | error err =>
    rw [completeCourse_not_enrolled s now userID courseID finalScore err he,
      (markAsCompleted_none s now userID courseID finalScore err he).1]
  | ok e =>
    cases hc : CourseRepository.GetByID s courseID with
    | error err => rw [completeCourse_no_course s now userID courseID finalScore e err he hc]
    | ok course =>
      exact (completeCourse_store s now userID courseID finalScore e course he hc).2.2.2.2

theorem applyEnrollmentOp_wellFormed (s : Store) (op : EnrollmentOp)
    (h : ∀ e ∈ s.enrollments, enrollmentWellFormed e) :
    ∀ e ∈ (applyEnrollmentOp s op).enrollments, enrollmentWellFormed e := by
  cases op with
  | enroll now userID courseID =>
    simp only [applyEnrollmentOp]
    rcases enrollUser_cases s now userID courseID with ⟨err, he⟩ | ⟨-, -, hok⟩
    · rw [he]; exact h
    · rw [hok]
      intro e he
      simp only [enrolledStore, List.mem_append, List.mem_singleton] at he
      rcases he with he | he
      · exact h e he
      · rw [he]
        refine ⟨by simp [enrolledRow], by simp [enrolledRow], Or.inl rfl, ?_⟩
        intro hcompleted
        simp [enrolledRow] at hcompleted
  | start now userID courseID =>
    simp only [applyEnrollmentOp, EnrollmentService.StartCourse,
      EnrollmentRepository.MarkAsStarted]
    intro e he
    rw [List.mem_map] at he
    obtain ⟨x, hx, hxe⟩ := he
    obtain ⟨h0, h100, -, -⟩ := h x hx
    split_ifs at hxe
    · rw [← hxe]
      refine ⟨h0, h100, Or.inr (Or.inl rfl), ?_⟩
      intro hcompleted
      simp at hcompleted
    · rw [← hxe]; exact h x hx
  | progress userID courseID value =>
    simp only [applyEnrollmentOp]
    by_cases hv : value < 0 ∨ value > 100
    · rw [updateProgress_invalid s userID courseID value hv]; exact h
    · rw [updateProgress_valid s userID courseID value (by omega)]
      simp only [EnrollmentRepository.UpdateProgress]
      intro e he
      rw [List.mem_map] at he
      obtain ⟨x, hx, hxe⟩ := he
      obtain ⟨-, -, hstatus, hat⟩ := h x hx
      split_ifs at hxe
      · rw [← hxe]
        exact ⟨by simp only; omega, by simp only; omega, hstatus, hat⟩
      · rw [← hxe]; exact h x hx
  | complete now userID courseID finalScore =>
    simp only [applyEnrollmentOp]
    rw [completeCourse_enrollments]
    simp only [EnrollmentRepository.MarkAsCompleted]
    intro e he
    rw [List.mem_map] at he
    obtain ⟨x, hx, hxe⟩ := he
    split_ifs at hxe
    · rw [← hxe]
      exact ⟨by simp, by simp, Or.inr (Or.inr rfl), fun _ => rfl⟩
    · rw [← hxe]; exact h x hx

theorem runEnrollmentOps_wellFormed (ops : List EnrollmentOp) :
    ∀ s : Store, (∀ e ∈ s.enrollments, enrollmentWellFormed e) →
      ∀ e ∈ (runEnrollmentOps s ops).enrollments, enrollmentWellFormed e := by
  induction ops with
  | nil => intro s h; exact h
  | cons op rest ih =>
    intro s h
    exact ih _ (applyEnrollmentOp_wellFormed s op h)

/-- C16 fails on the code. From the example store with two courses and no
enrollment: after `EnrollUser` and `UpdateProgress(100)` the enrollment has
progress 100 and status `not_started`; after `EnrollUser`, `CompleteCourse` and
`UpdateProgress(50)` it is completed with progress 50; after `EnrollUser`,
`CompleteCourse` and `StartCourse` it has `completed_at` set and status
`in_progress`. -/
theorem enrollment_consistency_counterexample :
    courseStore.enrollments = []
    ∧ (runEnrollmentOps courseStore [.enroll 1 7 6, .progress 7 6 100]).enrollments
        = [{ ID := 1, UserID := 7, CourseID := 6, EnrolledAt := 1,
             CompletionStatus := "not_started", OverallProgress := 100 }]
    ∧ ¬ completionConsistent
        { ID := 1, UserID := 7, CourseID := 6, EnrolledAt := 1,
          CompletionStatus := "not_started", OverallProgress := 100 }
    ∧ (runEnrollmentOps courseStore
        [.enroll 1 7 6, .complete 2 7 6 85, .progress 7 6 50]).enrollments
        = [{ ID := 1, UserID := 7, CourseID := 6, EnrolledAt := 1,
             CompletionStatus := "completed", CompletedAt := some 2, FinalScore := 85,
             IsPassed := true, OverallProgress := 50 }]
    ∧ (runEnrollmentOps courseStore
        [.enroll 1 7 6, .complete 2 7 6 85, .start 3 7 6]).enrollments
        = [{ ID := 1, UserID := 7, CourseID := 6, EnrolledAt := 1,
             CompletionStatus := "in_progress", CompletedAt := some 2,
             LastAccessedAt := some 3, FinalScore := 85, IsPassed := true,
             OverallProgress := 100 }] := by
  refine ⟨rfl, by rfl, ?_, by rfl, by rfl⟩
  intro h
  have := h.1.mp rfl
  simp at this

/-- C16 as amended: after any sequence of `EnrollUser`, `StartCourse`,
`UpdateProgress` and `CompleteCourse` calls starting from a store without
enrollments, every enrollment has `overall_progress` within 0..100, one of the
statuses `not_started`, `in_progress`, `completed`, and `completed_at` set
whenever its status is `completed`. -/
theorem enrollment_wellFormed_invariant (s : Store) (hempty : s.enrollments = [])
    (ops : List EnrollmentOp) :
    ∀ e ∈ (runEnrollmentOps s ops).enrollments,
      0 ≤ e.OverallProgress ∧ e.OverallProgress ≤ 100
      ∧ (e.CompletionStatus = "not_started" ∨ e.CompletionStatus = "in_progress"
          ∨ e.CompletionStatus = "completed")
      ∧ (e.CompletionStatus = "completed" → e.CompletedAt.isSome = true) := by
  have h0 : ∀ e ∈ s.enrollments, enrollmentWellFormed e := by
    intro e he
    rw [hempty] at he
    cases he
  exact runEnrollmentOps_wellFormed ops s h0

/-- C16 as amended, evaluated on the example run enroll, complete, start: the
enrollment left behind has status `in_progress`, progress 100 and `completed_at`
set, and satisfies the amended predicate. -/
theorem enrollment_wellFormed_invariant_witness :
    courseStore.enrollments = []
    ∧ (runEnrollmentOps courseStore
        [.enroll 1 7 6, .complete 2 7 6 85, .start 3 7 6]).enrollments
        = [{ ID := 1, UserID := 7, CourseID := 6, EnrolledAt := 1,
             CompletionStatus := "in_progress", CompletedAt := some 2,
             LastAccessedAt := some 3, FinalScore := 85, IsPassed := true,
             OverallProgress := 100 }]
    ∧ enrollmentWellFormed
        { ID := 1, UserID := 7, CourseID := 6, EnrolledAt := 1,
          CompletionStatus := "in_progress", CompletedAt := some 2,
          LastAccessedAt := some 3, FinalScore := 85, IsPassed := true,
          OverallProgress := 100 } := by
  have hrun : (runEnrollmentOps courseStore
      [.enroll 1 7 6, .complete 2 7 6 85, .start 3 7 6]).enrollments
      = [{ ID := 1, UserID := 7, CourseID := 6, EnrolledAt := 1,
           CompletionStatus := "in_progress", CompletedAt := some 2,
           LastAccessedAt := some 3, FinalScore := 85, IsPassed := true,
           OverallProgress := 100 }] := by rfl
  refine ⟨rfl, hrun, ?_⟩
  apply enrollment_wellFormed_invariant courseStore rfl
    [.enroll 1 7 6, .complete 2 7 6 85, .start 3 7 6]
  rw [hrun]
  exact List.mem_singleton.mpr rfl

/-! ## `ProgressService.TrackProgress` -/

set_option maxRecDepth 100000 in
/-- C17 fails on the code at `watchedSeconds = 29`, `totalSeconds = 100`:
`float64(29) / float64(100)` is `5224175567749775 * 2^-54`, just below 0.29; its
product with 100 rounds to `8162774324609023 * 2^-48`, just below 29; the
conversion to `int` discards the fraction and `CalculateProgressPercentage`
returns 28, which `TrackProgress` stores, while `floor(29 * 100 / 100)` is 29. -/
theorem calculateProgressPercentage_29_of_100 :
    Binary64.div (Binary64.ofInt 29) (Binary64.ofInt 100)
      = { negative := false, mantissa := 5224175567749775, exponent := -54 }
    ∧ Binary64.mul (Binary64.div (Binary64.ofInt 29) (Binary64.ofInt 100)) (Binary64.ofInt 100)
      = { negative := false, mantissa := 8162774324609023, exponent := -48 }
    ∧ (8162774324609023 : Nat) < 29 * 2 ^ 48
    ∧ CalculateProgressPercentage 29 100 = 28
    ∧ (29 * 100 : Int) / 100 = 29
    ∧ (ProgressService.TrackProgress { } 500 7 5 1 29 100).1
      = .ok { ID := 1, UserID := 7, CourseID := 5, LessonID := 1, WatchedDuration := 29,
              TotalDuration := 100, LastAccessedAt := some 500, ProgressPercentage := 28 } :=
  ⟨by rfl, by rfl, by decide, by rfl, by decide, by rfl⟩

theorem trackProgress_eq (s : Store) (now userID courseID lessonID : Nat)
    (watchedSeconds totalSeconds : Int) :
    ProgressService.TrackProgress s now userID courseID lessonID watchedSeconds totalSeconds
      = (.ok (trackedProgress (fetchedProgress s userID courseID lessonID totalSeconds).1 now
            watchedSeconds totalSeconds),
         UserProgressRepository.Update
           (fetchedProgress s userID courseID lessonID totalSeconds).2
           (trackedProgress (fetchedProgress s userID courseID lessonID totalSeconds).1 now
             watchedSeconds totalSeconds)) := by
  unfold ProgressService.TrackProgress fetchedProgress trackedProgress
  rfl

theorem trackedProgress_fields (base : UserProgress) (now : Nat) (w t : Int) :
    (trackedProgress base now w t).ID = base.ID
    ∧ (trackedProgress base now w t).UserID = base.UserID
    ∧ (trackedProgress base now w t).CourseID = base.CourseID
    ∧ (trackedProgress base now w t).LessonID = base.LessonID
    ∧ (trackedProgress base now w t).WatchedDuration = w
    ∧ (trackedProgress base now w t).TotalDuration = t
    ∧ (trackedProgress base now w t).ProgressPercentage = CalculateProgressPercentage w t
    ∧ (trackedProgress base now w t).LastAccessedAt = some now := by
  unfold trackedProgress
  simp only
  split_ifs <;> exact ⟨rfl, rfl, rfl, rfl, rfl, rfl, rfl, rfl⟩

theorem trackedProgress_completion (base : UserProgress) (now : Nat) (w t : Int) :
    (CalculateProgressPercentage w t ≥ 90 →
      (trackedProgress base now w t).IsCompleted = true
      ∧ (trackedProgress base now w t).CompletedAt = some now)
    ∧ (CalculateProgressPercentage w t < 90 →
      (trackedProgress base now w t).IsCompleted = base.IsCompleted
      ∧ (trackedProgress base now w t).CompletedAt = base.CompletedAt) := by
  unfold trackedProgress
  simp only
  constructor
  · intro h
    rw [if_pos h]
    exact ⟨rfl, rfl⟩
  · intro h
    rw [if_neg (not_le.mpr h)]
    exact ⟨rfl, rfl⟩

theorem progress_find_update (k : UserProgress → Bool) (p : UserProgress) (hk : k p = true)
    (l : List UserProgress) (g : UserProgress) (hfind : l.find? k = some g)
    (hid : p.ID = g.ID) :
    (l.map (fun x => if x.ID == p.ID then p else x)).find? k = some p := by
  induction l with
  | nil => simp at hfind
  | cons x rest ih =>
    rw [List.map_cons]
    by_cases hx : x.ID = p.ID
    · simp [hx, hk]
    · by_cases hkx : k x = true
      · rw [List.find?_cons_of_pos _ hkx] at hfind
        cases hfind
        exact absurd hid.symm hx
      · rw [List.find?_cons_of_neg _ hkx] at hfind
        have hne : (x.ID == p.ID) = false := by simpa using hx
        simp only [hne]
        rw [List.find?_cons_of_neg _ (by simpa using hkx)]
        exact ih hfind

theorem progress_find_append (k : UserProgress → Bool) (p row : UserProgress) (hk : k p = true)
    (l : List UserProgress) (hnone : l.find? k = none) (hid : p.ID = row.ID) :
    ((l ++ [row]).map (fun x => if x.ID == p.ID then p else x)).find? k = some p := by
  induction l with
  | nil => simp [hid, hk]
  | cons x rest ih =>
    have hkx : ¬ k x = true := by
      intro h
      rw [List.find?_cons_of_pos _ h] at hnone
      cases hnone
    rw [List.find?_cons_of_neg _ hkx] at hnone
    rw [List.cons_append, List.map_cons]
    by_cases hx : x.ID = p.ID
    · simp [hx, hk]
    · have hne : (x.ID == p.ID) = false := by simpa using hx
      simp only [hne]
      rw [List.find?_cons_of_neg _ (by simpa using hkx)]
      exact ih hnone

theorem fetchedProgress_key (s : Store) (userID courseID lessonID : Nat) (t : Int) :
    (fetchedProgress s userID courseID lessonID t).1.UserID = userID
    ∧ (fetchedProgress s userID courseID lessonID t).1.LessonID = lessonID
    ∧ (fetchedProgress s userID courseID lessonID t).1.CourseID = courseID := by
  unfold fetchedProgress UserProgressRepository.GetByUserLessonCourse
  cases hf : s.userProgresses.find?
      (fun p => p.UserID == userID && p.LessonID == lessonID && p.CourseID == courseID) with
  | none => exact ⟨rfl, rfl, rfl⟩
  | some g =>
    have := List.find?_some hf
    simp only [Bool.and_eq_true, beq_iff_eq] at this
    exact ⟨this.1.1, this.1.2, this.2⟩

theorem trackProgress_stored (s : Store) (now userID courseID lessonID : Nat) (w t : Int) :
    UserProgressRepository.GetByUserLessonCourse
        (ProgressService.TrackProgress s now userID courseID lessonID w t).2
        userID lessonID courseID
      = .ok (trackedProgress (fetchedProgress s userID courseID lessonID t).1 now w t) := by
  rw [trackProgress_eq]
  have hkey := fetchedProgress_key s userID courseID lessonID t
  have hf := trackedProgress_fields (fetchedProgress s userID courseID lessonID t).1 now w t
  have hk : (fun p : UserProgress =>
      p.UserID == userID && p.LessonID == lessonID && p.CourseID == courseID)
      (trackedProgress (fetchedProgress s userID courseID lessonID t).1 now w t) = true := by
    simp only [hf.2.1, hf.2.2.1, hf.2.2.2.1, hkey.1, hkey.2.1, hkey.2.2, beq_self_eq_true,
      Bool.and_self]
  unfold UserProgressRepository.GetByUserLessonCourse UserProgressRepository.Update
  simp only
  cases hfind : s.userProgresses.find?
      (fun p => p.UserID == userID && p.LessonID == lessonID && p.CourseID == courseID) with
  | some g =>
    have hfetch : fetchedProgress s userID courseID lessonID t = (g, s) := by
      unfold fetchedProgress UserProgressRepository.GetByUserLessonCourse
      rw [hfind]
    rw [hfetch] at hk hf ⊢
    rw [progress_find_update _ _ hk s.userProgresses g hfind hf.1]
  | none =>
    have hfetch : fetchedProgress s userID courseID lessonID t
        = UserProgressRepository.Create s
            { UserID := userID, CourseID := courseID, LessonID := lessonID,
              TotalDuration := t } := by
      unfold fetchedProgress UserProgressRepository.GetByUserLessonCourse
      rw [hfind]
    rw [hfetch] at hk hf ⊢
    unfold UserProgressRepository.Create at hk hf ⊢
    simp only at hk hf ⊢
    rw [progress_find_append _ _ _ hk s.userProgresses hfind hf.1]

/-- C18: every `ProgressService.TrackProgress` call returns (and stores under
its user, lesson and course) a record whose watched and total duration are the
arguments of the call and whose percentage is the computed one; if that
percentage is at least 90 the record has `is_completed = true` and
`completed_at` set to the time of the call; and if no row existed for (user,
course, lesson) before the call and the percentage is below 90, the record has
`is_completed = false` and no `completed_at`. -/
theorem trackProgress_completion (s : Store) (now userID courseID lessonID : Nat)
    (watchedSeconds totalSeconds : Int) :
    ∃ p : UserProgress,
      (ProgressService.TrackProgress s now userID courseID lessonID watchedSeconds
          totalSeconds).1 = .ok p
      ∧ UserProgressRepository.GetByUserLessonCourse
          (ProgressService.TrackProgress s now userID courseID lessonID watchedSeconds
            totalSeconds).2 userID lessonID courseID = .ok p
      ∧ p.UserID = userID ∧ p.CourseID = courseID ∧ p.LessonID = lessonID
      ∧ p.WatchedDuration = watchedSeconds ∧ p.TotalDuration = totalSeconds
      ∧ p.ProgressPercentage = CalculateProgressPercentage watchedSeconds totalSeconds
      ∧ (p.ProgressPercentage ≥ 90 → p.IsCompleted = true ∧ p.CompletedAt = some now)
      ∧ (UserProgressRepository.GetByUserLessonCourse s userID lessonID courseID
            = .error .recordNotFound →
          p.ProgressPercentage < 90 → p.IsCompleted = false ∧ p.CompletedAt = none) := by
  have hkey := fetchedProgress_key s userID courseID lessonID totalSeconds
  have hf := trackedProgress_fields
    (fetchedProgress s userID courseID lessonID totalSeconds).1 now watchedSeconds totalSeconds
  have hc := trackedProgress_completion
    (fetchedProgress s userID courseID lessonID totalSeconds).1 now watchedSeconds totalSeconds
  refine ⟨trackedProgress (fetchedProgress s userID courseID lessonID totalSeconds).1 now
      watchedSeconds totalSeconds, ?_, trackProgress_stored s now userID courseID lessonID
      watchedSeconds totalSeconds, ?_, ?_, ?_, hf.2.2.2.2.1, hf.2.2.2.2.2.1,
      hf.2.2.2.2.2.2.1, ?_, ?_⟩
  · rw [trackProgress_eq]
  · rw [hf.2.1, hkey.1]
  · rw [hf.2.2.1, hkey.2.2]
  · rw [hf.2.2.2.1, hkey.2.1]
  · intro h
    rw [hf.2.2.2.2.2.2.1] at h
    exact hc.1 h
  · intro hnone hlt
    rw [hf.2.2.2.2.2.2.1] at hlt
    have hfetch : fetchedProgress s userID courseID lessonID totalSeconds
        = UserProgressRepository.Create s
            { UserID := userID, CourseID := courseID, LessonID := lessonID,
              TotalDuration := totalSeconds } := by
      unfold fetchedProgress
      rw [hnone]
    have h := hc.2 hlt
    rw [hfetch] at h ⊢
    exact h

set_option maxRecDepth 100000 in
/-- C18, evaluated on the example store: user 7 had no row for lesson 9 of
course 5; watching 45 of 100 seconds gives an open record, and watching 95 of
100 seconds afterwards completes it at the time of that call. -/
theorem trackProgress_completion_witness :
    UserProgressRepository.GetByUserLessonCourse progressStore 7 9 5 = .error .recordNotFound
    ∧ (∃ p : UserProgress,
        (ProgressService.TrackProgress progressStore 600 7 5 9 45 100).1 = .ok p
        ∧ p.ProgressPercentage = 45 ∧ p.IsCompleted = false ∧ p.CompletedAt = none)
    ∧ (ProgressService.TrackProgress
        (ProgressService.TrackProgress progressStore 600 7 5 9 45 100).2 700 7 5 9 95 100).1
      = .ok { ID := 5, UserID := 7, CourseID := 5, LessonID := 9, WatchedDuration := 95,
              TotalDuration := 100, IsCompleted := true, CompletedAt := some 700,
              LastAccessedAt := some 700, ProgressPercentage := 95 } := by
  obtain ⟨p, hres, -, -, -, -, -, -, hpct, -, hopen⟩ :=
    trackProgress_completion progressStore 600 7 5 9 45 100
  have h45 : CalculateProgressPercentage 45 100 = 45 := by rfl
  rw [h45] at hpct
  have hflags := hopen rfl (by rw [hpct]; decide)
  exact ⟨rfl, ⟨p, hres, hpct, hflags.1, hflags.2⟩, by rfl⟩

/-! ## `ProgressService.CalculateCourseProgress` -/

theorem wrapInt64_add (a b : Int) : wrapInt64 (wrapInt64 a + b) = wrapInt64 (a + b) := by
  unfold wrapInt64
  have h : (a + 2 ^ 63) % 2 ^ 64 - 2 ^ 63 + b + 2 ^ 63 = (a + 2 ^ 63) % 2 ^ 64 + b := by ring
  rw [h, Int.emod_add_emod]
  congr 2
  ring

theorem wrapInt64_of_range (x : Int) (h : -2 ^ 63 ≤ x ∧ x < 2 ^ 63) : wrapInt64 x = x := by
  unfold wrapInt64
  rw [Int.emod_eq_of_lt (by omega) (by omega)]
  ring

theorem totalProgressLoop_eq_sum (l : List UserProgress) (acc : Int) :
    totalProgressLoop l (wrapInt64 acc)
      = wrapInt64 (acc + (l.map (fun p => p.ProgressPercentage)).sum) := by
  induction l generalizing acc with
  | nil => simp [totalProgressLoop]
  | cons p rest ih =>
    rw [totalProgressLoop, wrapInt64_add, ih]
    simp only [List.map_cons, List.sum_cons]
    congr 1
    ring

theorem getUserCourseProgress_perm (s : Store) (userID courseID : Nat) :
    ((UserProgressRepository.GetUserCourseProgress s userID courseID).map
        (fun p => p.ProgressPercentage)).Perm (coursePercentages s userID courseID) := by
  unfold UserProgressRepository.GetUserCourseProgress coursePercentages
  exact (List.mergeSort_perm _ _).map _

theorem calculateCourseProgress_eq (s : Store) (userID courseID : Nat) :
    ProgressService.CalculateCourseProgress s userID courseID
      = if (coursePercentages s userID courseID).length = 0 then 0
        else (wrapInt64 (coursePercentages s userID courseID).sum).tdiv
          ((coursePercentages s userID courseID).length : Nat) := by
  have hperm := getUserCourseProgress_perm s userID courseID
  have hlen : (UserProgressRepository.GetUserCourseProgress s userID courseID).length
      = (coursePercentages s userID courseID).length := by
    rw [← hperm.length_eq, List.length_map]
  have hzero : (0 : Int) = wrapInt64 0 := by decide
  unfold ProgressService.CalculateCourseProgress
  simp only
  rw [hzero, totalProgressLoop_eq_sum, zero_add, hlen, hperm.sum_eq]

theorem sum_ge_of_forall_ge (l : List Int) (lo : Int) (h : ∀ x ∈ l, lo ≤ x) :
    lo * (l.length : Nat) ≤ l.sum := by
  induction l with
  | nil => simp
  | cons x rest ih =>
    have hx := h x (List.mem_cons_self x rest)
    have hrest := ih (fun y hy => h y (List.mem_cons_of_mem x hy))
    simp only [List.length_cons, List.sum_cons]
    push_cast
    linarith

theorem sum_le_of_forall_le (l : List Int) (hi : Int) (h : ∀ x ∈ l, x ≤ hi) :
    l.sum ≤ hi * (l.length : Nat) := by
  induction l with
  | nil => simp
  | cons x rest ih =>
    have hx := h x (List.mem_cons_self x rest)
    have hrest := ih (fun y hy => h y (List.mem_cons_of_mem x hy))
    simp only [List.length_cons, List.sum_cons]
    push_cast
    linarith

/-! ## `GamificationService.AwardCoins` -/

theorem creditedUsers_get_other (s : Store) (userID : Nat) (amount : Int) (s1 : Store)
    (hs : s1.users = creditedUsers s userID amount) (other : Nat) (hne : other ≠ userID) :
    UserRepository.GetByID s1 other = UserRepository.GetByID s other := by
  unfold UserRepository.GetByID
  rw [hs]
  unfold creditedUsers UserRepository.UpdateCoins
  simp only [List.find?_map]
  have hfun : ((fun u : User => u.ID == other) ∘ (fun u : User =>
      if (u.ID == userID) = true then { u with GMFCCoins := u.GMFCCoins + amount } else u))
      = (fun u : User => u.ID == other) := by
    funext u
    simp only [Function.comp]
    split_ifs <;> rfl
  rw [hfun]
  cases hf : s.users.find? (fun u => u.ID == other) with
  | none => rfl
  | some u =>
    have hid : u.ID = other := by simpa using List.find?_some hf
    have hne2 : ¬ u.ID = userID := by rw [hid]; exact hne
    simp [hne2]

/-- C20: `GamificationService.AwardCoins` fails with the invalid-amount error
exactly when `amount <= 0`, and then leaves the store (balances and ledger) as
it was; for `amount > 0` it succeeds, raises the cached balance of the user by
exactly `amount`, leaves every other balance as it was, appends exactly one
ledger row with that user and amount, type `earned` and the given reason and
reference, and changes nothing else. -/
theorem awardCoins_effect (s : Store) (userID : Nat) (amount : Int)
    (reason referenceType : String) (referenceID : Option Nat) :
    ((GamificationService.AwardCoins s userID amount reason referenceType referenceID).1
        = .error .invalidAmount ↔ amount ≤ 0)
    ∧ (amount ≤ 0 →
        (GamificationService.AwardCoins s userID amount reason referenceType referenceID).2 = s)
    ∧ (0 < amount →
        (GamificationService.AwardCoins s userID amount reason referenceType referenceID).1
          = .ok ()
        ∧ (GamificationService.AwardCoins s userID amount reason referenceType referenceID).2.users
          = creditedUsers s userID amount
        ∧ (∀ user : User, UserRepository.GetByID s userID = .ok user →
            UserRepository.GetByID
                (GamificationService.AwardCoins s userID amount reason referenceType
                  referenceID).2 userID
              = .ok { user with GMFCCoins := user.GMFCCoins + amount })
        ∧ (∀ other : Nat, other ≠ userID →
            UserRepository.GetByID
                (GamificationService.AwardCoins s userID amount reason referenceType
                  referenceID).2 other
              = UserRepository.GetByID s other)
        ∧ (GamificationService.AwardCoins s userID amount reason referenceType
            referenceID).2.coinTransactions
          = s.coinTransactions ++
              [{ UserID := userID, Amount := amount, TransactionType := "earned",
                 Reason := reason, ReferenceType := referenceType,
                 ReferenceID := referenceID }]
        ∧ { (GamificationService.AwardCoins s userID amount reason referenceType
              referenceID).2 with
            users := s.users, coinTransactions := s.coinTransactions } = s) := by
  have hbad : amount ≤ 0 →
      GamificationService.AwardCoins s userID amount reason referenceType referenceID
        = (.error .invalidAmount, s) := by
    intro h
    unfold GamificationService.AwardCoins
    rw [if_pos h]
  have hgood : 0 < amount →
      GamificationService.AwardCoins s userID amount reason referenceType referenceID
        = (.ok (), CoinTransactionRepository.Create (UserRepository.UpdateCoins s userID amount)
            { UserID := userID, Amount := amount, TransactionType := "earned",
              Reason := reason, ReferenceType := referenceType,
              ReferenceID := referenceID }) := by
    intro h
    unfold GamificationService.AwardCoins
    rw [if_neg (not_le.mpr h)]
  refine ⟨?_, ?_, ?_⟩
  · constructor
    · intro h
      by_contra hn
      rw [hgood (by omega)] at h
      cases h
    · intro h
      rw [hbad h]
  · intro h
    rw [hbad h]
  · intro h
    rw [hgood h]
    refine ⟨rfl, rfl, ?_, ?_, rfl, rfl⟩
    · intro user hu
      exact creditedUsers_get s userID amount _ rfl user hu
    · intro other hne
      exact creditedUsers_get_other s userID amount _ rfl other hne

/-- C20, evaluated on the example store: awarding 25 coins to user 7 raises the
balance from 50 to 75 and appends one ledger row; awarding 0 coins is rejected. -/
theorem awardCoins_effect_witness :
    UserRepository.GetByID completionStore 7 = .ok { ID := 7, GMFCCoins := 50 }
    ∧ UserRepository.GetByID
        (GamificationService.AwardCoins completionStore 7 25 "Bonus" "course" (some 9)).2 7
      = .ok { ID := 7, GMFCCoins := 75 }
    ∧ (GamificationService.AwardCoins completionStore 7 25 "Bonus" "course"
        (some 9)).2.coinTransactions
      = [{ UserID := 7, Amount := 25, TransactionType := "earned", Reason := "Bonus",
           ReferenceType := "course", ReferenceID := some 9 }]
    ∧ GamificationService.AwardCoins completionStore 7 0 "Bonus" "course" (some 9)
      = (.error .invalidAmount, completionStore) := by
  have h := awardCoins_effect completionStore 7 25 "Bonus" "course" (some 9)
  have h0 := awardCoins_effect completionStore 7 0 "Bonus" "course" (some 9)
  obtain ⟨-, -, hpos⟩ := h
  obtain ⟨-, -, hbal, -, hledger, -⟩ := hpos (by decide)
  refine ⟨rfl, ?_, ?_, ?_⟩
  · rw [hbal { ID := 7, GMFCCoins := 50 } rfl]
    rfl
  · rw [hledger]; rfl
  · exact Prod.ext (h0.1.mpr (by decide)) (h0.2.1 (by decide))

/-! ### The computed percentage of non-negative durations is not negative -/

/-! ## `GamificationService.SpendCoins` -/

theorem spendCoins_invalid (s : Store) (userID : Nat) (amount : Int) (reason : String)
    (h : amount ≤ 0) :
    GamificationService.SpendCoins s userID amount reason = (.error .invalidAmount, s) := by
  unfold GamificationService.SpendCoins
  rw [if_pos h]

theorem spendCoins_no_user (s : Store) (userID : Nat) (amount : Int) (reason : String)
    (err : Error) (h : 0 < amount) (hu : UserRepository.GetByID s userID = .error err) :
    GamificationService.SpendCoins s userID amount reason = (.error err, s) := by
  unfold GamificationService.SpendCoins
  rw [if_neg (not_le.mpr h)]
  simp only [hu]

theorem spendCoins_of_user (s : Store) (userID : Nat) (amount : Int) (reason : String)
    (user : User) (h : 0 < amount) (hu : UserRepository.GetByID s userID = .ok user) :
    GamificationService.SpendCoins s userID amount reason
      = if user.GMFCCoins < amount then (.error .insufficientCoins, s)
        else (.ok (), CoinTransactionRepository.Create
            (UserRepository.UpdateCoins s userID (-amount))
            (spendTransaction userID amount reason)) := by
  unfold GamificationService.SpendCoins
  rw [if_neg (not_le.mpr h)]
  simp only [hu]
  rfl

/-- C21: for `amount > 0` and an existing user, `GamificationService.SpendCoins`
fails with the insufficient-balance error exactly when the balance is below
`amount`, and then leaves the store (balance and ledger) as it was; otherwise it
succeeds, lowers the balance of the user by exactly `amount`, leaves every other
balance as it was, appends exactly one ledger row with amount `-amount` and
type `spent`, and changes nothing else.  With `amount <= 0` it fails with the
invalid-amount error and changes nothing. -/
theorem spendCoins_effect (s : Store) (userID : Nat) (amount : Int) (reason : String)
    (user : User) (hpos : 0 < amount) (hu : UserRepository.GetByID s userID = .ok user) :
    ((GamificationService.SpendCoins s userID amount reason).1 = .error .insufficientCoins
        ↔ user.GMFCCoins < amount)
    ∧ (user.GMFCCoins < amount →
        (GamificationService.SpendCoins s userID amount reason).2 = s)
    ∧ (amount ≤ user.GMFCCoins →
        (GamificationService.SpendCoins s userID amount reason).1 = .ok ()
        ∧ UserRepository.GetByID (GamificationService.SpendCoins s userID amount reason).2 userID
          = .ok { user with GMFCCoins := user.GMFCCoins - amount }
        ∧ (∀ other : Nat, other ≠ userID →
            UserRepository.GetByID (GamificationService.SpendCoins s userID amount reason).2 other
              = UserRepository.GetByID s other)
        ∧ (GamificationService.SpendCoins s userID amount reason).2.coinTransactions
          = s.coinTransactions ++
              [{ UserID := userID, Amount := -amount, TransactionType := "spent",
                 Reason := reason }]
        ∧ { (GamificationService.SpendCoins s userID amount reason).2 with
            users := s.users, coinTransactions := s.coinTransactions } = s)
    ∧ (∀ (s1 : Store) (nonPositive : Int), nonPositive ≤ 0 →
        GamificationService.SpendCoins s1 userID nonPositive reason
          = (.error .invalidAmount, s1)) := by
  have hstep := spendCoins_of_user s userID amount reason user hpos hu
  refine ⟨?_, ?_, ?_, ?_⟩
  · rw [hstep]
    split_ifs with h
    · simp [h]
    · simp [h]
  · intro h
    rw [hstep, if_pos h]
  · intro h
    rw [hstep, if_neg (not_lt.mpr h)]
    refine ⟨rfl, ?_, ?_, rfl, rfl⟩
    · have := creditedUsers_get s userID (-amount) (CoinTransactionRepository.Create
        (UserRepository.UpdateCoins s userID (-amount)) (spendTransaction userID amount reason))
        rfl user hu
      rw [this]
      rfl
    · intro other hne
      exact creditedUsers_get_other s userID (-amount) _ rfl other hne
  · intro s1 nonPositive h
    exact spendCoins_invalid s1 userID nonPositive reason h

/-- C21, evaluated on the example store: with balance 50, spending 100 fails and
changes nothing; spending 20 leaves 30 coins and one more ledger row of -20. -/
theorem spendCoins_effect_witness :
    UserRepository.GetByID ledgerStore 7 = .ok { ID := 7, GMFCCoins := 50 }
    ∧ GamificationService.SpendCoins ledgerStore 7 100 "reward"
        = (.error .insufficientCoins, ledgerStore)
    ∧ UserRepository.GetByID (GamificationService.SpendCoins ledgerStore 7 20 "reward").2 7
        = .ok { ID := 7, GMFCCoins := 30 }
    ∧ (GamificationService.SpendCoins ledgerStore 7 20 "reward").2.coinTransactions
        = ledgerStore.coinTransactions
          ++ [{ UserID := 7, Amount := -20, TransactionType := "spent", Reason := "reward" }] := by
  have h100 := spendCoins_effect ledgerStore 7 100 "reward" { ID := 7, GMFCCoins := 50 }
    (by decide) rfl
  have h20 := spendCoins_effect ledgerStore 7 20 "reward" { ID := 7, GMFCCoins := 50 }
    (by decide) rfl
  obtain ⟨-, hbal, -, hledger, -⟩ := h20.2.2.1 (by decide)
  refine ⟨rfl, Prod.ext (h100.1.mpr (by decide)) (h100.2.1 (by decide)), ?_, hledger⟩
  rw [hbal]
  rfl

/-! ### The ledger invariant -/

theorem ledgerSum_append (s : Store) (row : CoinTransaction) (s1 : Store)
    (h : s1.coinTransactions = s.coinTransactions ++ [row]) (id : Nat) :
    ledgerSum s1 id = ledgerSum s id + (if row.UserID = id then row.Amount else 0) := by
  unfold ledgerSum
  rw [h, List.filter_append, List.map_append, List.sum_append]
  by_cases hid : row.UserID = id
  · simp [hid]
  · have hb : (row.UserID == id) = false := by simpa using hid
    simp [List.filter_cons, hb, hid]

theorem coinWrite_invariant (s : Store) (userID : Nat) (delta : Int) (row : CoinTransaction)
    (hrow : row.UserID = userID ∧ row.Amount = delta)
    (hmatch : balancesMatchLedger s)
    (hnonneg : ∀ user ∈ s.users, 0 ≤ user.GMFCCoins)
    (hkeys : (s.users.map (fun u => u.ID)).Nodup)
    (hroom : ∀ user ∈ s.users, user.ID = userID → 0 ≤ user.GMFCCoins + delta) :
    balancesMatchLedger
        (CoinTransactionRepository.Create (UserRepository.UpdateCoins s userID delta) row)
    ∧ (∀ user ∈ (CoinTransactionRepository.Create
          (UserRepository.UpdateCoins s userID delta) row).users, 0 ≤ user.GMFCCoins)
    ∧ ((CoinTransactionRepository.Create
          (UserRepository.UpdateCoins s userID delta) row).users.map (fun u => u.ID)).Nodup := by
  have husers : (CoinTransactionRepository.Create
      (UserRepository.UpdateCoins s userID delta) row).users
      = s.users.map (fun u =>
          if (u.ID == userID) = true then { u with GMFCCoins := u.GMFCCoins + delta } else u) :=
    rfl
  have hledger : ∀ id, ledgerSum (CoinTransactionRepository.Create
      (UserRepository.UpdateCoins s userID delta) row) id
      = ledgerSum s id + (if row.UserID = id then row.Amount else 0) :=
    ledgerSum_append s row _ rfl
  refine ⟨?_, ?_, ?_⟩
  · intro x' hx'
    rw [husers, List.mem_map] at hx'
    obtain ⟨x, hx, hxx⟩ := hx'
    rw [hledger]
    by_cases hid : x.ID = userID
    · have hb : (x.ID == userID) = true := by simpa using hid
      rw [if_pos hb] at hxx
      rw [← hxx]
      simp only
      rw [hrow.1, hrow.2, if_pos hid.symm, hmatch x hx]
    · have hb : ¬ (x.ID == userID) = true := by simpa using hid
      rw [if_neg hb] at hxx
      rw [← hxx, hrow.1, if_neg (fun h => hid h.symm), add_zero]
      exact hmatch x hx
  · intro x' hx'
    rw [husers, List.mem_map] at hx'
    obtain ⟨x, hx, hxx⟩ := hx'
    by_cases hid : x.ID = userID
    · have hb : (x.ID == userID) = true := by simpa using hid
      rw [if_pos hb] at hxx
      rw [← hxx]
      exact hroom x hx hid
    · have hb : ¬ (x.ID == userID) = true := by simpa using hid
      rw [if_neg hb] at hxx
      rw [← hxx]
      exact hnonneg x hx
  · rw [husers, List.map_map]
    have hfun : ((fun u : User => u.ID) ∘ (fun u : User =>
        if (u.ID == userID) = true then { u with GMFCCoins := u.GMFCCoins + delta } else u))
        = (fun u : User => u.ID) := by
      funext u
      simp only [Function.comp]
      split_ifs <;> rfl
    rw [hfun]
    exact hkeys

theorem applyCoinOp_invariant (s : Store) (op : CoinOp)
    (hmatch : balancesMatchLedger s)
    (hnonneg : ∀ user ∈ s.users, 0 ≤ user.GMFCCoins)
    (hkeys : (s.users.map (fun u => u.ID)).Nodup) :
    balancesMatchLedger (applyCoinOp s op)
    ∧ (∀ user ∈ (applyCoinOp s op).users, 0 ≤ user.GMFCCoins)
    ∧ ((applyCoinOp s op).users.map (fun u => u.ID)).Nodup := by
  cases op with
  | award userID amount reason referenceType referenceID =>
    simp only [applyCoinOp]
    unfold GamificationService.AwardCoins
    split_ifs with h
    · exact ⟨hmatch, hnonneg, hkeys⟩
    · apply coinWrite_invariant s userID amount _ ⟨rfl, rfl⟩ hmatch hnonneg hkeys
      intro user hu _
      have := hnonneg user hu
      omega
  | spend userID amount reason =>
    simp only [applyCoinOp]
    by_cases h : amount ≤ 0
    · rw [spendCoins_invalid s userID amount reason h]
      exact ⟨hmatch, hnonneg, hkeys⟩
    · cases hu : UserRepository.GetByID s userID with
      | error err =>
        rw [spendCoins_no_user s userID amount reason err (by omega) hu]
        exact ⟨hmatch, hnonneg, hkeys⟩
      | ok found =>
        rw [spendCoins_of_user s userID amount reason found (by omega) hu]
        split_ifs with hlow
        · exact ⟨hmatch, hnonneg, hkeys⟩
        · apply coinWrite_invariant s userID (-amount) _ ⟨rfl, rfl⟩ hmatch hnonneg hkeys
          intro user huser hid
          have hfound : found ∈ s.users ∧ found.ID = userID := by
            unfold UserRepository.GetByID at hu
            split at hu
            · next x hf =>
              cases hu
              exact ⟨List.mem_of_find?_eq_some hf, by simpa using List.find?_some hf⟩
            · cases hu
          have hsame : user = found :=
            List.inj_on_of_nodup_map hkeys huser hfound.1 (by rw [hid, hfound.2])
          rw [hsame]
          omega

theorem runCoinOps_invariant (ops : List CoinOp) :
    ∀ s : Store, balancesMatchLedger s → (∀ user ∈ s.users, 0 ≤ user.GMFCCoins) →
      (s.users.map (fun u => u.ID)).Nodup →
      balancesMatchLedger (runCoinOps s ops)
      ∧ (∀ user ∈ (runCoinOps s ops).users, 0 ≤ user.GMFCCoins) := by
  induction ops with
  | nil => intro s h1 h2 _; exact ⟨h1, h2⟩
  | cons op rest ih =>
    intro s h1 h2 h3
    obtain ⟨g1, g2, g3⟩ := applyCoinOp_invariant s op h1 h2 h3
    exact ih _ g1 g2 g3

/-! ## `GamificationService.CheckAndAwardBadges` -/

theorem sameBadgePair (userID badgeID : Nat) (g : BadgeProgress → BadgeProgress)
    (hg : ∀ p, (g p).UserID = p.UserID ∧ (g p).BadgeID = p.BadgeID) :
    ((fun p : BadgeProgress => p.UserID == userID && p.BadgeID == badgeID) ∘ g)
      = (fun p : BadgeProgress => p.UserID == userID && p.BadgeID == badgeID) := by
  funext p
  simp only [Function.comp, (hg p).1, (hg p).2]

theorem markBadgeEarned_find (s : Store) (now userID badgeID bid : Nat) :
    (BadgeProgressRepository.MarkBadgeEarned s now userID badgeID).badgeProgresses.find?
        (fun p => p.UserID == userID && p.BadgeID == bid)
      = (s.badgeProgresses.find? (fun p => p.UserID == userID && p.BadgeID == bid)).map
          (fun p => if p.UserID == userID && p.BadgeID == badgeID then
              { p with IsEarned := true, EarnedAt := some now, Progress := 100 }
            else p) := by
  unfold BadgeProgressRepository.MarkBadgeEarned
  simp only
  rw [List.find?_map, sameBadgePair]
  intro p
  split_ifs <;> exact ⟨rfl, rfl⟩

theorem awardBadge_earned_same (s : Store) (now userID : Nat) (badge : Badge) :
    badgeAlreadyEarned (awardBadge s now userID badge) userID badge.ID = true := by
  unfold badgeAlreadyEarned BadgeProgressRepository.GetUserBadgeProgress awardBadge
  simp only [UserRepository.UpdateBadgeLevel]
  rw [markBadgeEarned_find]
  unfold BadgeProgressRepository.GetUserBadgeProgress
  cases h : s.badgeProgresses.find? (fun p => p.UserID == userID && p.BadgeID == badge.ID) with
  | some p =>
    have hp := List.find?_some h
    simp only [h, Option.map_some']
    rw [if_pos hp]
  | none =>
    simp only [h, BadgeProgressRepository.Create, List.find?_append, Option.none_or,
      List.find?_cons, beq_self_eq_true, Bool.and_self, Option.map_some', if_true]

theorem awardBadge_earned_other (s : Store) (now userID : Nat) (badge : Badge) (bid : Nat)
    (hne : badge.ID ≠ bid) :
    badgeAlreadyEarned (awardBadge s now userID badge) userID bid
      = badgeAlreadyEarned s userID bid := by
  have hb : (badge.ID == bid) = false := by simpa using hne
  unfold badgeAlreadyEarned BadgeProgressRepository.GetUserBadgeProgress awardBadge
  simp only [UserRepository.UpdateBadgeLevel]
  rw [markBadgeEarned_find]
  have hfind : ∀ s1 : Store, s1.badgeProgresses.find?
        (fun p => p.UserID == userID && p.BadgeID == bid)
        = s.badgeProgresses.find? (fun p => p.UserID == userID && p.BadgeID == bid) →
      (match (match Option.map (fun p : BadgeProgress =>
            if (p.UserID == userID && p.BadgeID == badge.ID) = true then
              { p with IsEarned := true, EarnedAt := some now, Progress := 100 }
            else p)
          (s1.badgeProgresses.find? (fun p => p.UserID == userID && p.BadgeID == bid)) with
        | some progress => Except.ok progress
        | none => Except.error Error.recordNotFound) with
      | .ok progress => progress.IsEarned
      | .error _ => false)
      = (match (match s.badgeProgresses.find?
            (fun p => p.UserID == userID && p.BadgeID == bid) with
        | some progress => Except.ok progress
        | none => Except.error Error.recordNotFound) with
      | .ok progress => progress.IsEarned
      | .error _ => false) := by
    intro s1 h1
    rw [h1]
    cases h : s.badgeProgresses.find? (fun p => p.UserID == userID && p.BadgeID == bid) with
    | none => rfl
    | some p =>
      have hp := List.find?_some h
      simp only [Bool.and_eq_true, beq_iff_eq] at hp
      have hnot : ¬ ((p.UserID == userID && p.BadgeID == badge.ID) = true) := by
        simp only [Bool.and_eq_true, beq_iff_eq, not_and]
        intro _ h2
        exact hne (by rw [← h2, hp.2])
      simp only [Option.map_some', if_neg hnot]
  apply hfind
  unfold BadgeProgressRepository.GetUserBadgeProgress
  cases h : s.badgeProgresses.find? (fun p => p.UserID == userID && p.BadgeID == badge.ID) with
  | some p => rfl
  | none =>
    simp only [BadgeProgressRepository.Create, List.find?_append, List.find?_cons, hb,
      Bool.and_false, List.find?_nil, Option.or_none]

theorem checkBadgesLoop_returned (now : Nat) (user : User) (userID : Nat) (bs : List Badge) :
    ∀ s : Store, (∀ b ∈ bs, ∃ met, shouldEarnBadge user b.Criteria = .returned met) →
      (checkBadgesLoop now user userID s bs).1 = .returned () := by
  induction bs with
  | nil => intro s _; rfl
  | cons b rest ih =>
    intro s hok
    have hrest : ∀ b1 ∈ rest, ∃ met, shouldEarnBadge user b1.Criteria = .returned met :=
      fun b1 hb1 => hok b1 (List.mem_cons_of_mem _ hb1)
    obtain ⟨met, hmet⟩ := hok b (List.mem_cons_self _ _)
    rw [checkBadgesLoop]
    split_ifs
    · exact ih s hrest
    · rw [hmet]
      cases met
      · exact ih s hrest
      · exact ih _ hrest

theorem checkBadgesLoop_earned (now : Nat) (user : User) (userID : Nat) (bs : List Badge)
    (bid : Nat) :
    ∀ s : Store, (∀ b ∈ bs, ∃ met, shouldEarnBadge user b.Criteria = .returned met) →
      badgeAlreadyEarned (checkBadgesLoop now user userID s bs).2 userID bid
        = (badgeAlreadyEarned s userID bid
            || bs.any (fun b => b.ID == bid
                && decide (shouldEarnBadge user b.Criteria = .returned true))) := by
  induction bs with
  | nil => intro s _; simp [checkBadgesLoop]
  | cons b rest ih =>
    intro s hok
    have hrest : ∀ b1 ∈ rest, ∃ met, shouldEarnBadge user b1.Criteria = .returned met :=
      fun b1 hb1 => hok b1 (List.mem_cons_of_mem _ hb1)
    obtain ⟨met, hmet⟩ := hok b (List.mem_cons_self _ _)
    rw [checkBadgesLoop, List.any_cons]
    split_ifs with hearned
    · rw [ih s hrest]
      by_cases hid : b.ID = bid
      · rw [← hid, hearned]
        simp
      · have hb : (b.ID == bid) = false := by simpa using hid
        rw [hb]
        simp
    · rw [hmet]
      cases met
      · simp only
        rw [ih s hrest]
        simp
      · simp only
        rw [ih _ hrest]
        by_cases hid : b.ID = bid
        · rw [← hid, awardBadge_earned_same]
          simp
        · have hb : (b.ID == bid) = false := by simpa using hid
          rw [awardBadge_earned_other s now userID b bid hid, hb]
          simp

theorem checkAndAwardBadges_eq (s : Store) (now userID : Nat) (user : User)
    (hget : UserRepository.GetByID s userID = .ok user)
    (hok : ∀ b ∈ s.badges, ∃ met, shouldEarnBadge user b.Criteria = .returned met) :
    GamificationService.CheckAndAwardBadges s now userID
      = (.returned (.ok ()), (checkBadgesLoop now user userID s s.badges).2) := by
  have h1 := checkBadgesLoop_returned now user userID s.badges s hok
  unfold GamificationService.CheckAndAwardBadges
  simp only [hget]
  rcases hloop : checkBadgesLoop now user userID s s.badges with ⟨r, s1⟩
  rw [hloop] at h1
  simp only at h1
  rw [h1]

theorem badgeStore_criteria :
    ∀ b ∈ badgeStore.badges, ∃ met, shouldEarnBadge
      { ID := 7, GMFCCoins := 100, CurrentBadgeLevel := "gold", CurrentStreak := 30 }
      b.Criteria = .returned met := by
  intro b hb
  simp only [badgeStore, List.mem_cons, List.mem_singleton, List.not_mem_nil, or_false] at hb
  rcases hb with rfl | rfl
  · exact ⟨true, by decide⟩
  · exact ⟨false, by decide⟩

/-- C24 counterexample: the user has a streak of 30 days and the platinum badge
asks for a streak of 30 days (criteria kind `learning_streak`, as seeded), yet
after `CheckAndAwardBadges` the badge is not earned: it has no progress row. -/
theorem streakBadge_unearned_counterexample :
    (UserRepository.GetByID badgeStore 7).toOption.map (fun u => u.CurrentStreak) = some 30
    ∧ badgeStore.badges.map (fun b => (b.ID, b.Criteria))
      = [(1, coinsCriteria 10), (2, streakCriteria 30)]
    ∧ (GamificationService.CheckAndAwardBadges badgeStore 1000 7).1 = .returned (.ok ())
    ∧ badgeAlreadyEarned (GamificationService.CheckAndAwardBadges badgeStore 1000 7).2 7 2 = false
    ∧ (GamificationService.CheckAndAwardBadges badgeStore 1000 7).2.badgeProgresses
      = [{ ID := 1, UserID := 7, BadgeID := 1, Progress := 100, IsEarned := true,
           EarnedAt := some 1000 }] := by
  exact ⟨rfl, rfl, rfl, by decide, by decide⟩

/-! ### Panics of `shouldEarnBadge` -/

/-- C29: `shouldEarnBadge` is not total.  For the decoded criteria
`{"type": "coins_earned"}` (no `"value"` key), `{"type": "coins_earned",
"value": "100"}` (a string) and `{"type": "learning_hours"}` (no `"hours"` key)
the one-value type assertion `.(float64)` panics, and the panic ends
`CheckAndAwardBadges`; the nil map and a missing or non-string `"type"` return
false. -/
theorem shouldEarnBadge_panics :
    shouldEarnBadge { ID := 7 } (some [("type", .string "coins_earned")])
      = .panicked "interface conversion: interface {} is not float64"
    ∧ shouldEarnBadge { ID := 7 }
        (some [("type", .string "coins_earned"), ("value", .string "100")])
      = .panicked "interface conversion: interface {} is not float64"
    ∧ shouldEarnBadge { ID := 7 } (some [("type", .string "learning_hours")])
      = .panicked "interface conversion: interface {} is not float64"
    ∧ (GamificationService.CheckAndAwardBadges
        { users := [{ ID := 7 }],
          badges := [{ ID := 1, Criteria := some [("type", .string "coins_earned")] }] }
        1000 7).1
      = .panicked "interface conversion: interface {} is not float64"
    ∧ shouldEarnBadge { ID := 7 } none = .returned false
    ∧ shouldEarnBadge { ID := 7 } (some [("value", .number (Binary64.ofInt 0))])
      = .returned false
    ∧ shouldEarnBadge { ID := 7 } (some [("type", .number (Binary64.ofInt 1))])
      = .returned false :=
  ⟨rfl, rfl, rfl, rfl, rfl, rfl, rfl⟩

/-! ## The coin award of `QuizService.SubmitAttempt` -/

theorem submitAttempt_ledger (s : Store) (now userID quizID attemptID : Nat)
    (answers : Answers) (timeSpent : Int) (attempt : QuizAttempt) (quiz : Quiz)
    (ha : QuizAttemptRepository.GetByID s attemptID = .ok attempt)
    (hq : QuizRepository.GetByID s quizID = .ok quiz) :
    (QuizService.SubmitAttempt s now userID quizID attemptID answers timeSpent).2.coinTransactions
      = if (gradedAttempt attempt quiz now answers timeSpent).IsPassed = true
          ∧ 0 < wrapInt64 (quiz.PassingScore * 2)
        then s.coinTransactions ++ [quizTransaction userID quiz] else s.coinTransactions := by
  unfold QuizService.SubmitAttempt
  simp only [ha, hq]
  unfold GamificationService.AwardCoins quizTransaction
  simp only [gradedAttempt]
  split_ifs <;>
    first
    | rfl
    | (exfalso; simp_all; done)
    | (exfalso; omega)

/-- C27 counterexample: with passing score 0 the example attempt is graded as
passed (8 of 10), yet no ledger row is appended: `AwardCoins` rejects the amount
0 and `SubmitAttempt` discards that error. -/
theorem submitAttempt_zero_reward_counterexample :
    (QuizRepository.GetByID zeroPassStore 1).toOption.map (fun q => q.PassingScore) = some 0
    ∧ (QuizService.SubmitAttempt zeroPassStore 200 7 1 1 demoAnswers 30).1.toOption.map
        (fun a => a.IsPassed) = some true
    ∧ zeroPassStore.coinTransactions = []
    ∧ (QuizService.SubmitAttempt zeroPassStore 200 7 1 1 demoAnswers 30).2.coinTransactions = []
    ∧ (QuizService.SubmitAttempt zeroPassStore 200 7 1 1 demoAnswers 30).2.users
      = [{ ID := 7, GMFCCoins := 50 }] :=
  ⟨by rfl, by rfl, by rfl, by rfl, by rfl⟩

/-! ### Whose attempt is submitted -/

namespace UuidTree

/-- C30: `RedeemCoins` has no check that `coinsToRedeem` is positive.  For a user
with 50 coins and `coinsToRedeem = -100` the call succeeds, the balance rises to
150 and the history row has the positive amount 100. -/
theorem uuid_redeemCoins_negative_amount :
    UserRepository.GetByID redeemStore "u-1" = .ok { ID := "u-1", GMFCCoins := 50 }
    ∧ (GamificationService.RedeemCoins redeemStore 1000 "h-1" "u-1" (-100) "gift").1 = .ok ()
    ∧ UserRepository.GetByID
        (GamificationService.RedeemCoins redeemStore 1000 "h-1" "u-1" (-100) "gift").2 "u-1"
      = .ok { ID := "u-1", GMFCCoins := 150 }
    ∧ (GamificationService.RedeemCoins redeemStore 1000 "h-1" "u-1" (-100) "gift").2.coinHistories
      = [{ ID := "h-1", UserID := "u-1", Amount := 100, Reason := "gift", CreatedAt := 1000 }] :=
  ⟨by rfl, by rfl, by rfl, by rfl⟩

end UuidTree

/-! ## Failing repository writes -/

theorem faulty_awardCoins_base (s : Store) (userID : Nat) (amount : Int)
    (reason referenceType : String) (referenceID : Option Nat) :
    Faulty.GamificationService.AwardCoins {} s userID amount reason referenceType referenceID
      = GamificationService.AwardCoins s userID amount reason referenceType referenceID := by
  unfold Faulty.GamificationService.AwardCoins GamificationService.AwardCoins
  split_ifs <;> rfl

theorem faulty_spendCoins_base (s : Store) (userID : Nat) (amount : Int) (reason : String) :
    Faulty.GamificationService.SpendCoins {} s userID amount reason
      = GamificationService.SpendCoins s userID amount reason := by
  unfold Faulty.GamificationService.SpendCoins GamificationService.SpendCoins
  split_ifs
  · rfl
  · cases UserRepository.GetByID s userID with
    | error err => rfl
    | ok user =>
      simp only
      split_ifs <;> rfl

theorem faulty_enrollUser_base (s : Store) (now userID courseID : Nat) :
    Faulty.EnrollmentService.EnrollUser {} s now userID courseID
      = EnrollmentService.EnrollUser s now userID courseID := by
  unfold Faulty.EnrollmentService.EnrollUser EnrollmentService.EnrollUser
  split_ifs
  · rfl
  · cases CourseRepository.GetByID s courseID with
    | error err => rfl
    | ok course =>
      simp only
      split_ifs <;> rfl

theorem faulty_awardCompletion_base (s : Store) (now userID courseID : Nat) (finalScore : Int)
    (course : Course) :
    Faulty.awardCompletion {} s now userID courseID finalScore course
      = awardCompletion s now userID courseID finalScore course := rfl

theorem faulty_completeCourse_base (s : Store) (now userID courseID : Nat) (finalScore : Int) :
    Faulty.EnrollmentService.CompleteCourse {} s now userID courseID finalScore
      = EnrollmentService.CompleteCourse s now userID courseID finalScore := by
  unfold Faulty.EnrollmentService.CompleteCourse EnrollmentService.CompleteCourse
  simp only [faulty_awardCompletion_base]
  rfl

theorem faulty_submitAttempt_base (s : Store) (now userID quizID attemptID : Nat)
    (answers : Answers) (timeSpent : Int) :
    Faulty.QuizService.SubmitAttempt {} s now userID quizID attemptID answers timeSpent
      = QuizService.SubmitAttempt s now userID quizID attemptID answers timeSpent := by
  unfold Faulty.QuizService.SubmitAttempt QuizService.SubmitAttempt
  simp only [faulty_awardCoins_base]

theorem faulty_enrollUser_result (f : Faults) (s : Store) (now userID courseID : Nat) :
    (Faulty.EnrollmentService.EnrollUser f s now userID courseID).1
      = (EnrollmentService.EnrollUser s now userID courseID).1 := by
  unfold Faulty.EnrollmentService.EnrollUser EnrollmentService.EnrollUser
  split_ifs
  · rfl
  · cases CourseRepository.GetByID s courseID with
    | error err => rfl
    | ok course =>
      simp only
      split_ifs <;> rfl

theorem faulty_completeCourse_result (f : Faults) (s : Store) (now userID courseID : Nat)
    (finalScore : Int) :
    (Faulty.EnrollmentService.CompleteCourse f s now userID courseID finalScore).1
      = (EnrollmentService.CompleteCourse s now userID courseID finalScore).1 := by
  unfold Faulty.EnrollmentService.CompleteCourse EnrollmentService.CompleteCourse
  simp only
  cases EnrollmentRepository.GetByUserAndCourse
      (EnrollmentRepository.MarkAsCompleted s now userID courseID finalScore) userID courseID with
  | error err => rfl
  | ok e =>
    simp only
    cases CourseRepository.GetByID
        (EnrollmentRepository.MarkAsCompleted s now userID courseID finalScore) courseID with
    | error err => rfl
    | ok course => rfl

theorem faulty_submitAttempt_result (f : Faults) (s : Store) (now userID quizID attemptID : Nat)
    (answers : Answers) (timeSpent : Int) :
    (Faulty.QuizService.SubmitAttempt f s now userID quizID attemptID answers timeSpent).1
      = (QuizService.SubmitAttempt s now userID quizID attemptID answers timeSpent).1 := by
  unfold Faulty.QuizService.SubmitAttempt QuizService.SubmitAttempt
  cases QuizAttemptRepository.GetByID s attemptID with
  | error err => rfl
  | ok attempt =>
    simp only
    cases QuizRepository.GetByID s quizID with
    | error err => rfl
    | ok quiz =>
      simp only
      split_ifs <;> rfl

theorem faulty_awardCoins_cases (f : Faults) (s : Store) (userID : Nat) (amount : Int)
    (reason referenceType : String) (referenceID : Option Nat) (h : 0 < amount) :
    Faulty.GamificationService.AwardCoins f s userID amount reason referenceType referenceID
      = if f.updateCoins = true then (.error .storageError, s)
        else if f.ledgerCreate = true then
          (.error .storageError, UserRepository.UpdateCoins s userID amount)
        else GamificationService.AwardCoins s userID amount reason referenceType referenceID := by
  unfold Faulty.GamificationService.AwardCoins GamificationService.AwardCoins faultyWrite
  rw [if_neg (not_le.mpr h), if_neg (not_le.mpr h)]
  split_ifs <;> rfl

theorem faulty_spendCoins_cases (f : Faults) (s : Store) (userID : Nat) (amount : Int)
    (reason : String) (user : User) (h : 0 < amount)
    (hu : UserRepository.GetByID s userID = .ok user) (hbal : amount ≤ user.GMFCCoins) :
    Faulty.GamificationService.SpendCoins f s userID amount reason
      = if f.updateCoins = true then (.error .storageError, s)
        else if f.ledgerCreate = true then
          (.error .storageError, UserRepository.UpdateCoins s userID (-amount))
        else GamificationService.SpendCoins s userID amount reason := by
  unfold Faulty.GamificationService.SpendCoins GamificationService.SpendCoins faultyWrite
  rw [if_neg (not_le.mpr h), if_neg (not_le.mpr h)]
  simp only [hu, if_neg (not_lt.mpr hbal)]
  split_ifs <;> rfl

theorem faulty_spendCoins_domain (f : Faults) (s : Store) (userID : Nat) (amount : Int)
    (reason : String) :
    (amount ≤ 0 →
      Faulty.GamificationService.SpendCoins f s userID amount reason = (.error .invalidAmount, s))
    ∧ (∀ err, 0 < amount → UserRepository.GetByID s userID = .error err →
      Faulty.GamificationService.SpendCoins f s userID amount reason = (.error err, s))
    ∧ (∀ user, 0 < amount → UserRepository.GetByID s userID = .ok user →
      user.GMFCCoins < amount →
      Faulty.GamificationService.SpendCoins f s userID amount reason
        = (.error .insufficientCoins, s)) := by
  refine ⟨?_, ?_, ?_⟩
  · intro h
    unfold Faulty.GamificationService.SpendCoins
    rw [if_pos h]
  · intro err h hu
    unfold Faulty.GamificationService.SpendCoins
    rw [if_neg (not_le.mpr h)]
    simp only [hu]
  · intro user h hu hlow
    unfold Faulty.GamificationService.SpendCoins
    rw [if_neg (not_le.mpr h)]
    simp only [hu, if_pos hlow]

theorem faulty_completeCourse_not_enrolled (f : Faults) (s : Store) (now userID courseID : Nat)
    (finalScore : Int) (err : Error)
    (he : EnrollmentRepository.GetByUserAndCourse s userID courseID = .error err) :
    Faulty.EnrollmentService.CompleteCourse f s now userID courseID finalScore
      = (.error .recordNotFound, s) := by
  obtain ⟨hs, herr⟩ := markAsCompleted_none s now userID courseID finalScore err he
  unfold Faulty.EnrollmentService.CompleteCourse
  simp only [hs, he, herr]

theorem faulty_completeCourse_no_course (f : Faults) (s : Store) (now userID courseID : Nat)
    (finalScore : Int) (e : Enrollment) (err : Error)
    (he : EnrollmentRepository.GetByUserAndCourse s userID courseID = .ok e)
    (hc : CourseRepository.GetByID s courseID = .error err) :
    Faulty.EnrollmentService.CompleteCourse f s now userID courseID finalScore
      = (.error err, EnrollmentRepository.MarkAsCompleted s now userID courseID finalScore) := by
  have hc1 : CourseRepository.GetByID
      (EnrollmentRepository.MarkAsCompleted s now userID courseID finalScore) courseID
      = .error err := hc
  unfold Faulty.EnrollmentService.CompleteCourse
  simp only [markAsCompleted_get s now userID courseID finalScore e he, hc1]

/-! ### State left by a failing call -/

/-- C25 counterexample: user 7 is enrolled in course 5, which is not in the
course table.  `CompleteCourse` returns `record not found`, yet the enrollment
is no longer as before the call: it is marked completed with score 85.  And
when the ledger append of `AwardCoins` fails, the call returns the error with
the balance of user 7 already raised from 50 to 80 and no ledger row. -/
theorem completeCourse_partial_counterexample :
    (EnrollmentService.CompleteCourse orphanStore 1000 7 5 85).1 = .error .recordNotFound
    ∧ orphanStore.enrollments
      = [{ ID := 1, UserID := 7, CourseID := 5, CompletionStatus := "in_progress",
           OverallProgress := 40 }]
    ∧ (EnrollmentService.CompleteCourse orphanStore 1000 7 5 85).2.enrollments
      = [{ ID := 1, UserID := 7, CourseID := 5, CompletionStatus := "completed",
           CompletedAt := some 1000, OverallProgress := 100, FinalScore := 85,
           IsPassed := true }]
    ∧ (Faulty.GamificationService.AwardCoins { ledgerCreate := true } ledgerStore 7 30 "Bonus"
        "quiz" none).1 = .error .storageError
    ∧ ledgerStore.users = [{ ID := 7, GMFCCoins := 50 }, { ID := 8 }]
    ∧ (Faulty.GamificationService.AwardCoins { ledgerCreate := true } ledgerStore 7 30 "Bonus"
        "quiz" none).2.users = [{ ID := 7, GMFCCoins := 80 }, { ID := 8 }]
    ∧ (Faulty.GamificationService.AwardCoins { ledgerCreate := true } ledgerStore 7 30 "Bonus"
        "quiz" none).2.coinTransactions = ledgerStore.coinTransactions :=
  ⟨by rfl, by rfl, by rfl, by rfl, by rfl, by rfl, by rfl⟩

/-! ### Failures that are not reported -/

/-- C26 counterexample: with the increment of the enrollment counter failing,
`EnrollUser` still returns the new enrollment and no error, and the counter of
course 5 stays 0 with one enrollment in the table.  With the four discarded
writes of `CompleteCourse` failing, the call returns the enrollment and no
error, and there are no coins, ledger row, certificate or counter increment.
With the coin update failing, `SubmitAttempt` returns the passed attempt and no
error, and the balance stays 50. -/
theorem discarded_failure_counterexample :
    (Faulty.EnrollmentService.EnrollUser { enrollmentCount := true } courseStore 100 7 5).1
      = .ok { ID := 1, UserID := 7, CourseID := 5, EnrolledAt := 100 }
    ∧ ((Faulty.EnrollmentService.EnrollUser { enrollmentCount := true } courseStore 100 7
        5).2.courses.map (fun c => (c.ID, c.EnrollmentCount))) = [(5, 0), (6, 0)]
    ∧ (Faulty.EnrollmentService.CompleteCourse
        { updateCoins := true, ledgerCreate := true, certificateCreate := true,
          completionCount := true } completionStore 1000 7 11 85).1
      = .ok { ID := 3, UserID := 7, CourseID := 11, CompletionStatus := "completed",
              CompletedAt := some 1000, OverallProgress := 100, FinalScore := 85,
              IsPassed := true }
    ∧ { (Faulty.EnrollmentService.CompleteCourse
        { updateCoins := true, ledgerCreate := true, certificateCreate := true,
          completionCount := true } completionStore 1000 7 11 85).2 with
          enrollments := completionStore.enrollments } = completionStore
    ∧ ((Faulty.QuizService.SubmitAttempt { updateCoins := true } demoStore 200 7 1 1
        demoAnswers 30).1.toOption.map (fun a => a.IsPassed)) = some true
    ∧ (Faulty.QuizService.SubmitAttempt { updateCoins := true } demoStore 200 7 1 1
        demoAnswers 30).2.users = [{ ID := 7, GMFCCoins := 50 }]
    ∧ (Faulty.QuizService.SubmitAttempt { updateCoins := true } demoStore 200 7 1 1
        demoAnswers 30).2.coinTransactions = [] :=
  ⟨by rfl, by rfl, by rfl, by rfl, by rfl, by rfl, by rfl⟩

/-- C26, as the code has it: the failures of the enrollment-counter increment in
`EnrollUser`, of the coin update, the ledger append, the certificate creation
and the completion-counter increment in `CompleteCourse`, and of the coin award
in `SubmitAttempt` are discarded: whichever of these writes fail, each operation
returns the result it returns when none fails.  Only `AwardCoins` and
`SpendCoins` called on their own report a failing coin update or ledger append.
Without failing writes the operations are those of the fault-free model. -/
theorem discarded_failures_not_reported (f : Faults) (s : Store)
    (now userID courseID quizID attemptID : Nat) (finalScore timeSpent amount : Int)
    (answers : Answers) (reason referenceType : String) (referenceID : Option Nat) :
    (Faulty.EnrollmentService.EnrollUser f s now userID courseID).1
      = (EnrollmentService.EnrollUser s now userID courseID).1
    ∧ (Faulty.EnrollmentService.CompleteCourse f s now userID courseID finalScore).1
      = (EnrollmentService.CompleteCourse s now userID courseID finalScore).1
    ∧ (Faulty.QuizService.SubmitAttempt f s now userID quizID attemptID answers timeSpent).1
      = (QuizService.SubmitAttempt s now userID quizID attemptID answers timeSpent).1
    ∧ (0 < amount → (f.updateCoins = true ∨ f.ledgerCreate = true) →
      (Faulty.GamificationService.AwardCoins f s userID amount reason referenceType
          referenceID).1 = .error .storageError)
    ∧ (∀ user, 0 < amount → UserRepository.GetByID s userID = .ok user →
      amount ≤ user.GMFCCoins → (f.updateCoins = true ∨ f.ledgerCreate = true) →
      (Faulty.GamificationService.SpendCoins f s userID amount reason).1
        = .error .storageError)
    ∧ Faulty.EnrollmentService.EnrollUser {} s now userID courseID
      = EnrollmentService.EnrollUser s now userID courseID
    ∧ Faulty.EnrollmentService.CompleteCourse {} s now userID courseID finalScore
      = EnrollmentService.CompleteCourse s now userID courseID finalScore
    ∧ Faulty.QuizService.SubmitAttempt {} s now userID quizID attemptID answers timeSpent
      = QuizService.SubmitAttempt s now userID quizID attemptID answers timeSpent := by
  refine ⟨faulty_enrollUser_result f s now userID courseID,
    faulty_completeCourse_result f s now userID courseID finalScore,
    faulty_submitAttempt_result f s now userID quizID attemptID answers timeSpent, ?_, ?_,
    faulty_enrollUser_base s now userID courseID,
    faulty_completeCourse_base s now userID courseID finalScore,
    faulty_submitAttempt_base s now userID quizID attemptID answers timeSpent⟩
  · intro h hf
    rw [faulty_awardCoins_cases f s userID amount reason referenceType referenceID h]
    by_cases h1 : f.updateCoins = true
    · rw [if_pos h1]
    · rw [if_neg h1, if_pos (hf.resolve_left h1)]
  · intro user h hu hbal hf
    rw [faulty_spendCoins_cases f s userID amount reason user h hu hbal]
    by_cases h1 : f.updateCoins = true
    · rw [if_pos h1]
    · rw [if_neg h1, if_pos (hf.resolve_left h1)]

/-- C26 (amended), evaluated: with the counter increment failing, `EnrollUser`
returns the enrollment it returns without failure; `AwardCoins` called on its
own with a failing ledger append returns the storage error. -/
theorem discarded_failures_not_reported_witness :
    (Faulty.EnrollmentService.EnrollUser { enrollmentCount := true } courseStore 100 7 5).1
      = .ok { ID := 1, UserID := 7, CourseID := 5, EnrolledAt := 100 }
    ∧ (Faulty.GamificationService.AwardCoins { ledgerCreate := true } ledgerStore 7 30 "Bonus"
        "quiz" none).1 = .error .storageError := by
  have h1 := discarded_failures_not_reported { enrollmentCount := true } courseStore 100 7 5 1 1
    85 30 30 demoAnswers "Bonus" "quiz" none
  have h2 := discarded_failures_not_reported { ledgerCreate := true } ledgerStore 100 7 5 1 1
    85 30 30 demoAnswers "Bonus" "quiz" none
  exact ⟨h1.1.trans (by rfl), h2.2.2.2.1 (by decide) (Or.inr rfl)⟩

/-! ### The average of the lesson percentages -/

theorem tdiv_of_neg (a n : Int) (ha : a < 0) (hn : 0 < n) : a.tdiv n = -((-a) / n) := by
  have h : a = -(-a) := by ring
  rw [h, Int.neg_tdiv, Int.tdiv_eq_ediv (by omega) (le_of_lt hn)]
  simp

theorem truncatedAverage_lower (l : List Int) (hne : l ≠ []) (lo : Int)
    (h : ∀ x ∈ l, lo ≤ x) : lo ≤ l.sum.tdiv (l.length : Nat) := by
  have hpos : (0 : Int) < (l.length : Nat) := by exact_mod_cast List.length_pos.mpr hne
  have hsum := sum_ge_of_forall_ge l lo h
  by_cases h0 : 0 ≤ l.sum
  · rw [Int.tdiv_eq_ediv h0 (le_of_lt hpos)]
    exact Int.le_ediv_of_mul_le hpos hsum
  · rw [tdiv_of_neg _ _ (by omega) hpos]
    have : (-l.sum) / (l.length : Nat) ≤ -lo := by
      apply Int.ediv_le_of_le_mul hpos
      linarith
    omega

theorem truncatedAverage_upper (l : List Int) (hne : l ≠ []) (hi : Int)
    (h : ∀ x ∈ l, x ≤ hi) : l.sum.tdiv (l.length : Nat) ≤ hi := by
  have hpos : (0 : Int) < (l.length : Nat) := by exact_mod_cast List.length_pos.mpr hne
  have hsum := sum_le_of_forall_le l hi h
  by_cases h0 : 0 ≤ l.sum
  · rw [Int.tdiv_eq_ediv h0 (le_of_lt hpos)]
    exact Int.ediv_le_of_le_mul hpos hsum
  · rw [tdiv_of_neg _ _ (by omega) hpos]
    have : -hi ≤ (-l.sum) / (l.length : Nat) := by
      apply Int.le_ediv_of_mul_le hpos
      linarith
    omega

/-- C19 counterexample: the rows of user 7 in course 5 hold the percentages -50,
45 and 0.  Their sum is -5, and `CalculateCourseProgress` returns -1, the
quotient truncated toward zero, where the floor of -5/3 is -2. -/
theorem calculateCourseProgress_truncates_counterexample :
    coursePercentages negativeProgressStore 7 5 = [-50, 45, 0]
    ∧ ProgressService.CalculateCourseProgress negativeProgressStore 7 5 = -1
    ∧ ⌊(((coursePercentages negativeProgressStore 7 5).sum : Int) : ℚ)
        / (((coursePercentages negativeProgressStore 7 5).length : Nat) : ℚ)⌋ = -2 := by
  have hrows : coursePercentages negativeProgressStore 7 5 = [-50, 45, 0] := by rfl
  refine ⟨hrows, ?_, ?_⟩
  · rw [calculateCourseProgress_eq, hrows]
    rfl
  · rw [hrows, Rat.floor_intCast_div_natCast]
    rfl

/-- C19, as the code has it: `ProgressService.CalculateCourseProgress` returns 0
when the user has no lesson-progress row for the course, and otherwise the sum
of the row percentages, computed in a 64-bit `int`, divided by the number of
rows with the quotient truncated toward zero: the average of the percentages,
whatever the completion flags of the rows.  When the sum fits in an `int`, the
result is the floor of the average for a sum that is not negative (so whenever
no row is negative) and minus the floor of the negated average for a negative
sum, and it lies between the smallest and the largest row percentage; when every
percentage lies in 0..100 the result lies in 0..100. -/
theorem calculateCourseProgress_average (s : Store) (userID courseID : Nat) :
    (coursePercentages s userID courseID = [] →
        ProgressService.CalculateCourseProgress s userID courseID = 0)
    ∧ (coursePercentages s userID courseID ≠ [] →
        ProgressService.CalculateCourseProgress s userID courseID
          = (wrapInt64 (coursePercentages s userID courseID).sum).tdiv
              ((coursePercentages s userID courseID).length : Nat))
    ∧ (coursePercentages s userID courseID ≠ [] →
        0 ≤ (coursePercentages s userID courseID).sum →
        (coursePercentages s userID courseID).sum < 2 ^ 63 →
        ProgressService.CalculateCourseProgress s userID courseID
          = ⌊(((coursePercentages s userID courseID).sum : Int) : ℚ)
              / (((coursePercentages s userID courseID).length : Nat) : ℚ)⌋)
    ∧ (coursePercentages s userID courseID ≠ [] →
        (coursePercentages s userID courseID).sum < 0 →
        -2 ^ 63 ≤ (coursePercentages s userID courseID).sum →
        ProgressService.CalculateCourseProgress s userID courseID
          = -⌊((-(coursePercentages s userID courseID).sum : Int) : ℚ)
              / (((coursePercentages s userID courseID).length : Nat) : ℚ)⌋)
    ∧ ((∀ x ∈ coursePercentages s userID courseID, 0 ≤ x ∧ x ≤ 100) →
        (coursePercentages s userID courseID).sum < 2 ^ 63 →
        0 ≤ ProgressService.CalculateCourseProgress s userID courseID
        ∧ ProgressService.CalculateCourseProgress s userID courseID ≤ 100)
    ∧ (coursePercentages s userID courseID ≠ [] →
        -2 ^ 63 ≤ (coursePercentages s userID courseID).sum →
        (coursePercentages s userID courseID).sum < 2 ^ 63 →
        (∀ lo hi : Int, (∀ x ∈ coursePercentages s userID courseID, lo ≤ x ∧ x ≤ hi) →
          lo ≤ ProgressService.CalculateCourseProgress s userID courseID
          ∧ ProgressService.CalculateCourseProgress s userID courseID ≤ hi)
        ∧ (∃ x ∈ coursePercentages s userID courseID,
            x ≤ ProgressService.CalculateCourseProgress s userID courseID)
        ∧ (∃ x ∈ coursePercentages s userID courseID,
            ProgressService.CalculateCourseProgress s userID courseID ≤ x)) := by
  have heq := calculateCourseProgress_eq s userID courseID
  have hnonempty : coursePercentages s userID courseID ≠ [] →
      ProgressService.CalculateCourseProgress s userID courseID
        = (wrapInt64 (coursePercentages s userID courseID).sum).tdiv
            ((coursePercentages s userID courseID).length : Nat) := by
    intro hne
    rw [heq, if_neg]
    exact fun h => hne (List.length_eq_zero.mp h)
  have hpos : coursePercentages s userID courseID ≠ [] →
      (0 : Int) < ((coursePercentages s userID courseID).length : Nat) := by
    intro hne
    exact_mod_cast List.length_pos.mpr hne
  have hbounds : coursePercentages s userID courseID ≠ [] →
      -2 ^ 63 ≤ (coursePercentages s userID courseID).sum →
      (coursePercentages s userID courseID).sum < 2 ^ 63 →
      ∀ lo hi : Int, (∀ x ∈ coursePercentages s userID courseID, lo ≤ x ∧ x ≤ hi) →
        lo ≤ ProgressService.CalculateCourseProgress s userID courseID
        ∧ ProgressService.CalculateCourseProgress s userID courseID ≤ hi := by
    intro hne hlow hhigh lo hi hb
    rw [hnonempty hne, wrapInt64_of_range _ ⟨hlow, hhigh⟩]
    exact ⟨truncatedAverage_lower _ hne lo (fun x hx => (hb x hx).1),
      truncatedAverage_upper _ hne hi (fun x hx => (hb x hx).2)⟩
  refine ⟨?_, hnonempty, ?_, ?_, ?_, ?_⟩
  · intro hnil
    rw [heq, hnil]
    rfl
  · intro hne h0 hhigh
    rw [hnonempty hne, wrapInt64_of_range _ ⟨by omega, hhigh⟩,
      Int.tdiv_eq_ediv h0 (le_of_lt (hpos hne)), Rat.floor_intCast_div_natCast]
  · intro hne hneg hlow
    rw [hnonempty hne, wrapInt64_of_range _ ⟨hlow, by omega⟩,
      tdiv_of_neg _ _ hneg (hpos hne), Rat.floor_intCast_div_natCast]
  · intro hrange hhigh
    by_cases hne : coursePercentages s userID courseID = []
    · rw [heq, hne]
      exact ⟨le_refl _, by decide⟩
    · have hsum0 : 0 ≤ (coursePercentages s userID courseID).sum := by
        have := sum_ge_of_forall_ge _ 0 (fun x hx => (hrange x hx).1)
        simpa using this
      exact hbounds hne (by omega) hhigh 0 100 hrange
  · intro hne hlow hhigh
    refine ⟨hbounds hne hlow hhigh, ?_, ?_⟩
    · by_contra hcon
      push_neg at hcon
      have := truncatedAverage_lower _ hne
        (ProgressService.CalculateCourseProgress s userID courseID + 1)
        (fun x hx => hcon x hx)
      rw [hnonempty hne, wrapInt64_of_range _ ⟨hlow, hhigh⟩] at this
      omega
    · by_contra hcon
      push_neg at hcon
      have := truncatedAverage_upper _ hne
        (ProgressService.CalculateCourseProgress s userID courseID - 1)
        (fun x hx => by have := hcon x hx; omega)
      rw [hnonempty hne, wrapInt64_of_range _ ⟨hlow, hhigh⟩] at this
      omega

/-- C19 (amended), evaluated on the example stores: the rows 50, 95 and 30 give
floor(175 / 3) = 58, between 30 and 95; the rows -50, 45 and 0 give -1; a user
without rows gets 0. -/
theorem calculateCourseProgress_average_witness :
    coursePercentages progressStore 7 5 = [50, 95, 30]
    ∧ ProgressService.CalculateCourseProgress progressStore 7 5 = 58
    ∧ ProgressService.CalculateCourseProgress progressStore 9 5 = 0
    ∧ (30 : Int) ≤ ProgressService.CalculateCourseProgress progressStore 7 5
    ∧ ProgressService.CalculateCourseProgress progressStore 7 5 ≤ 95
    ∧ ProgressService.CalculateCourseProgress negativeProgressStore 7 5 = -1 := by
  have h := calculateCourseProgress_average progressStore 7 5
  have hrows : coursePercentages progressStore 7 5 = [50, 95, 30] := by rfl
  have hb := (h.2.2.2.2.2 (by rw [hrows]; decide) (by rw [hrows]; decide)
    (by rw [hrows]; decide)).1 30 95 (by rw [hrows]; decide)
  have hval : ProgressService.CalculateCourseProgress progressStore 7 5 = 58 := by
    rw [h.2.1 (by rw [hrows]; decide), hrows]
    rfl
  have hneg : ProgressService.CalculateCourseProgress negativeProgressStore 7 5 = -1 := by
    rw [(calculateCourseProgress_average negativeProgressStore 7 5).2.1 (by decide)]
    rfl
  exact ⟨hrows, hval, (calculateCourseProgress_average progressStore 9 5).1 (by rfl),
    hb.1, hb.2, hneg⟩

/-! ## Operations whose discarded writes fail -/

/-! ### `EnrollUser` and the enrollment counter -/

theorem faulty_enrollUser_eq (f : Faults) (s : Store) (now userID courseID : Nat) :
    Faulty.EnrollmentService.EnrollUser f s now userID courseID
      = if f.enrollmentCount = true then
          ((EnrollmentService.EnrollUser s now userID courseID).1,
            { (EnrollmentService.EnrollUser s now userID courseID).2 with courses := s.courses })
        else EnrollmentService.EnrollUser s now userID courseID := by
  unfold Faulty.EnrollmentService.EnrollUser EnrollmentService.EnrollUser faultyWrite
  by_cases h1 : EnrollmentRepository.IsEnrolled s userID courseID = true
  · simp only [if_pos h1]
    split_ifs <;> rfl
  · simp only [if_neg h1]
    cases CourseRepository.GetByID s courseID with
    | error err =>
      simp only
      split_ifs <;> rfl
    | ok course =>
      simp only
      split_ifs <;> rfl

/-- C10 counterexample: the increment of the enrollment counter of course 5
fails; `EnrollUser` discards the error and succeeds.  The new enrollment of
user 7 is in the table, and the counter of the course is still 0. -/
theorem enrollUser_counter_counterexample :
    (CourseRepository.GetByID courseStore 5).toOption.map (fun c => c.EnrollmentCount) = some 0
    ∧ (Faulty.EnrollmentService.EnrollUser { enrollmentCount := true } courseStore 1 7 5).1
      = .ok { ID := 1, UserID := 7, CourseID := 5, EnrolledAt := 1 }
    ∧ (Faulty.EnrollmentService.EnrollUser { enrollmentCount := true } courseStore 1 7
        5).2.enrollments = [{ ID := 1, UserID := 7, CourseID := 5, EnrolledAt := 1 }]
    ∧ (CourseRepository.GetByID
        (Faulty.EnrollmentService.EnrollUser { enrollmentCount := true } courseStore 1 7 5).2
        5).toOption.map (fun c => c.EnrollmentCount) = some 0 :=
  ⟨by rfl, by rfl, by rfl, by rfl⟩

/-- C10, as the code has it: whenever `EnrollmentService.EnrollUser` succeeds,
the enrollment table is the old one followed by exactly one new row, the
returned enrollment of (user, course) with status `not_started` and progress 0,
and it is the only row of the pair; every other course row and every other
table is unchanged.  The enrollment counter of the course is one higher than
before when its increment succeeds; when the increment fails the error is
discarded, the call still succeeds and the counter is unchanged. -/
theorem enrollUser_success_effect (f : Faults) (s : Store) (now userID courseID : Nat)
    (e : Enrollment)
    (hok : (Faulty.EnrollmentService.EnrollUser f s now userID courseID).1 = .ok e) :
    (Faulty.EnrollmentService.EnrollUser f s now userID courseID).2.enrollments
      = s.enrollments ++ [e]
    ∧ e.UserID = userID ∧ e.CourseID = courseID
    ∧ e.CompletionStatus = "not_started" ∧ e.OverallProgress = 0
    ∧ enrollmentsOf s userID courseID = 0
    ∧ enrollmentsOf (Faulty.EnrollmentService.EnrollUser f s now userID courseID).2
        userID courseID = 1
    ∧ (∃ course : Course,
        CourseRepository.GetByID s courseID = .ok course
        ∧ CourseRepository.GetByID
            (Faulty.EnrollmentService.EnrollUser f s now userID courseID).2 courseID
          = .ok { course with EnrollmentCount :=
              if f.enrollmentCount = true then course.EnrollmentCount
              else course.EnrollmentCount + 1 })
    ∧ (Faulty.EnrollmentService.EnrollUser f s now userID courseID).2.courses
        = (if f.enrollmentCount = true then s.courses
           else s.courses.map (fun c =>
             if c.ID = courseID then { c with EnrollmentCount := c.EnrollmentCount + 1 }
             else c))
    ∧ (∀ id : Nat, id ≠ courseID →
        CourseRepository.GetByID
            (Faulty.EnrollmentService.EnrollUser f s now userID courseID).2 id
          = CourseRepository.GetByID s id)
    ∧ (Faulty.EnrollmentService.EnrollUser f s now userID courseID).2.users = s.users
    ∧ (Faulty.EnrollmentService.EnrollUser f s now userID courseID).2.quizzes = s.quizzes
    ∧ (Faulty.EnrollmentService.EnrollUser f s now userID courseID).2.quizAttempts
        = s.quizAttempts
    ∧ (Faulty.EnrollmentService.EnrollUser f s now userID courseID).2.coinTransactions
        = s.coinTransactions := by
  have heq := faulty_enrollUser_eq f s now userID courseID
  by_cases hf : f.enrollmentCount = true
  · rw [if_pos hf] at heq
    rw [heq] at hok ⊢
    obtain ⟨h1, h2, h3, h4, h5, h6, h7, ⟨course, hc, -⟩, -, -, h11, h12, h13, h14⟩ :=
      enrollUser_written s now userID courseID e hok
    refine ⟨h1, h2, h3, h4, h5, h6, h7, ⟨course, hc, ?_⟩, ?_, ?_, h11, h12, h13, h14⟩
    · rw [if_pos hf]
      exact hc
    · rw [if_pos hf]
    · intro id _
      rfl
  · rw [if_neg hf] at heq
    rw [heq] at hok ⊢
    obtain ⟨h1, h2, h3, h4, h5, h6, h7, ⟨course, hc, hc1⟩, h9, h10, h11, h12, h13, h14⟩ :=
      enrollUser_written s now userID courseID e hok
    refine ⟨h1, h2, h3, h4, h5, h6, h7, ⟨course, hc, ?_⟩, ?_, h10, h11, h12, h13, h14⟩
    · rw [if_neg hf]
      exact hc1
    · rw [if_neg hf]
      exact h9

/-- C10 (amended), evaluated on the example store: with working writes the
counter of course 5 goes from 0 to 1; with a failing increment the call
succeeds as well and the course table is unchanged. -/
theorem enrollUser_success_effect_witness :
    (Faulty.EnrollmentService.EnrollUser {} courseStore 1 7 5).2.courses
      = [{ ID := 5, Title := "Fire safety", MaxEnrollments := 1, EnrollmentCount := 1 },
         { ID := 6, Title := "First aid" }]
    ∧ (Faulty.EnrollmentService.EnrollUser { enrollmentCount := true } courseStore 1 7
        5).2.courses = courseStore.courses
    ∧ (Faulty.EnrollmentService.EnrollUser { enrollmentCount := true } courseStore 1 7
        5).2.enrollments = [{ ID := 1, UserID := 7, CourseID := 5, EnrolledAt := 1 }] := by
  have h1 := enrollUser_success_effect {} courseStore 1 7 5
    { ID := 1, UserID := 7, CourseID := 5, EnrolledAt := 1 } rfl
  have h2 := enrollUser_success_effect { enrollmentCount := true } courseStore 1 7 5
    { ID := 1, UserID := 7, CourseID := 5, EnrolledAt := 1 } rfl
  exact ⟨h1.2.2.2.2.2.2.2.2.1.trans (by rfl), h2.2.2.2.2.2.2.2.2.1, h2.1⟩

/-! ### `CompleteCourse` and its discarded writes -/

theorem faulty_awardCompletion_users (f : Faults) (s : Store) (now userID courseID : Nat)
    (finalScore : Int) (course : Course) :
    (Faulty.awardCompletion f s now userID courseID finalScore course).users
      = if f.updateCoins = true then s.users else creditedUsers s userID course.CoinsReward := by
  unfold Faulty.awardCompletion faultyWrite CertificateRepository.Create creditedUsers
  simp only
  split_ifs <;> rfl

theorem faulty_awardCompletion_ledger (f : Faults) (s : Store) (now userID courseID : Nat)
    (finalScore : Int) (course : Course) :
    (Faulty.awardCompletion f s now userID courseID finalScore course).coinTransactions
      = if f.ledgerCreate = true then s.coinTransactions
        else s.coinTransactions ++ [completionTransaction userID course] := by
  unfold Faulty.awardCompletion faultyWrite CertificateRepository.Create completionTransaction
  simp only
  split_ifs <;> rfl

theorem faulty_awardCompletion_certificates (f : Faults) (s : Store) (now userID courseID : Nat)
    (finalScore : Int) (course : Course) :
    (Faulty.awardCompletion f s now userID courseID finalScore course).certificates
      = if f.certificateCreate = true then s.certificates
        else if s.certificates.any
            (fun c => c.CertificateNumber == certificateNumber userID courseID now)
        then s.certificates
        else s.certificates ++ [completionCertificate now userID courseID finalScore] := by
  unfold Faulty.awardCompletion faultyWrite CertificateRepository.Create completionCertificate
  simp only
  by_cases hc : f.certificateCreate = true
  · rw [if_pos hc, if_pos hc]
    split_ifs <;> rfl
  · rw [if_neg hc, if_neg hc]
    by_cases hany : s.certificates.any
        (fun c => c.CertificateNumber == certificateNumber userID courseID now) = true
    · rw [if_pos hany]
      split_ifs <;> first | rfl | (rename_i h; exact absurd hany h)
    · rw [if_neg hany]
      split_ifs <;> first | rfl | (rename_i h; exact absurd h hany)

theorem faulty_awardCompletion_rest (f : Faults) (s : Store) (now userID courseID : Nat)
    (finalScore : Int) (course : Course) :
    (Faulty.awardCompletion f s now userID courseID finalScore course).courses = s.courses
    ∧ (Faulty.awardCompletion f s now userID courseID finalScore course).enrollments
      = s.enrollments := by
  unfold Faulty.awardCompletion faultyWrite CertificateRepository.Create
  simp only
  constructor <;> split_ifs <;> rfl

theorem faulty_completeCourse_eq (f : Faults) (s : Store) (now userID courseID : Nat)
    (finalScore : Int) (e : Enrollment) (course : Course)
    (he : EnrollmentRepository.GetByUserAndCourse s userID courseID = .ok e)
    (hc : CourseRepository.GetByID s courseID = .ok course) :
    Faulty.EnrollmentService.CompleteCourse f s now userID courseID finalScore
      = (.ok (completedEnrollment e now finalScore),
         (faultyWrite f.completionCount
           (if finalScore ≥ course.PassingScore then
              Faulty.awardCompletion f
                (EnrollmentRepository.MarkAsCompleted s now userID courseID finalScore)
                now userID courseID finalScore course
            else EnrollmentRepository.MarkAsCompleted s now userID courseID finalScore)
           (fun s0 => CourseRepository.UpdateCompletionCount s0 courseID 1)).2) := by
  have hc1 : CourseRepository.GetByID
      (EnrollmentRepository.MarkAsCompleted s now userID courseID finalScore) courseID
      = .ok course := hc
  unfold Faulty.EnrollmentService.CompleteCourse
  simp only [markAsCompleted_get s now userID courseID finalScore e he, hc1]

theorem faulty_completeCourse_store (f : Faults) (s : Store) (now userID courseID : Nat)
    (finalScore : Int) (e : Enrollment) (course : Course)
    (he : EnrollmentRepository.GetByUserAndCourse s userID courseID = .ok e)
    (hc : CourseRepository.GetByID s courseID = .ok course) :
    (Faulty.EnrollmentService.CompleteCourse f s now userID courseID finalScore).2.users
        = (if finalScore ≥ course.PassingScore ∧ f.updateCoins = false
           then creditedUsers s userID course.CoinsReward else s.users)
    ∧ (Faulty.EnrollmentService.CompleteCourse f s now userID courseID
          finalScore).2.coinTransactions
        = (if finalScore ≥ course.PassingScore ∧ f.ledgerCreate = false
           then s.coinTransactions ++ [completionTransaction userID course]
           else s.coinTransactions)
    ∧ (Faulty.EnrollmentService.CompleteCourse f s now userID courseID finalScore).2.certificates
        = (if finalScore ≥ course.PassingScore ∧ f.certificateCreate = false
              ∧ s.certificates.any
                  (fun c => c.CertificateNumber == certificateNumber userID courseID now) = false
           then s.certificates ++ [completionCertificate now userID courseID finalScore]
           else s.certificates)
    ∧ CourseRepository.GetByID
        (Faulty.EnrollmentService.CompleteCourse f s now userID courseID finalScore).2 courseID
        = .ok { course with CompletionCount :=
            if f.completionCount = true then course.CompletionCount
            else course.CompletionCount + 1 }
    ∧ (Faulty.EnrollmentService.CompleteCourse f s now userID courseID finalScore).2.enrollments
        = (EnrollmentRepository.MarkAsCompleted s now userID courseID finalScore).enrollments := by
  rw [faulty_completeCourse_eq f s now userID courseID finalScore e course he hc]
  have hwrite : ∀ s2 : Store,
      ((faultyWrite f.completionCount s2
          (fun s0 => CourseRepository.UpdateCompletionCount s0 courseID 1)).2.users = s2.users
      ∧ (faultyWrite f.completionCount s2
          (fun s0 => CourseRepository.UpdateCompletionCount s0 courseID 1)).2.coinTransactions
        = s2.coinTransactions
      ∧ (faultyWrite f.completionCount s2
          (fun s0 => CourseRepository.UpdateCompletionCount s0 courseID 1)).2.certificates
        = s2.certificates
      ∧ (faultyWrite f.completionCount s2
          (fun s0 => CourseRepository.UpdateCompletionCount s0 courseID 1)).2.enrollments
        = s2.enrollments)
      ∧ (CourseRepository.GetByID s2 courseID = .ok course →
        CourseRepository.GetByID (faultyWrite f.completionCount s2
          (fun s0 => CourseRepository.UpdateCompletionCount s0 courseID 1)).2 courseID
        = .ok { course with CompletionCount :=
            if f.completionCount = true then course.CompletionCount
            else course.CompletionCount + 1 }) := by
    intro s2
    unfold faultyWrite
    by_cases hf : f.completionCount = true
    · simp only [if_pos hf]
      refine ⟨⟨?_, ?_, ?_, ?_⟩, fun h => h⟩ <;> first | rfl | trivial
    · simp only [if_neg hf]
      exact ⟨⟨rfl, rfl, rfl, rfl⟩, fun h => updateCompletionCount_get s2 courseID course h⟩
  by_cases hp : finalScore ≥ course.PassingScore
  · simp only [if_pos hp]
    obtain ⟨⟨h1, h2, h3, h4⟩, h5⟩ := hwrite (Faulty.awardCompletion f
      (EnrollmentRepository.MarkAsCompleted s now userID courseID finalScore)
      now userID courseID finalScore course)
    rw [h1, h2, h3, h4, faulty_awardCompletion_users, faulty_awardCompletion_ledger,
      faulty_awardCompletion_certificates]
    refine ⟨?_, ?_, ?_, ?_, ?_⟩
    · cases hf : f.updateCoins
      · rw [if_neg (by simp), if_pos ⟨hp, rfl⟩]
        rfl
      · rw [if_pos rfl, if_neg (by simp)]
        rfl
    · cases hf : f.ledgerCreate
      · rw [if_neg (by simp), if_pos ⟨hp, rfl⟩]
        rfl
      · rw [if_pos rfl, if_neg (by simp)]
        rfl
    · have hsame : (EnrollmentRepository.MarkAsCompleted s now userID courseID
          finalScore).certificates = s.certificates := rfl
      rw [hsame]
      cases hf : f.certificateCreate
      · rw [if_neg (by simp)]
        cases hany : s.certificates.any
          (fun c => c.CertificateNumber == certificateNumber userID courseID now)
        · rw [if_neg (by simp), if_pos ⟨hp, rfl, rfl⟩]
        · rw [if_pos rfl, if_neg (by simp)]
      · rw [if_pos rfl, if_neg (by simp)]
    · apply h5
      unfold CourseRepository.GetByID
      rw [(faulty_awardCompletion_rest f _ now userID courseID finalScore course).1]
      exact hc
    · exact (faulty_awardCompletion_rest f _ now userID courseID finalScore course).2
  · simp only [if_neg hp]
    obtain ⟨⟨h1, h2, h3, h4⟩, h5⟩ := hwrite
      (EnrollmentRepository.MarkAsCompleted s now userID courseID finalScore)
    rw [h1, h2, h3, h4, if_neg (fun h => hp h.1), if_neg (fun h => hp h.1),
      if_neg (fun h => hp h.1)]
    exact ⟨rfl, rfl, rfl, h5 hc, rfl⟩

/-- C12 counterexample: user 7 has completed the course with reward 150 at
second 1000 and holds 200 coins, one ledger row and one certificate.  A second
passing call in the same second succeeds and credits 150 coins again with a
second ledger row, but issues no certificate: the certificate number of the
call is in use and the error of the insert is discarded.  And with the coin
update, the ledger append and the certificate creation failing, a passing call
succeeds without coins, ledger row or certificate. -/
theorem completeCourse_no_certificate_counterexample :
    UserRepository.GetByID completedStore 7 = .ok { ID := 7, GMFCCoins := 200 }
    ∧ completedStore.certificates
      = [{ UserID := 7, CourseID := 11, CertificateNumber := "CERT-7-11-1000",
           IssuedAt := 1000, Score := 85 }]
    ∧ (EnrollmentService.CompleteCourse completedStore 1000 7 11 85).1.toOption.map
        (fun e => e.CompletionStatus) = some "completed"
    ∧ UserRepository.GetByID (EnrollmentService.CompleteCourse completedStore 1000 7 11 85).2 7
      = .ok { ID := 7, GMFCCoins := 350 }
    ∧ (EnrollmentService.CompleteCourse completedStore 1000 7 11 85).2.coinTransactions.length
      = 2
    ∧ (EnrollmentService.CompleteCourse completedStore 1000 7 11 85).2.certificates
      = completedStore.certificates
    ∧ (Faulty.EnrollmentService.CompleteCourse
        { updateCoins := true, ledgerCreate := true, certificateCreate := true }
        completionStore 1000 7 11 85).1.toOption.map (fun e => e.CompletionStatus)
      = some "completed"
    ∧ (Faulty.EnrollmentService.CompleteCourse
        { updateCoins := true, ledgerCreate := true, certificateCreate := true }
        completionStore 1000 7 11 85).2.users = [{ ID := 7, GMFCCoins := 50 }]
    ∧ (Faulty.EnrollmentService.CompleteCourse
        { updateCoins := true, ledgerCreate := true, certificateCreate := true }
        completionStore 1000 7 11 85).2.coinTransactions = []
    ∧ (Faulty.EnrollmentService.CompleteCourse
        { updateCoins := true, ledgerCreate := true, certificateCreate := true }
        completionStore 1000 7 11 85).2.certificates = [] :=
  ⟨by rfl, by rfl, by rfl, by rfl, by rfl, by rfl, by rfl, by rfl, by rfl, by rfl⟩

/-- C12, as the code has it: for an enrolled user and an existing course with
passing score `p` and reward `r`, `EnrollmentService.CompleteCourse`, once it
has marked the enrollment completed and read the enrollment and the course,
returns the completed enrollment, whichever of its later writes fail.  With
`finalScore >= p` each write is made unless it fails, its error being
discarded: the balance of the user rises by exactly `r` when the coin update
succeeds; exactly one ledger row (amount `r`, type `earned`, reason
`Course Completion: <title>`, reference the course) is appended when the ledger
append succeeds; exactly one certificate, for this user and course with score
`finalScore`, is appended when the certificate number of the call is not in use
and the insert succeeds, and none otherwise.  With `finalScore < p` users,
ledger and certificates are unchanged.  The completion counter rises by 1 when
its increment succeeds. -/
theorem completeCourse_rewards (f : Faults) (s : Store) (now userID courseID : Nat)
    (finalScore : Int) (e : Enrollment) (course : Course)
    (he : EnrollmentRepository.GetByUserAndCourse s userID courseID = .ok e)
    (hc : CourseRepository.GetByID s courseID = .ok course) :
    (∃ done : Enrollment,
      (Faulty.EnrollmentService.CompleteCourse f s now userID courseID finalScore).1 = .ok done
      ∧ done.UserID = userID ∧ done.CourseID = courseID
      ∧ done.CompletionStatus = "completed" ∧ done.FinalScore = finalScore)
    ∧ CourseRepository.GetByID
        (Faulty.EnrollmentService.CompleteCourse f s now userID courseID finalScore).2 courseID
        = .ok { course with CompletionCount :=
            if f.completionCount = true then course.CompletionCount
            else course.CompletionCount + 1 }
    ∧ (finalScore ≥ course.PassingScore →
        (f.updateCoins = false →
          ∀ user : User, UserRepository.GetByID s userID = .ok user →
            UserRepository.GetByID
                (Faulty.EnrollmentService.CompleteCourse f s now userID courseID
                  finalScore).2 userID
              = .ok { user with GMFCCoins := user.GMFCCoins + course.CoinsReward })
        ∧ (f.updateCoins = true →
          (Faulty.EnrollmentService.CompleteCourse f s now userID courseID finalScore).2.users
            = s.users)
        ∧ (f.ledgerCreate = false →
          (Faulty.EnrollmentService.CompleteCourse f s now userID courseID
              finalScore).2.coinTransactions
            = s.coinTransactions ++
                [{ UserID := userID, Amount := course.CoinsReward, TransactionType := "earned",
                   Reason := "Course Completion: " ++ course.Title,
                   ReferenceID := some courseID, ReferenceType := "course" }])
        ∧ (f.ledgerCreate = true →
          (Faulty.EnrollmentService.CompleteCourse f s now userID courseID
              finalScore).2.coinTransactions = s.coinTransactions)
        ∧ (f.certificateCreate = false → certificateNumberFree s now userID courseID →
          (Faulty.EnrollmentService.CompleteCourse f s now userID courseID
              finalScore).2.certificates
            = s.certificates ++
                [{ UserID := userID, CourseID := courseID,
                   CertificateNumber := certificateNumber userID courseID now,
                   IssuedAt := now, Score := finalScore }])
        ∧ (f.certificateCreate = true ∨ ¬ certificateNumberFree s now userID courseID →
          (Faulty.EnrollmentService.CompleteCourse f s now userID courseID
              finalScore).2.certificates = s.certificates))
    ∧ (finalScore < course.PassingScore →
        (Faulty.EnrollmentService.CompleteCourse f s now userID courseID finalScore).2.users
          = s.users
        ∧ (Faulty.EnrollmentService.CompleteCourse f s now userID courseID
            finalScore).2.coinTransactions = s.coinTransactions
        ∧ (Faulty.EnrollmentService.CompleteCourse f s now userID courseID
            finalScore).2.certificates = s.certificates) := by
  obtain ⟨husers, hledger, hcerts, hcourse, -⟩ :=
    faulty_completeCourse_store f s now userID courseID finalScore e course he hc
  have hpair := getByUserAndCourse_pair s userID courseID e he
  have hid := getCourse_id s courseID course hc
  have hfree := certificateNumberFree_iff s now userID courseID
  refine ⟨⟨completedEnrollment e now finalScore, ?_, hpair.1, hpair.2, rfl, rfl⟩, hcourse,
    ?_, ?_⟩
  · rw [faulty_completeCourse_eq f s now userID courseID finalScore e course he hc]
  · intro hp
    refine ⟨?_, ?_, ?_, ?_, ?_, ?_⟩
    · intro hf user hu
      rw [if_pos ⟨hp, hf⟩] at husers
      exact creditedUsers_get s userID course.CoinsReward _ husers user hu
    · intro hf
      rw [husers, if_neg]
      intro h
      rw [hf] at h
      exact Bool.noConfusion h.2
    · intro hf
      rw [hledger, if_pos ⟨hp, hf⟩, ← hid]
      rfl
    · intro hf
      rw [hledger, if_neg]
      intro h
      rw [hf] at h
      exact Bool.noConfusion h.2
    · intro hf hnum
      rw [hcerts, if_pos ⟨hp, hf, hfree.mp hnum⟩]
      rfl
    · intro hor
      rw [hcerts, if_neg]
      rintro ⟨-, h1, h2⟩
      rcases hor with hf | hnum
      · rw [hf] at h1
        exact Bool.noConfusion h1
      · exact hnum (hfree.mpr h2)
  · intro hlow
    have hnp : ¬ finalScore ≥ course.PassingScore := by omega
    rw [husers, hledger, hcerts, if_neg (fun h => hnp h.1), if_neg (fun h => hnp h.1),
      if_neg (fun h => hnp h.1)]
    exact ⟨rfl, rfl, rfl⟩

/-- C12 (amended), evaluated on the example of the claim: passing score 70,
reward 150, final score 85, all writes succeeding and the certificate number
free give 150 more coins (50 before), one ledger row and one certificate. -/
theorem completeCourse_rewards_witness :
    EnrollmentRepository.GetByUserAndCourse completionStore 7 11
      = .ok { ID := 3, UserID := 7, CourseID := 11 }
    ∧ CourseRepository.GetByID completionStore 11 = .ok rewardCourse
    ∧ UserRepository.GetByID
        (Faulty.EnrollmentService.CompleteCourse {} completionStore 1000 7 11 85).2 7
        = .ok { ID := 7, GMFCCoins := 200 }
    ∧ (Faulty.EnrollmentService.CompleteCourse {} completionStore 1000 7 11 85).2.certificates
        = [{ UserID := 7, CourseID := 11, CertificateNumber := "CERT-7-11-1000",
             IssuedAt := 1000, Score := 85 }]
    ∧ (Faulty.EnrollmentService.CompleteCourse {} completionStore 1000 7 11
        85).2.coinTransactions.length = 1 := by
  have h := completeCourse_rewards {} completionStore 1000 7 11 85
    { ID := 3, UserID := 7, CourseID := 11 } rewardCourse rfl rfl
  obtain ⟨-, -, hpass, -⟩ := h
  obtain ⟨hbal, -, hledger, -, hcert, -⟩ := hpass (by decide)
  refine ⟨rfl, rfl, ?_, ?_, ?_⟩
  · rw [hbal rfl { ID := 7, GMFCCoins := 50 } rfl]
    rfl
  · rw [hcert rfl (by intro c hc; cases hc)]
    rfl
  · rw [hledger rfl]
    rfl

/-! ### Repeated completions -/

theorem faulty_completeCourse_certificates_cases (f : Faults) (s : Store)
    (now userID courseID : Nat) (finalScore : Int) :
    (Faulty.EnrollmentService.CompleteCourse f s now userID courseID finalScore).2.certificates
        = s.certificates
    ∨ (certificateNumberFree s now userID courseID
        ∧ (Faulty.EnrollmentService.CompleteCourse f s now userID courseID
            finalScore).2.certificates
          = s.certificates ++ [completionCertificate now userID courseID finalScore]) := by
  cases he : EnrollmentRepository.GetByUserAndCourse s userID courseID with
  | error err =>
    rw [faulty_completeCourse_not_enrolled f s now userID courseID finalScore err he]
    exact Or.inl rfl
  | ok e =>
    cases hc : CourseRepository.GetByID s courseID with
    | error err =>
      rw [faulty_completeCourse_no_course f s now userID courseID finalScore e err he hc]
      exact Or.inl rfl
    | ok course =>
      obtain ⟨-, -, hcerts, -, -⟩ :=
        faulty_completeCourse_store f s now userID courseID finalScore e course he hc
      rw [hcerts]
      split_ifs with h
      · exact Or.inr ⟨(certificateNumberFree_iff s now userID courseID).mpr h.2.2, rfl⟩
      · exact Or.inl rfl

theorem faulty_completeCourse_numbers_nodup (f : Faults) (s : Store)
    (now userID courseID : Nat) (finalScore : Int) (h : (certificateNumbers s).Nodup) :
    (certificateNumbers
      (Faulty.EnrollmentService.CompleteCourse f s now userID courseID finalScore).2).Nodup := by
  rcases faulty_completeCourse_certificates_cases f s now userID courseID finalScore with
    hsame | ⟨hfree, happ⟩
  · unfold certificateNumbers at h ⊢
    rw [hsame]
    exact h
  · unfold certificateNumbers at h ⊢
    rw [happ, List.map_append, List.nodup_append]
    refine ⟨h, by simp, ?_⟩
    intro a ha hb
    simp only [List.map_cons, List.map_nil, List.mem_singleton] at hb
    rw [List.mem_map] at ha
    obtain ⟨c, hcmem, hca⟩ := ha
    apply hfree c hcmem
    rw [hca, hb]
    rfl

theorem runFaultyCompleteCourses_numbers_nodup (calls : List (Faults × CompleteCall)) :
    ∀ s : Store, (certificateNumbers s).Nodup →
      (certificateNumbers (runFaultyCompleteCourses s calls)).Nodup := by
  induction calls with
  | nil => intro s h; exact h
  | cons c rest ih =>
    intro s h
    exact ih _ (faulty_completeCourse_numbers_nodup c.1 s c.2.now c.2.userID c.2.courseID
      c.2.finalScore h)

/-- C13, as the code has it: after any sequence of `EnrollmentService.CompleteCourse`
calls, whichever of their discarded writes fail, the certificate numbers in the
store are pairwise distinct (when they were before), but neither the
certificates of a (user, course) pair nor the credits are limited to one.  Every
call for an enrolled user and an existing course with
`finalScore >= passing_score`, once it has marked the enrollment completed and
read the enrollment and the course, credits `coins_reward` to the user again when its
coin update succeeds, appends one more ledger row when its ledger append
succeeds, whatever completions came before, and appends one more certificate of
the pair unless the certificate number of the call is already in use or the
insert fails. -/
theorem completeCourse_repeated (s : Store) (calls : List (Faults × CompleteCall))
    (hnodup : (certificateNumbers s).Nodup) :
    (certificateNumbers (runFaultyCompleteCourses s calls)).Nodup
    ∧ (∀ (f : Faults) (s1 : Store) (now userID courseID : Nat) (finalScore : Int)
        (e : Enrollment) (course : Course),
        EnrollmentRepository.GetByUserAndCourse s1 userID courseID = .ok e →
        CourseRepository.GetByID s1 courseID = .ok course →
        finalScore ≥ course.PassingScore →
        (f.updateCoins = false →
          ∀ user : User, UserRepository.GetByID s1 userID = .ok user →
            UserRepository.GetByID
                (Faulty.EnrollmentService.CompleteCourse f s1 now userID courseID
                  finalScore).2 userID
              = .ok { user with GMFCCoins := user.GMFCCoins + course.CoinsReward })
        ∧ (f.ledgerCreate = false →
          (Faulty.EnrollmentService.CompleteCourse f s1 now userID courseID
              finalScore).2.coinTransactions
            = s1.coinTransactions ++ [completionTransaction userID course])
        ∧ certificatesOf
            (Faulty.EnrollmentService.CompleteCourse f s1 now userID courseID finalScore).2
            userID courseID
          = certificatesOf s1 userID courseID
            + (if f.certificateCreate = true
                  ∨ s1.certificates.any
                      (fun c => c.CertificateNumber == certificateNumber userID courseID now)
                    = true
               then 0 else 1)) := by
  refine ⟨runFaultyCompleteCourses_numbers_nodup calls s hnodup, ?_⟩
  intro f s1 now userID courseID finalScore e course he hc hp
  obtain ⟨husers, hledger, hcerts, -, -⟩ :=
    faulty_completeCourse_store f s1 now userID courseID finalScore e course he hc
  refine ⟨?_, ?_, ?_⟩
  · intro hf user hu
    rw [if_pos ⟨hp, hf⟩] at husers
    exact creditedUsers_get s1 userID course.CoinsReward _ husers user hu
  · intro hf
    rw [hledger, if_pos ⟨hp, hf⟩]
  · unfold certificatesOf
    rw [hcerts]
    by_cases hcond : f.certificateCreate = true
        ∨ s1.certificates.any
            (fun c => c.CertificateNumber == certificateNumber userID courseID now) = true
    · rw [if_pos hcond, if_neg]
      · rfl
      · rintro ⟨-, h1, h2⟩
        rcases hcond with h | h
        · rw [h] at h1
          exact Bool.noConfusion h1
        · rw [h] at h2
          exact Bool.noConfusion h2
    · rw [if_neg hcond]
      have h1 : f.certificateCreate = false := by
        cases hf : f.certificateCreate
        · rfl
        · exact absurd (Or.inl hf) hcond
      have h2 : s1.certificates.any
          (fun c => c.CertificateNumber == certificateNumber userID courseID now) = false := by
        cases hany : s1.certificates.any
          (fun c => c.CertificateNumber == certificateNumber userID courseID now)
        · rfl
        · exact absurd (Or.inr hany) hcond
      rw [if_pos ⟨hp, h1, h2⟩, List.countP_append]
      simp [completionCertificate]

/-- C13 (amended), evaluated on the example store: after two passing
completions at seconds 1000 and 2000 the two certificate numbers are distinct. -/
theorem completeCourse_repeated_witness :
    (certificateNumbers completionStore).Nodup
    ∧ certificateNumbers
        (runFaultyCompleteCourses completionStore
          [({}, ⟨1000, 7, 11, 85⟩), ({}, ⟨2000, 7, 11, 85⟩)])
        = ["CERT-7-11-1000", "CERT-7-11-2000"]
    ∧ (certificateNumbers
        (runFaultyCompleteCourses completionStore
          [({}, ⟨1000, 7, 11, 85⟩), ({}, ⟨2000, 7, 11, 85⟩)])).Nodup :=
  ⟨List.nodup_nil, by rfl,
    (completeCourse_repeated completionStore
      [({}, ⟨1000, 7, 11, 85⟩), ({}, ⟨2000, 7, 11, 85⟩)] List.nodup_nil).1⟩

/-! ### The ledger invariant under failing writes -/

theorem applyFaultyCoinOp_cases (s : Store) (f : Faults) (op : CoinOp)
    (hledger : f.ledgerCreate = false) :
    applyFaultyCoinOp s f op = s ∨ applyFaultyCoinOp s f op = applyCoinOp s op := by
  have hnot : ¬ f.ledgerCreate = true := by rw [hledger]; exact Bool.false_ne_true
  cases op with
  | award userID amount reason referenceType referenceID =>
    simp only [applyFaultyCoinOp, applyCoinOp]
    by_cases h : amount ≤ 0
    · left
      unfold Faulty.GamificationService.AwardCoins
      rw [if_pos h]
    · rw [faulty_awardCoins_cases f s userID amount reason referenceType referenceID (by omega)]
      by_cases hf : f.updateCoins = true
      · left
        rw [if_pos hf]
      · right
        rw [if_neg hf, if_neg hnot]
  | spend userID amount reason =>
    simp only [applyFaultyCoinOp, applyCoinOp]
    obtain ⟨h1, h2, h3⟩ := faulty_spendCoins_domain f s userID amount reason
    by_cases h : amount ≤ 0
    · left
      rw [h1 h]
    · cases hu : UserRepository.GetByID s userID with
      | error err =>
        left
        rw [h2 err (by omega) hu]
      | ok user =>
        by_cases hlow : user.GMFCCoins < amount
        · left
          rw [h3 user (by omega) hu hlow]
        · rw [faulty_spendCoins_cases f s userID amount reason user (by omega) hu (by omega)]
          by_cases hf : f.updateCoins = true
          · left
            rw [if_pos hf]
          · right
            rw [if_neg hf, if_neg hnot]

theorem runFaultyCoinOps_invariant (calls : List (Faults × CoinOp)) :
    ∀ s : Store, (∀ call ∈ calls, call.1.ledgerCreate = false) →
      balancesMatchLedger s → (∀ user ∈ s.users, 0 ≤ user.GMFCCoins) →
      (s.users.map (fun u => u.ID)).Nodup →
      balancesMatchLedger (runFaultyCoinOps s calls)
      ∧ (∀ user ∈ (runFaultyCoinOps s calls).users, 0 ≤ user.GMFCCoins) := by
  induction calls with
  | nil => intro s _ h1 h2 _; exact ⟨h1, h2⟩
  | cons call rest ih =>
    intro s hcalls h1 h2 h3
    have hrest : ∀ c ∈ rest, c.1.ledgerCreate = false :=
      fun c hc => hcalls c (List.mem_cons_of_mem _ hc)
    rw [runFaultyCoinOps]
    rcases applyFaultyCoinOp_cases s call.1 call.2 (hcalls call (List.mem_cons_self _ _)) with
      hsame | hbase
    · rw [hsame]
      exact ih s hrest h1 h2 h3
    · rw [hbase]
      obtain ⟨g1, g2, g3⟩ := applyCoinOp_invariant s call.2 h1 h2 h3
      exact ih _ hrest g1 g2 g3

/-- C22 counterexample: in the example store the balance of user 7 equals the
sum of the ledger rows, 50.  One `AwardCoins` call of 30 coins whose ledger
append fails returns the error with the balance already raised: the balance is
80 and the ledger sum still 50.  And a state whose balance and ledger sum are
both -5 satisfies the starting condition with a negative balance, which a
rejected call leaves as it is. -/
theorem ledger_append_failure_counterexample :
    (∀ user ∈ ledgerStore.users, user.GMFCCoins = ledgerSum ledgerStore user.ID)
    ∧ (Faulty.GamificationService.AwardCoins { ledgerCreate := true } ledgerStore 7 30 "Bonus"
        "quiz" none).1 = .error .storageError
    ∧ UserRepository.GetByID
        (runFaultyCoinOps ledgerStore
          [({ ledgerCreate := true }, .award 7 30 "Bonus" "quiz" none)]) 7
      = .ok { ID := 7, GMFCCoins := 80 }
    ∧ ledgerSum
        (runFaultyCoinOps ledgerStore
          [({ ledgerCreate := true }, .award 7 30 "Bonus" "quiz" none)]) 7 = 50
    ∧ (∀ user ∈ debtStore.users, user.GMFCCoins = ledgerSum debtStore user.ID)
    ∧ UserRepository.GetByID (runFaultyCoinOps debtStore [({}, .spend 7 10 "reward")]) 7
      = .ok { ID := 7, GMFCCoins := -5 } :=
  ⟨by decide, by rfl, by rfl, by rfl, by decide, by rfl⟩

/-- C22, as the code has it: starting from a store in which every cached balance
equals the sum of the amounts of the ledger rows of its user, no balance is
negative and user ids are distinct, after any sequence of `AwardCoins` and
`SpendCoins` calls in which no ledger append fails (the calls may be rejected,
and their coin update may fail), every cached balance still equals the ledger
sum of its user and no balance is negative. -/
theorem ledger_invariant (s : Store) (calls : List (Faults × CoinOp))
    (hcalls : ∀ call ∈ calls, call.1.ledgerCreate = false)
    (hmatch : ∀ user ∈ s.users, user.GMFCCoins = ledgerSum s user.ID)
    (hnonneg : ∀ user ∈ s.users, 0 ≤ user.GMFCCoins)
    (hkeys : (s.users.map (fun u => u.ID)).Nodup) :
    (∀ user ∈ (runFaultyCoinOps s calls).users,
        user.GMFCCoins = ledgerSum (runFaultyCoinOps s calls) user.ID)
    ∧ (∀ user ∈ (runFaultyCoinOps s calls).users, 0 ≤ user.GMFCCoins) :=
  runFaultyCoinOps_invariant calls s hcalls hmatch hnonneg hkeys

/-- C22 (amended), evaluated on the example store: award 30, spend 100
(rejected), award 40 with a failing coin update, spend 60, award 0 (rejected)
leave user 7 with 20 coins, the sum of the ledger rows 50, 30 and -60. -/
theorem ledger_invariant_witness :
    (∀ user ∈ ledgerStore.users, user.GMFCCoins = ledgerSum ledgerStore user.ID)
    ∧ (runFaultyCoinOps ledgerStore
        [({}, .award 7 30 "Quiz" "quiz" (some 1)), ({}, .spend 7 100 "reward"),
         ({ updateCoins := true }, .award 7 40 "Quiz" "quiz" none),
         ({}, .spend 7 60 "reward"), ({}, .award 7 0 "Quiz" "quiz" none)]).users
      = [{ ID := 7, GMFCCoins := 20 }, { ID := 8 }]
    ∧ ledgerSum (runFaultyCoinOps ledgerStore
        [({}, .award 7 30 "Quiz" "quiz" (some 1)), ({}, .spend 7 100 "reward"),
         ({ updateCoins := true }, .award 7 40 "Quiz" "quiz" none),
         ({}, .spend 7 60 "reward"), ({}, .award 7 0 "Quiz" "quiz" none)]) 7 = 20 := by
  have hmatch : ∀ user ∈ ledgerStore.users, user.GMFCCoins = ledgerSum ledgerStore user.ID := by
    decide
  have h := ledger_invariant ledgerStore
    [({}, .award 7 30 "Quiz" "quiz" (some 1)), ({}, .spend 7 100 "reward"),
     ({ updateCoins := true }, .award 7 40 "Quiz" "quiz" none),
     ({}, .spend 7 60 "reward"), ({}, .award 7 0 "Quiz" "quiz" none)]
    (by decide) hmatch (by decide) (by decide)
  have husers : (runFaultyCoinOps ledgerStore
      [({}, .award 7 30 "Quiz" "quiz" (some 1)), ({}, .spend 7 100 "reward"),
       ({ updateCoins := true }, .award 7 40 "Quiz" "quiz" none),
       ({}, .spend 7 60 "reward"), ({}, .award 7 0 "Quiz" "quiz" none)]).users
      = [{ ID := 7, GMFCCoins := 20 }, { ID := 8 }] := by
    rfl
  refine ⟨hmatch, husers, ?_⟩
  have h7 := h.1 { ID := 7, GMFCCoins := 20 } (by rw [husers]; exact List.mem_cons_self _ _)
  exact h7.symm

/-! ### Which badges are earned -/

/-- C24, as the code has it: only the criteria kinds `coins_earned` and
`learning_hours` are evaluated; every other kind (completed-course count,
perfect-quiz count, streak days) is never satisfied.  `coins_earned` compares
the balance with `int64(value)`: the value with its fraction discarded when that
lies in the `int64` range, and otherwise (on amd64) the smallest `int64`, so that
a value of `2^63` or more is met by every user.  When the user exists, no
criteria evaluation panics and the badge writes succeed, the call returns
without error, and afterwards a badge is earned by the user exactly when it was
earned before or it is a badge of the table whose criteria `shouldEarnBadge`
accepts for the user record read at the start of the call. -/
theorem checkAndAwardBadges_earned (s : Store) (now userID : Nat) (user : User)
    (hget : UserRepository.GetByID s userID = .ok user)
    (hok : ∀ b ∈ s.badges, ∃ met, shouldEarnBadge user b.Criteria = .returned met) :
    (GamificationService.CheckAndAwardBadges s now userID).1 = .returned (.ok ())
    ∧ (∀ bid : Nat,
        badgeAlreadyEarned (GamificationService.CheckAndAwardBadges s now userID).2 userID bid
          = (badgeAlreadyEarned s userID bid
              || s.badges.any (fun b => b.ID == bid
                  && decide (shouldEarnBadge user b.Criteria = .returned true))))
    ∧ (∀ (u : User) (criteria : Criteria) (kind : String),
        criteriaValue criteria "type" = .string kind →
        kind ≠ "coins_earned" → kind ≠ "learning_hours" →
        shouldEarnBadge u criteria = .returned false)
    ∧ (∀ (u : User) (criteria : Criteria) (value : Binary64),
        criteriaValue criteria "type" = .string "coins_earned" →
        criteriaValue criteria "value" = .number value →
        shouldEarnBadge u criteria = .returned (decide (u.GMFCCoins ≥ value.toInt)))
    ∧ (∀ (u : User) (criteria : Criteria) (hours : Binary64),
        criteriaValue criteria "type" = .string "learning_hours" →
        criteriaValue criteria "hours" = .number hours →
        shouldEarnBadge u criteria = .returned (Binary64.le hours u.TotalLearningHours))
    ∧ (∀ value : Binary64, -2 ^ 63 ≤ value.truncate → value.truncate < 2 ^ 63 →
        value.toInt = value.truncate)
    ∧ (∀ (u : User) (criteria : Criteria) (value : Binary64),
        criteriaValue criteria "type" = .string "coins_earned" →
        criteriaValue criteria "value" = .number value →
        2 ^ 63 ≤ value.truncate → -2 ^ 63 ≤ u.GMFCCoins →
        shouldEarnBadge u criteria = .returned true) := by
  have hcoins : ∀ (u : User) (criteria : Criteria) (value : Binary64),
      criteriaValue criteria "type" = .string "coins_earned" →
      criteriaValue criteria "value" = .number value →
      shouldEarnBadge u criteria = .returned (decide (u.GMFCCoins ≥ value.toInt)) := by
    intro u criteria value hkind hvalue
    unfold shouldEarnBadge
    rw [hkind]
    simp only [if_true, hvalue]
  refine ⟨?_, ?_, ?_, hcoins, ?_, ?_, ?_⟩
  · rw [checkAndAwardBadges_eq s now userID user hget hok]
  · intro bid
    rw [checkAndAwardBadges_eq s now userID user hget hok]
    exact checkBadgesLoop_earned now user userID s.badges bid s hok
  · intro u criteria kind hkind h1 h2
    unfold shouldEarnBadge
    rw [hkind]
    simp only [if_neg h1, if_neg h2]
  · intro u criteria hours hkind hhours
    unfold shouldEarnBadge
    rw [hkind]
    have hne : ¬ ("learning_hours" = "coins_earned") := by decide
    simp only [if_neg hne, if_true, hhours]
  · intro value hlow hhigh
    unfold Binary64.toInt
    rw [if_pos ⟨hlow, hhigh⟩]
  · intro u criteria value hkind hvalue hbig hbal
    rw [hcoins u criteria value hkind hvalue]
    have hconv : value.toInt = -2 ^ 63 := by
      unfold Binary64.toInt
      rw [if_neg]
      intro h
      omega
    rw [hconv]
    congr 1
    exact decide_eq_true hbal

/-- C24 (amended), evaluated on the example store: the coin badge is earned after
the call and the streak badge is not. -/
theorem checkAndAwardBadges_earned_witness :
    badgeAlreadyEarned (GamificationService.CheckAndAwardBadges badgeStore 1000 7).2 7 1 = true
    ∧ badgeAlreadyEarned (GamificationService.CheckAndAwardBadges badgeStore 1000 7).2 7 2
      = false := by
  have h := checkAndAwardBadges_earned badgeStore 1000 7
    { ID := 7, GMFCCoins := 100, CurrentBadgeLevel := "gold", CurrentStreak := 30 } rfl
    badgeStore_criteria
  refine ⟨?_, ?_⟩
  · rw [h.2.1 1]
    decide
  · rw [h.2.1 2]
    decide

/-! ### State left by a failing call: the amended statement -/

/-- C25, as the code has it: no call runs in a transaction, so a failing call
keeps the writes made before the failing step, whichever writes fail.  The
store is exactly as before the call for the domain errors (`AwardCoins` and
`SpendCoins` with a non-positive amount, `SpendCoins` for an unknown user or an
insufficient balance, `CompleteCourse` for a pair without enrollment) and for a
failing coin update of `AwardCoins` or `SpendCoins`.  `CompleteCourse` whose
course lookup fails returns the error with the enrollment already marked
completed (all other tables as before), and `AwardCoins` or `SpendCoins` whose
ledger append fails returns the error with the balance already updated. -/
theorem failing_call_keeps_earlier_writes (f : Faults) (s : Store) (now userID courseID : Nat)
    (finalScore amount : Int) (reason referenceType : String) (referenceID : Option Nat) :
    (amount ≤ 0 →
      Faulty.GamificationService.AwardCoins f s userID amount reason referenceType referenceID
        = (.error .invalidAmount, s)
      ∧ Faulty.GamificationService.SpendCoins f s userID amount reason
        = (.error .invalidAmount, s))
    ∧ (∀ err, 0 < amount → UserRepository.GetByID s userID = .error err →
      Faulty.GamificationService.SpendCoins f s userID amount reason = (.error err, s))
    ∧ (∀ user, 0 < amount → UserRepository.GetByID s userID = .ok user →
      user.GMFCCoins < amount →
      Faulty.GamificationService.SpendCoins f s userID amount reason
        = (.error .insufficientCoins, s))
    ∧ (∀ err, EnrollmentRepository.GetByUserAndCourse s userID courseID = .error err →
      Faulty.EnrollmentService.CompleteCourse f s now userID courseID finalScore
        = (.error .recordNotFound, s))
    ∧ (∀ e err, EnrollmentRepository.GetByUserAndCourse s userID courseID = .ok e →
      CourseRepository.GetByID s courseID = .error err →
      Faulty.EnrollmentService.CompleteCourse f s now userID courseID finalScore
        = (.error err, EnrollmentRepository.MarkAsCompleted s now userID courseID finalScore)
      ∧ EnrollmentRepository.GetByUserAndCourse
          (Faulty.EnrollmentService.CompleteCourse f s now userID courseID finalScore).2
          userID courseID
        = .ok { e with CompletionStatus := "completed", CompletedAt := some now,
                       FinalScore := finalScore, IsPassed := decide (finalScore ≥ 70),
                       OverallProgress := 100 }
      ∧ { (Faulty.EnrollmentService.CompleteCourse f s now userID courseID finalScore).2 with
            enrollments := s.enrollments } = s)
    ∧ (0 < amount → f.updateCoins = true →
      Faulty.GamificationService.AwardCoins f s userID amount reason referenceType referenceID
        = (.error .storageError, s))
    ∧ (∀ user, 0 < amount → UserRepository.GetByID s userID = .ok user →
      amount ≤ user.GMFCCoins → f.updateCoins = true →
      Faulty.GamificationService.SpendCoins f s userID amount reason
        = (.error .storageError, s))
    ∧ (0 < amount → f.updateCoins = false → f.ledgerCreate = true →
      Faulty.GamificationService.AwardCoins f s userID amount reason referenceType referenceID
        = (.error .storageError, UserRepository.UpdateCoins s userID amount))
    ∧ (∀ user, 0 < amount → UserRepository.GetByID s userID = .ok user →
      amount ≤ user.GMFCCoins → f.updateCoins = false → f.ledgerCreate = true →
      Faulty.GamificationService.SpendCoins f s userID amount reason
        = (.error .storageError, UserRepository.UpdateCoins s userID (-amount)))
    ∧ (∀ err, (Faulty.EnrollmentService.CompleteCourse f s now userID courseID finalScore).1
          = .error err →
        (Faulty.EnrollmentService.CompleteCourse f s now userID courseID finalScore).2.users
          = s.users
        ∧ (Faulty.EnrollmentService.CompleteCourse f s now userID courseID
            finalScore).2.coinTransactions = s.coinTransactions
        ∧ (Faulty.EnrollmentService.CompleteCourse f s now userID courseID
            finalScore).2.certificates = s.certificates
        ∧ (Faulty.EnrollmentService.CompleteCourse f s now userID courseID
            finalScore).2.courses = s.courses) := by
  obtain ⟨hd1, hd2, hd3⟩ := faulty_spendCoins_domain f s userID amount reason
  refine ⟨?_, hd2, hd3, ?_, ?_, ?_, ?_, ?_, ?_, ?_⟩
  · intro h
    refine ⟨?_, hd1 h⟩
    unfold Faulty.GamificationService.AwardCoins
    rw [if_pos h]
  · intro err he
    exact faulty_completeCourse_not_enrolled f s now userID courseID finalScore err he
  · intro e err he hc
    have hcall := faulty_completeCourse_no_course f s now userID courseID finalScore e err he hc
    refine ⟨hcall, ?_, ?_⟩
    · rw [hcall]
      exact markAsCompleted_get s now userID courseID finalScore e he
    · rw [hcall]
      rfl
  · intro h hf
    rw [faulty_awardCoins_cases f s userID amount reason referenceType referenceID h, if_pos hf]
  · intro user h hu hbal hf
    rw [faulty_spendCoins_cases f s userID amount reason user h hu hbal, if_pos hf]
  · intro h hf1 hf2
    rw [faulty_awardCoins_cases f s userID amount reason referenceType referenceID h,
      if_neg (by rw [hf1]; exact Bool.false_ne_true), if_pos hf2]
  · intro user h hu hbal hf1 hf2
    rw [faulty_spendCoins_cases f s userID amount reason user h hu hbal,
      if_neg (by rw [hf1]; exact Bool.false_ne_true), if_pos hf2]
  · intro err herr
    cases he : EnrollmentRepository.GetByUserAndCourse s userID courseID with
    | error err1 =>
      rw [faulty_completeCourse_not_enrolled f s now userID courseID finalScore err1 he]
      exact ⟨rfl, rfl, rfl, rfl⟩
    | ok e =>
      cases hc : CourseRepository.GetByID s courseID with
      | error err1 =>
        rw [faulty_completeCourse_no_course f s now userID courseID finalScore e err1 he hc]
        exact ⟨rfl, rfl, rfl, rfl⟩
      | ok course =>
        rw [faulty_completeCourse_eq f s now userID courseID finalScore e course he hc] at herr
        cases herr

/-- C25 (amended), evaluated: spending 100 of the 50 coins of user 7 fails and
leaves the store as it was, while completing the course missing from the course
table fails and leaves the enrollment completed. -/
theorem failing_call_keeps_earlier_writes_witness :
    Faulty.GamificationService.SpendCoins {} ledgerStore 7 100 "reward"
      = (.error .insufficientCoins, ledgerStore)
    ∧ Faulty.EnrollmentService.CompleteCourse {} orphanStore 1000 7 5 85
      = (.error .recordNotFound, EnrollmentRepository.MarkAsCompleted orphanStore 1000 7 5 85)
    ∧ Faulty.GamificationService.SpendCoins { updateCoins := true } ledgerStore 7 20 "reward"
      = (.error .storageError, ledgerStore) := by
  have h1 := failing_call_keeps_earlier_writes {} ledgerStore 1000 7 5 85 100 "reward" "" none
  have h2 := failing_call_keeps_earlier_writes {} orphanStore 1000 7 5 85 100 "reward" "" none
  have h3 := failing_call_keeps_earlier_writes { updateCoins := true } ledgerStore 1000 7 5 85
    20 "reward" "" none
  obtain ⟨e, he⟩ : ∃ e, EnrollmentRepository.GetByUserAndCourse orphanStore 7 5 = .ok e :=
    ⟨_, rfl⟩
  exact ⟨h1.2.2.1 { ID := 7, GMFCCoins := 50 } (by decide) rfl (by decide),
    (h2.2.2.2.2.1 e .recordNotFound he rfl).1,
    h3.2.2.2.2.2.2.1 { ID := 7, GMFCCoins := 50 } (by decide) rfl (by decide) rfl⟩

/-! ### The coin award of `SubmitAttempt` under failing writes -/

theorem faulty_submitAttempt_users (f : Faults) (s : Store) (now userID quizID attemptID : Nat)
    (answers : Answers) (timeSpent : Int) (attempt : QuizAttempt) (quiz : Quiz)
    (ha : QuizAttemptRepository.GetByID s attemptID = .ok attempt)
    (hq : QuizRepository.GetByID s quizID = .ok quiz) :
    (Faulty.QuizService.SubmitAttempt f s now userID quizID attemptID answers timeSpent).2.users
      = (if (gradedAttempt attempt quiz now answers timeSpent).IsPassed = true
            ∧ 0 < wrapInt64 (quiz.PassingScore * 2) ∧ f.updateCoins = false
         then creditedUsers s userID (wrapInt64 (quiz.PassingScore * 2)) else s.users) := by
  unfold Faulty.QuizService.SubmitAttempt
  simp only [ha, hq]
  unfold Faulty.GamificationService.AwardCoins faultyWrite creditedUsers
  simp only [gradedAttempt]
  split_ifs <;>
    first
    | rfl
    | (exfalso; simp_all; done)
    | (exfalso; omega)

theorem faulty_submitAttempt_ledger (f : Faults) (s : Store) (now userID quizID attemptID : Nat)
    (answers : Answers) (timeSpent : Int) (attempt : QuizAttempt) (quiz : Quiz)
    (ha : QuizAttemptRepository.GetByID s attemptID = .ok attempt)
    (hq : QuizRepository.GetByID s quizID = .ok quiz) :
    (Faulty.QuizService.SubmitAttempt f s now userID quizID attemptID answers
          timeSpent).2.coinTransactions
      = (if (gradedAttempt attempt quiz now answers timeSpent).IsPassed = true
            ∧ 0 < wrapInt64 (quiz.PassingScore * 2) ∧ f.updateCoins = false
            ∧ f.ledgerCreate = false
         then s.coinTransactions ++ [quizTransaction userID quiz] else s.coinTransactions) := by
  unfold Faulty.QuizService.SubmitAttempt
  simp only [ha, hq]
  unfold Faulty.GamificationService.AwardCoins faultyWrite quizTransaction
  simp only [gradedAttempt]
  split_ifs <;>
    first
    | rfl
    | (exfalso; simp_all; done)
    | (exfalso; omega)

theorem wrapInt64_double (p : Int) (h0 : 0 ≤ p) (h1 : p < 2 ^ 62) :
    wrapInt64 (p * 2) = p * 2 :=
  wrapInt64_of_range (p * 2) ⟨by omega, by omega⟩

/-- C27, as the code has it: for a quiz with `0 < passing_score < 2^62`,
whenever `SubmitAttempt` grades the attempt as passed and the coin update and
the ledger append succeed, the balance of the user rises by exactly
`passing_score * 2` and exactly one ledger row is appended, of type `earned`,
with reason "Quiz Passed: <title>" and reference (quiz, quiz id).  When the
attempt is passed and the reward, the 64-bit product `passing_score * 2`, is
not positive (passing score 0, or a product that wraps around), or when the
attempt is not passed, users and ledger are unchanged.  The errors of the award
are discarded: with a failing coin update nothing is written, with a failing
ledger append the balance is raised without a ledger row, and in every case the
graded attempt, once stored, is returned without error. -/
theorem submitAttempt_coin_award (f : Faults) (s : Store) (now userID quizID attemptID : Nat)
    (answers : Answers) (timeSpent : Int) (attempt : QuizAttempt) (quiz : Quiz)
    (ha : QuizAttemptRepository.GetByID s attemptID = .ok attempt)
    (hq : QuizRepository.GetByID s quizID = .ok quiz) :
    (Faulty.QuizService.SubmitAttempt f s now userID quizID attemptID answers timeSpent).1
      = .ok (gradedAttempt attempt quiz now answers timeSpent)
    ∧ ((gradedAttempt attempt quiz now answers timeSpent).IsPassed = true →
        0 < quiz.PassingScore → quiz.PassingScore < 2 ^ 62 →
        f.updateCoins = false → f.ledgerCreate = false →
        (∀ user : User, UserRepository.GetByID s userID = .ok user →
          UserRepository.GetByID
              (Faulty.QuizService.SubmitAttempt f s now userID quizID attemptID answers
                timeSpent).2 userID
            = .ok { user with GMFCCoins := user.GMFCCoins + quiz.PassingScore * 2 })
        ∧ (∀ other : Nat, other ≠ userID →
          UserRepository.GetByID
              (Faulty.QuizService.SubmitAttempt f s now userID quizID attemptID answers
                timeSpent).2 other
            = UserRepository.GetByID s other)
        ∧ (Faulty.QuizService.SubmitAttempt f s now userID quizID attemptID answers
              timeSpent).2.coinTransactions
          = s.coinTransactions ++
              [{ UserID := userID, Amount := quiz.PassingScore * 2, TransactionType := "earned",
                 Reason := "Quiz Passed: " ++ quiz.Title, ReferenceType := "quiz",
                 ReferenceID := some quiz.ID }])
    ∧ ((gradedAttempt attempt quiz now answers timeSpent).IsPassed = true →
        wrapInt64 (quiz.PassingScore * 2) ≤ 0 →
        (Faulty.QuizService.SubmitAttempt f s now userID quizID attemptID answers
            timeSpent).2.users = s.users
        ∧ (Faulty.QuizService.SubmitAttempt f s now userID quizID attemptID answers
              timeSpent).2.coinTransactions = s.coinTransactions)
    ∧ ((gradedAttempt attempt quiz now answers timeSpent).IsPassed = false →
        (Faulty.QuizService.SubmitAttempt f s now userID quizID attemptID answers
            timeSpent).2.users = s.users
        ∧ (Faulty.QuizService.SubmitAttempt f s now userID quizID attemptID answers
              timeSpent).2.coinTransactions = s.coinTransactions)
    ∧ (f.updateCoins = true →
        (Faulty.QuizService.SubmitAttempt f s now userID quizID attemptID answers
            timeSpent).2.users = s.users
        ∧ (Faulty.QuizService.SubmitAttempt f s now userID quizID attemptID answers
              timeSpent).2.coinTransactions = s.coinTransactions)
    ∧ ((gradedAttempt attempt quiz now answers timeSpent).IsPassed = true →
        0 < wrapInt64 (quiz.PassingScore * 2) →
        f.updateCoins = false → f.ledgerCreate = true →
        (Faulty.QuizService.SubmitAttempt f s now userID quizID attemptID answers
            timeSpent).2.users
          = (UserRepository.UpdateCoins s userID (wrapInt64 (quiz.PassingScore * 2))).users
        ∧ (Faulty.QuizService.SubmitAttempt f s now userID quizID attemptID answers
              timeSpent).2.coinTransactions = s.coinTransactions)
    ∧ (quiz.PassingScore = 0 → wrapInt64 (quiz.PassingScore * 2) = 0)
    ∧ (0 ≤ quiz.PassingScore → quiz.PassingScore < 2 ^ 62 →
        wrapInt64 (quiz.PassingScore * 2) = quiz.PassingScore * 2) := by
  have husers := faulty_submitAttempt_users f s now userID quizID attemptID answers timeSpent
    attempt quiz ha hq
  have hledger := faulty_submitAttempt_ledger f s now userID quizID attemptID answers timeSpent
    attempt quiz ha hq
  refine ⟨?_, ?_, ?_, ?_, ?_, ?_, ?_, ?_⟩
  · rw [faulty_submitAttempt_result,
      submitAttempt_result s now userID quizID attemptID answers timeSpent attempt quiz ha hq]
  · intro hpass hpos hsmall hf1 hf2
    have hreward := wrapInt64_double quiz.PassingScore (by omega) hsmall
    have hcond : 0 < wrapInt64 (quiz.PassingScore * 2) := by rw [hreward]; omega
    rw [if_pos ⟨hpass, hcond, hf1⟩, hreward] at husers
    rw [if_pos ⟨hpass, hcond, hf1, hf2⟩] at hledger
    refine ⟨?_, ?_, ?_⟩
    · intro user hu
      exact creditedUsers_get s userID (quiz.PassingScore * 2) _ husers user hu
    · intro other hne
      exact creditedUsers_get_other s userID (quiz.PassingScore * 2) _ husers other hne
    · rw [hledger]
      unfold quizTransaction
      rw [hreward]
  · intro _ hle
    rw [husers, hledger, if_neg (fun h => by omega), if_neg (fun h => by omega)]
    exact ⟨rfl, rfl⟩
  · intro hfail
    have hnot : ¬ (gradedAttempt attempt quiz now answers timeSpent).IsPassed = true := by
      rw [hfail]
      exact Bool.false_ne_true
    rw [husers, hledger, if_neg (fun h => hnot h.1), if_neg (fun h => hnot h.1)]
    exact ⟨rfl, rfl⟩
  · intro hf
    have hnot : ¬ f.updateCoins = false := by
      rw [hf]
      exact fun h => Bool.noConfusion h
    rw [husers, hledger, if_neg (fun h => hnot h.2.2), if_neg (fun h => hnot h.2.2.1)]
    exact ⟨rfl, rfl⟩
  · intro hpass hpos hf1 hf2
    have hnot : ¬ f.ledgerCreate = false := by
      rw [hf2]
      exact fun h => Bool.noConfusion h
    rw [husers, hledger, if_pos ⟨hpass, hpos, hf1⟩, if_neg (fun h => hnot h.2.2.2)]
    exact ⟨rfl, rfl⟩
  · intro h0
    rw [h0]
    rfl
  · intro h0 h1
    exact wrapInt64_double quiz.PassingScore h0 h1

/-- C27 (amended), evaluated on the example store: the attempt is passed with
passing score 70, user 7 goes from 50 to 190 coins and one row of 140 coins is
appended; with a failing coin update the balance stays 50. -/
theorem submitAttempt_coin_award_witness :
    UserRepository.GetByID
        (Faulty.QuizService.SubmitAttempt {} demoStore 200 7 1 1 demoAnswers 30).2 7
      = .ok { ID := 7, GMFCCoins := 190 }
    ∧ (Faulty.QuizService.SubmitAttempt {} demoStore 200 7 1 1 demoAnswers
        30).2.coinTransactions
      = [{ UserID := 7, Amount := 140, TransactionType := "earned",
           Reason := "Quiz Passed: Safety basics", ReferenceType := "quiz",
           ReferenceID := some 1 }]
    ∧ (Faulty.QuizService.SubmitAttempt { updateCoins := true } demoStore 200 7 1 1
        demoAnswers 30).2.users = [{ ID := 7, GMFCCoins := 50 }] := by
  have h := (submitAttempt_coin_award {} demoStore 200 7 1 1 demoAnswers 30 demoAttempt demoQuiz
    rfl rfl).2.1 (by rfl) (by decide) (by decide) rfl rfl
  have h2 := (submitAttempt_coin_award { updateCoins := true } demoStore 200 7 1 1 demoAnswers
    30 demoAttempt demoQuiz rfl rfl).2.2.2.2.1 rfl
  exact ⟨(h.1 { ID := 7, GMFCCoins := 50 } rfl).trans rfl, h.2.2.trans rfl, h2.1⟩

end LmsGoBe
